import Mathlib

/-!
# Warthog: decoding of server connection profiles

A shallow embedding of `business/entity/workspace.server.go`: the three `Model`
decoders (`ServerRequest`, `ServerUpdateRequest`, `WorkspaceItemServer`), the
capability query `IsK8SEnabled` and the fingerprint `PortForwardHash`.

Conventions of the embedding

* A Go method with a pointer receiver that mutates the receiver and returns an
  `error` becomes a function from the receiver's state and the arguments to an
  `Outcome`: the receiver's state when the call ends, together with either the
  returned `error` (`none` for `nil`) or the value of the run-time panic that
  ended it.
* `map[string]interface{}` is an association list read with first-match lookup;
  the `nil` map passed as the payload is `none`.
* `interface{}` holds the dynamic values a JSON document decodes to.  A
  `float64` is represented by the rational number it denotes (NaN and the
  infinities cannot come out of a JSON document and are left out).
* The strings of a payload and the string fields of a profile are Lean strings:
  nothing in the decoders looks inside them.  The target of a Port-Forward
  sub-entity, whose bytes `PortForwardHash` serializes and digests, is a Go
  string proper: a sequence of bytes that need not be valid UTF-8.
-/

namespace Warthog

/-! ## Dynamic values -/

/-- The dynamic types an `interface{}` obtained from a JSON document can have. -/
inductive DynType
  | nil
  | bool
  | float64
  | string
  | slice
  | map
deriving DecidableEq, Repr

/-- The values of `interface{}` in a decoded JSON document. -/
inductive Value
  | null
  | bool (b : Bool)
  | num (x : ℚ)
  | str (s : String)
  | list (xs : List Value)
  | obj (m : List (String × Value))

/-- The Go type `map[string]interface{}`. -/
abbrev Obj := List (String × Value)

/-- The dynamic type of a value, as the run time reports it in a failed assertion. -/
def Value.dynType : Value → DynType
  | .null => .nil
  | .bool _ => .bool
  | .num _ => .float64
  | .str _ => .string
  | .list _ => .slice
  | .obj _ => .map

/-- An `error` value, identified by its text. -/
structure GoError where
  text : String
deriving DecidableEq, Repr

/-- The function `errors.New`. -/
def errors.New (text : String) : GoError := ⟨text⟩

/-- The value carried by a run-time panic.  A failed type assertion `v.(T)` panics with a
`runtime.TypeAssertionError`, which records the dynamic type of `v` and the asserted type `T`. -/
inductive PanicValue
  | typeAssertion (concrete asserted : DynType)
  | other (text : String)
deriving DecidableEq, Repr

/-- How a call of a `Model` method ends: it returns, with the receiver in state `s` and the
returned `error`, or it panics, with the receiver in state `s` at that moment. -/
inductive Outcome (σ : Type)
  | returned (s : σ) (err : Option GoError)
  | panicked (s : σ) (p : PanicValue)
deriving DecidableEq, Repr

/-- The state of the receiver when the call ended. -/
def Outcome.state {σ : Type} : Outcome σ → σ
  | .returned s _ => s
  | .panicked s _ => s

/-- The returned `error`, when the call returned one. -/
def Outcome.error? {σ : Type} : Outcome σ → Option GoError
  | .returned _ err => err
  | .panicked _ _ => none

/-- Whether the call ended in a panic. -/
def Outcome.isPanic {σ : Type} : Outcome σ → Bool
  | .returned _ _ => false
  | .panicked _ _ => true

/-- The value of the panic that ended a call, when one did. -/
def Outcome.panic? {σ : Type} : Outcome σ → Option PanicValue
  | .returned _ _ => none
  | .panicked _ p => some p

/-- The outcome of a call made on a part of a larger receiver: the state is put back into the
whole with `f`, the returned error or the panic is that of the call. -/
def Outcome.mapState {σ τ : Type} (f : σ → τ) : Outcome σ → Outcome τ
  | .returned s err => .returned (f s) err
  | .panicked s p => .panicked (f s) p

/-! ## The field accessor -/

/-- The guard `v, ok := m[k]; ok && v != nil`: the value under `k` when the key is present
and its value is not nil. -/
def present (m : Obj) (k : String) : Option Value :=
  match m.lookup k with
  | some .null => none
  | some v => some v
  | none => none

/-- The assertion `v.(float64)`. -/
def assertFloat64 : Value → Except PanicValue ℚ
  | .num x => .ok x
  | v => .error (.typeAssertion v.dynType .float64)

/-- The assertion `v.(string)`. -/
def assertString : Value → Except PanicValue String
  | .str s => .ok s
  | v => .error (.typeAssertion v.dynType .string)

/-- The assertion `v.(bool)`. -/
def assertBool : Value → Except PanicValue Bool
  | .bool b => .ok b
  | v => .error (.typeAssertion v.dynType .bool)

/-- The assertion `v.([]interface{})`. -/
def assertSlice : Value → Except PanicValue (List Value)
  | .list xs => .ok xs
  | v => .error (.typeAssertion v.dynType .slice)

/-- The assertion `v.(map[string]interface{})`. -/
def assertMap : Value → Except PanicValue Obj
  | .obj m => .ok m
  | v => .error (.typeAssertion v.dynType .map)

/-- The conversion `int64(x)` of a `float64`: the fractional part is discarded (truncation
toward zero).  When the result does not fit in 64 bits the language leaves the value to the
implementation; the value amd64 produces is used. -/
def int64 (x : ℚ) : Int :=
  let t := Int.tdiv x.num x.den
  if -2 ^ 63 ≤ t ∧ t < 2 ^ 63 then t else -2 ^ 63

/-- Modelled from the spec: `structs.Map` of `pkg/structs`, whose source is not part of
`workspace.server.go`.  The payload keys `proto_files` and `import_path` are a "list of
strings": the helper applies the function to every element, in order, and collects the results
in a list of the same length.  A panic of the function ends the traversal. -/
def structs.Map {α β : Type} (f : α → Except PanicValue β) : List α → Except PanicValue (List β)
  | [] => .ok []
  | x :: xs =>
    match f x with
    | .error p => .error p
    | .ok y =>
      match structs.Map f xs with
      | .error p => .error p
      | .ok ys => .ok (y :: ys)

/-- One step inside a `Model` body: it goes on with a new receiver state, or the call ends
there with the given outcome. -/
abbrev Step (σ : Type) := Except (Outcome σ) σ

/-- Sequencing of statements: the next statement runs on the state the previous one left,
unless the call has already ended. -/
def Step.andThen {σ : Type} (x : Step σ) (f : σ → Step σ) : Step σ :=
  match x with
  | .ok s => f s
  | .error o => .error o

/-- The statement `if v, ok := m[k]; ok && v != nil { field = int64(v.(float64)) }`. -/
def setInt64 {σ : Type} (m : Obj) (k : String) (set : σ → Int → σ) (s : σ) : Step σ :=
  match present m k with
  | none => .ok s
  | some v =>
    match assertFloat64 v with
    | .ok x => .ok (set s (int64 x))
    | .error p => .error (.panicked s p)

/-- The statement `if v, ok := m[k]; ok && v != nil { field = v.(string) }`. -/
def setString {σ : Type} (m : Obj) (k : String) (set : σ → String → σ) (s : σ) : Step σ :=
  match present m k with
  | none => .ok s
  | some v =>
    match assertString v with
    | .ok x => .ok (set s x)
    | .error p => .error (.panicked s p)

/-- The statement `if v, ok := m[k]; ok && v != nil { field = v.(bool) }`. -/
def setBool {σ : Type} (m : Obj) (k : String) (set : σ → Bool → σ) (s : σ) : Step σ :=
  match present m k with
  | none => .ok s
  | some v =>
    match assertBool v with
    | .ok x => .ok (set s x)
    | .error p => .error (.panicked s p)

/-- The statement
`if v, ok := m[k]; ok && v != nil { field = structs.Map(v.([]interface{}), func(p) { return p.(string) }) }`. -/
def setStrings {σ : Type} (m : Obj) (k : String) (set : σ → List String → σ) (s : σ) : Step σ :=
  match present m k with
  | none => .ok s
  | some v =>
    match assertSlice v with
    | .error p => .error (.panicked s p)
    | .ok xs =>
      match structs.Map assertString xs with
      | .ok ss => .ok (set s ss)
      | .error p => .error (.panicked s p)

/-! ## Entities -/

/-- A sequence of bytes, each below 256. -/
abbrev Bytes := List Nat

/-- Modelled from the spec: the struct `K8SPortForward`, declared outside
`workspace.server.go`.  The Port-Forward sub-entity holds "tunnel parameters plus an `Enabled`
flag": the "tunnel target" and the "local/remote port bindings", under the payload keys
`enabled`, `target`, `local_port` and `remote_port`.  The target is a Go string: its bytes. -/
structure K8SPortForward where
  Enabled : Bool := false
  Target : Bytes := []
  LocalPort : Int := 0
  RemotePort : Int := 0
deriving DecidableEq, Repr

/-- The struct `WorkspaceItemServer`: stored server data.  The types `Auth` and `SavedQuery`
are declared outside `workspace.server.go`; they are the parameters `A` and `Q`. -/
structure WorkspaceItemServer (A Q : Type) where
  Addr : String := ""
  UseReflection : Bool := false
  ProtoFiles : List String := []
  ImportPath : List String := []
  NoTLS : Bool := false
  Insecure : Bool := false
  RootCertificate : String := ""
  ClientCertificate : String := ""
  ClientKey : String := ""
  Request : List (String × List (String × Option Q)) := []
  Auth : Option A := none
  K8SPortForward : Option Warthog.K8SPortForward := none
deriving DecidableEq, Repr

/-- The struct `ServerRequest`: identity fields and the embedded `WorkspaceItemServer`. -/
structure ServerRequest (A Q : Type) extends WorkspaceItemServer A Q where
  ID : Int := 0
  FolderID : Int := 0
  Title : String := ""
deriving DecidableEq, Repr

/-- The struct `ServerUpdateRequest`. -/
structure ServerUpdateRequest (Q : Type) where
  ID : Int := 0
  Service : String := ""
  Method : String := ""
  Request : Option Q := none
deriving DecidableEq, Repr

/-- The methods this file calls whose bodies are outside `workspace.server.go`:
`K8SPortForward.Model`, `Auth.Model` and `SavedQuery.Model`, each given the state of its
receiver and the nested mapping, with the zero values `Auth{}` and `SavedQuery{}`. -/
structure Collaborators (A Q : Type) where
  k8sModel : K8SPortForward → Obj → Outcome K8SPortForward
  authZero : A
  authModel : A → Obj → Outcome A
  queryZero : Q
  queryModel : Q → Obj → Outcome Q

/-! ## The decoders -/

section Decoders

variable {A Q : Type}

/-- Lines 131-136 of `WorkspaceItemServer.Model`: the Port-Forward sub-entity. -/
def stepK8S (c : Collaborators A Q) (server : Obj) (s : WorkspaceItemServer A Q) :
    Step (WorkspaceItemServer A Q) :=
  match present server "k8s" with
  | none => .ok s
  | some v =>
    match assertMap v with
    | .error p => .error (.panicked s p)
    | .ok m =>
      if 0 < m.length then
        match c.k8sModel {} m with
        | .returned k none => .ok { s with K8SPortForward := some k }
        | .returned k (some err) => .error (.returned { s with K8SPortForward := some k } (some err))
        | .panicked k p => .error (.panicked { s with K8SPortForward := some k } p)
      else .ok s

/-- Lines 137-142 of `WorkspaceItemServer.Model`: the Authentication sub-entity. -/
def stepAuth (c : Collaborators A Q) (server : Obj) (s : WorkspaceItemServer A Q) :
    Step (WorkspaceItemServer A Q) :=
  match present server "auth" with
  | none => .ok s
  | some v =>
    match assertMap v with
    | .error p => .error (.panicked s p)
    | .ok m =>
      if 0 < m.length then
        match c.authModel c.authZero m with
        | .returned a none => .ok { s with Auth := some a }
        | .returned a (some err) => .error (.returned { s with Auth := some a } (some err))
        | .panicked a p => .error (.panicked { s with Auth := some a } p)
      else .ok s

/-- Lines 104-130 of `WorkspaceItemServer.Model`: the scalar and list fields, in source
order. -/
def stepFields (server : Obj) (s : WorkspaceItemServer A Q) : Step (WorkspaceItemServer A Q) :=
  (setString server "addr" (fun s v => { s with Addr := v }) s)
    |>.andThen (setBool server "use_reflection" (fun s v => { s with UseReflection := v }))
    |>.andThen (setStrings server "proto_files" (fun s v => { s with ProtoFiles := v }))
    |>.andThen (setStrings server "import_path" (fun s v => { s with ImportPath := v }))
    |>.andThen (setBool server "no_tls" (fun s v => { s with NoTLS := v }))
    |>.andThen (setBool server "insecure" (fun s v => { s with Insecure := v }))
    |>.andThen (setString server "root_certificate" (fun s v => { s with RootCertificate := v }))
    |>.andThen (setString server "client_certificate" (fun s v => { s with ClientCertificate := v }))
    |>.andThen (setString server "client_key" (fun s v => { s with ClientKey := v }))

/-- The method `(*WorkspaceItemServer).Model`. -/
def WorkspaceItemServer.Model (c : Collaborators A Q) (s : WorkspaceItemServer A Q)
    (server : Option Obj) : Outcome (WorkspaceItemServer A Q) :=
  match server with
  | none => .returned s (some (errors.New "no data"))
  | some server =>
    match ((stepFields server s).andThen (stepK8S c server)).andThen (stepAuth c server) with
    | .ok s => .returned s none
    | .error o => o

/-- Lines 59-67 of `ServerRequest.Model`: the identity fields. -/
def stepIdentity (req : Obj) (r : ServerRequest A Q) : Step (ServerRequest A Q) :=
  (setInt64 req "id" (fun r v => { r with ID := v }) r)
    |>.andThen (setInt64 req "folder_id" (fun r v => { r with FolderID := v }))
    |>.andThen (setString req "title" (fun r v => { r with Title := v }))

/-- The method `(*ServerRequest).Model`. -/
def ServerRequest.Model (c : Collaborators A Q) (r : ServerRequest A Q) (req : Option Obj) :
    Outcome (ServerRequest A Q) :=
  match req with
  | none => .returned r (some (errors.New "no data"))
  | some req =>
    match stepIdentity req r with
    | .error o => o
    | .ok r =>
      match WorkspaceItemServer.Model c {} (some req) with
      | .returned s err => .returned { r with toWorkspaceItemServer := s } err
      | .panicked s p => .panicked { r with toWorkspaceItemServer := s } p

/-- Lines 89-93 of `ServerUpdateRequest.Model`: the saved query.  The value under `request` is
asserted to be a mapping, `SavedQuery.Model` runs on a fresh `SavedQuery`, what it returns is
discarded, and the entity is stored. -/
def stepRequest (c : Collaborators A Q) (req : Obj) (r : ServerUpdateRequest Q) :
    Step (ServerUpdateRequest Q) :=
  match present req "request" with
  | none => .ok r
  | some v =>
    match assertMap v with
    | .error p => .error (.panicked r p)
    | .ok m =>
      match c.queryModel c.queryZero m with
      | .returned sq _ => .ok { r with Request := some sq }
      | .panicked _ p => .error (.panicked r p)

/-- The method `(*ServerUpdateRequest).Model`. -/
def ServerUpdateRequest.Model (c : Collaborators A Q) (r : ServerUpdateRequest Q)
    (req : Option Obj) : Outcome (ServerUpdateRequest Q) :=
  match req with
  | none => .returned r (some (errors.New "no data"))
  | some req =>
    match (setInt64 req "id" (fun r v => { r with ID := v }) r)
        |>.andThen (setString req "service" (fun r v => { r with Service := v }))
        |>.andThen (setString req "method" (fun r v => { r with Method := v }))
        |>.andThen (stepRequest c req) with
    | .ok r => .returned r none
    | .error o => o

/-- The method `(*WorkspaceItemServer).IsK8SEnabled`:
`s.K8SPortForward != nil && s.K8SPortForward.Enabled`. -/
def WorkspaceItemServer.IsK8SEnabled (s : WorkspaceItemServer A Q) : Bool :=
  match s.K8SPortForward with
  | none => false
  | some k => k.Enabled

end Decoders

/-! ## The fingerprint -/

/-- The character U+0022, the quotation mark. -/
def quoteChar : Char := Char.ofNat 0x22

/-- The character U+005C, the reverse solidus. -/
def escapeChar : Char := Char.ofNat 0x5c

/-- The lowercase hexadecimal digit of a number below 16 (the table of `encoding/hex`). -/
def hexDigit (n : Nat) : Char := "0123456789abcdef".data.getD n '0'

/-- How `encoding/json` writes one character inside a string: the quotation mark and the
reverse solidus are escaped with a reverse solidus, backspace, form feed, line feed, carriage
return and tab are written with their letter, the other control characters, the HTML
characters `<`, `>`, `&` and the separators U+2028 and U+2029 are written as a `u` escape with
four hexadecimal digits, and every other character is written as it is. -/
def jsonEscapeChar (c : Char) : List Char :=
  let n := c.toNat
  if n = 0x22 then [escapeChar, quoteChar]
  else if n = 0x5c then [escapeChar, escapeChar]
  else if n = 0x08 then [escapeChar, 'b']
  else if n = 0x0c then [escapeChar, 'f']
  else if n = 0x0a then [escapeChar, 'n']
  else if n = 0x0d then [escapeChar, 'r']
  else if n = 0x09 then [escapeChar, 't']
  else if n < 0x20 ∨ n = 0x3c ∨ n = 0x3e ∨ n = 0x26 ∨ n = 0x2028 ∨ n = 0x2029 then
    [escapeChar, 'u', hexDigit (n / 4096 % 16), hexDigit (n / 256 % 16), hexDigit (n / 16 % 16),
      hexDigit (n % 16)]
  else [c]

/-- The UTF-8 encoding of a character. -/
def utf8EncodeChar (c : Char) : Bytes :=
  let n := c.toNat
  if n < 0x80 then [n]
  else if n < 0x800 then [0xc0 + n / 64, 0x80 + n % 64]
  else if n < 0x10000 then [0xe0 + n / 4096, 0x80 + n / 64 % 64, 0x80 + n % 64]
  else [0xf0 + n / 262144, 0x80 + n / 4096 % 64, 0x80 + n / 64 % 64, 0x80 + n % 64]

/-- The bytes of a text. -/
def utf8Encode (cs : List Char) : Bytes := cs.flatMap utf8EncodeChar

/-- The Go string holding the text `s`: its UTF-8 bytes. -/
def goString (s : String) : Bytes := utf8Encode s.data

/-- A continuation byte of UTF-8, `10xxxxxx`. -/
def isContinuation (b : Nat) : Bool := decide (0x80 ≤ b ∧ b ≤ 0xbf)

/-- The function `utf8.DecodeRuneInString`: the code point at the head of a byte string and
the number of bytes of its encoding, or `none` where Go returns `RuneError` with width 1
because the bytes at the head are not a well-formed UTF-8 sequence (a stray continuation
byte, an overlong form, a surrogate, a code point above U+10FFFF, a truncated sequence). -/
def decodeRune : Bytes → Option (Nat × Nat)
  | [] => none
  | b0 :: rest =>
    if b0 < 0x80 then some (b0, 1)
    else if b0 < 0xc2 then none
    else if b0 < 0xe0 then
      match rest with
      | b1 :: _ => if isContinuation b1 then some (b0 % 32 * 64 + b1 % 64, 2) else none
      | _ => none
    else if b0 < 0xf0 then
      match rest with
      | b1 :: b2 :: _ =>
        if (if b0 = 0xe0 then 0xa0 else 0x80) ≤ b1 ∧ b1 ≤ (if b0 = 0xed then 0x9f else 0xbf) ∧
            isContinuation b2 then
          some (b0 % 16 * 4096 + b1 % 64 * 64 + b2 % 64, 3)
        else none
      | _ => none
    else if b0 < 0xf5 then
      match rest with
      | b1 :: b2 :: b3 :: _ =>
        if (if b0 = 0xf0 then 0x90 else 0x80) ≤ b1 ∧ b1 ≤ (if b0 = 0xf4 then 0x8f else 0xbf) ∧
            isContinuation b2 ∧ isContinuation b3 then
          some (b0 % 8 * 262144 + b1 % 64 * 4096 + b2 % 64 * 64 + b3 % 64, 4)
        else none
      | _ => none
    else none

/-- The six characters `encoding/json` writes for a byte that is not part of a well-formed
UTF-8 sequence: the `u` escape of the replacement character U+FFFD. -/
def replacementEscape : List Char := [escapeChar, 'u', 'f', 'f', 'f', 'd']

/-- The loop of `encoding/json` over the bytes of a string: the code point at the head is
decoded and written escaped as needed (a code point written as it is keeps its bytes); a
byte that starts no well-formed sequence is written as the escape of U+FFFD and the loop
moves on by one byte.  `fuel` bounds the number of rounds. -/
def jsonStringBody : Nat → Bytes → Bytes
  | 0, _ => []
  | _ + 1, [] => []
  | fuel + 1, b :: rest =>
    match decodeRune (b :: rest) with
    | none => utf8Encode replacementEscape ++ jsonStringBody fuel rest
    | some (c, size) =>
      utf8Encode (jsonEscapeChar (Char.ofNat c)) ++ jsonStringBody fuel ((b :: rest).drop size)

/-- A string as `encoding/json` writes it: quoted, every character escaped as needed, every
invalid byte replaced. -/
def jsonString (s : Bytes) : Bytes := 0x22 :: (jsonStringBody s.length s ++ [0x22])

/-- The decimal digits of a number, most significant first; `fuel` bounds the number of
digits. -/
def decimalDigits : Nat → Nat → List Char
  | 0, _ => []
  | fuel + 1, n =>
    if n < 10 then [hexDigit n] else decimalDigits fuel (n / 10) ++ [hexDigit (n % 10)]

/-- An integer as `encoding/json` writes it: decimal, with a minus sign when negative. -/
def jsonInt : Int → List Char
  | .ofNat n => decimalDigits (n + 1) n
  | .negSucc n => '-' :: decimalDigits (n + 2) (n + 1)

/-- A boolean as `encoding/json` writes it. -/
def jsonBool (b : Bool) : List Char := if b then "true".data else "false".data

/-- A member name as `encoding/json` writes it in an object: quoted and followed by a colon. -/
def jsonKey (name : String) : List Char := quoteChar :: (name.data ++ [quoteChar, ':'])

/-- The value of a struct field as `encoding/json` sees it through reflection: a boolean, an
integer, a string, or a value of a type JSON has no form for (a channel, a function, a
complex number), named by its type. -/
inductive JsonField
  | bool (b : Bool)
  | int (n : Int)
  | string (s : Bytes)
  | unsupported (type : String)
deriving DecidableEq, Repr

/-- The bytes `encoding/json` writes for a field value, or the `UnsupportedTypeError` it
returns for a value of a type JSON has no form for. -/
def jsonValue : JsonField → Except GoError Bytes
  | .bool b => .ok (utf8Encode (jsonBool b))
  | .int n => .ok (utf8Encode (jsonInt n))
  | .string s => .ok (jsonString s)
  | .unsupported type => .error (errors.New ("json: unsupported type: " ++ type))

/-- The members of a struct as `encoding/json` writes them: name and value of each field in
the order of the fields, separated by commas; the error of a field stops the serialization. -/
def jsonMembers : List (String × JsonField) → Except GoError Bytes
  | [] => .ok []
  | (name, field) :: rest =>
    match jsonValue field, jsonMembers rest with
    | .error e, _ => .error e
    | _, .error e => .error e
    | .ok v, .ok tail =>
      .ok (utf8Encode (jsonKey name) ++ v ++ (if rest.isEmpty then [] else 0x2c :: tail))

/-- The argument of `json.Marshal` as `encoding/json` sees it through reflection: a nil
pointer, or a pointer to a struct with the given members. -/
inductive JsonPointer
  | nil
  | struct (members : List (String × JsonField))
deriving DecidableEq, Repr

/-- The function `json.Marshal` on a pointer to a struct: the text `null` for the nil
pointer, otherwise the members between braces, or the error of the first member that cannot
be written. -/
def json.Marshal : JsonPointer → Except GoError Bytes
  | .nil => .ok (utf8Encode "null".data)
  | .struct members =>
    match jsonMembers members with
    | .error e => .error e
    | .ok body => .ok (0x7b :: (body ++ [0x7d]))

/-- Modelled from the spec: the field `K8SPortForward` of a profile as `encoding/json` sees
it.  The declaration of the struct (and with it the field types and tags) is outside
`workspace.server.go`; the members are those of the payload the sub-entity is decoded from,
`enabled`, `target`, `local_port` and `remote_port`, in the order of the fields. -/
def reflectPortForward : Option K8SPortForward → JsonPointer
  | none => .nil
  | some k =>
    .struct [("enabled", .bool k.Enabled), ("target", .string k.Target),
      ("local_port", .int k.LocalPort), ("remote_port", .int k.RemotePort)]

/-- The sine-derived constants of MD5 (RFC 1321). -/
def md5K : List Nat :=
  [0xd76aa478, 0xe8c7b756, 0x242070db, 0xc1bdceee, 0xf57c0faf, 0x4787c62a, 0xa8304613, 0xfd469501,
   0x698098d8, 0x8b44f7af, 0xffff5bb1, 0x895cd7be, 0x6b901122, 0xfd987193, 0xa679438e, 0x49b40821,
   0xf61e2562, 0xc040b340, 0x265e5a51, 0xe9b6c7aa, 0xd62f105d, 0x02441453, 0xd8a1e681, 0xe7d3fbc8,
   0x21e1cde6, 0xc33707d6, 0xf4d50d87, 0x455a14ed, 0xa9e3e905, 0xfcefa3f8, 0x676f02d9, 0x8d2a4c8a,
   0xfffa3942, 0x8771f681, 0x6d9d6122, 0xfde5380c, 0xa4beea44, 0x4bdecfa9, 0xf6bb4b60, 0xbebfbc70,
   0x289b7ec6, 0xeaa127fa, 0xd4ef3085, 0x04881d05, 0xd9d4d039, 0xe6db99e5, 0x1fa27cf8, 0xc4ac5665,
   0xf4292244, 0x432aff97, 0xab9423a7, 0xfc93a039, 0x655b59c3, 0x8f0ccc92, 0xffeff47d, 0x85845dd1,
   0x6fa87e4f, 0xfe2ce6e0, 0xa3014314, 0x4e0811a1, 0xf7537e82, 0xbd3af235, 0x2ad7d2bb, 0xeb86d391]

/-- The per-round rotation amounts of MD5. -/
def md5S : List Nat :=
  [7, 12, 17, 22, 7, 12, 17, 22, 7, 12, 17, 22, 7, 12, 17, 22,
   5, 9, 14, 20, 5, 9, 14, 20, 5, 9, 14, 20, 5, 9, 14, 20,
   4, 11, 16, 23, 4, 11, 16, 23, 4, 11, 16, 23, 4, 11, 16, 23,
   6, 10, 15, 21, 6, 10, 15, 21, 6, 10, 15, 21, 6, 10, 15, 21]

/-- Reduction to a 32-bit word. -/
def w32 (x : Nat) : Nat := x % 2 ^ 32

/-- Left rotation of a 32-bit word. -/
def rotl32 (x n : Nat) : Nat := w32 (x <<< n) ||| (x >>> (32 - n))

/-- Bitwise complement of a 32-bit word. -/
def not32 (x : Nat) : Nat := x ^^^ 0xffffffff

/-- The four chaining words of MD5. -/
structure Md5State where
  a : Nat
  b : Nat
  c : Nat
  d : Nat
deriving DecidableEq, Repr

/-- The initial chaining value. -/
def md5Init : Md5State := ⟨0x67452301, 0xefcdab89, 0x98badcfe, 0x10325476⟩

/-- Operation `i` (0 to 63) of the compression function on the message words `m`. -/
def md5Round (m : List Nat) (st : Md5State) (i : Nat) : Md5State :=
  let f :=
    if i < 16 then (st.b &&& st.c) ||| (not32 st.b &&& st.d)
    else if i < 32 then (st.d &&& st.b) ||| (not32 st.d &&& st.c)
    else if i < 48 then st.b ^^^ st.c ^^^ st.d
    else st.c ^^^ (st.b ||| not32 st.d)
  let g :=
    if i < 16 then i
    else if i < 32 then (5 * i + 1) % 16
    else if i < 48 then (3 * i + 5) % 16
    else (7 * i) % 16
  let x := w32 (f + st.a + md5K.getD i 0 + m.getD g 0)
  ⟨st.d, w32 (st.b + rotl32 x (md5S.getD i 0)), st.b, st.c⟩

/-- The little-endian 32-bit word at the head of a byte sequence. -/
def leWord (bs : Bytes) : Nat :=
  bs.getD 0 0 + bs.getD 1 0 * 2 ^ 8 + bs.getD 2 0 * 2 ^ 16 + bs.getD 3 0 * 2 ^ 24

/-- The sixteen message words of a 64-byte block. -/
def chunkWords (chunk : Bytes) : List Nat :=
  (List.range 16).map fun j => leWord (chunk.drop (4 * j))

/-- The compression function on one 64-byte block. -/
def md5Block (st : Md5State) (chunk : Bytes) : Md5State :=
  let r := (List.range 64).foldl (md5Round (chunkWords chunk)) st
  ⟨w32 (st.a + r.a), w32 (st.b + r.b), w32 (st.c + r.c), w32 (st.d + r.d)⟩

/-- The `n` low bytes of a number, least significant first. -/
def leBytes (n : Nat) (x : Nat) : Bytes :=
  (List.range n).map fun j => (x >>> (8 * j)) % 256

/-- The padding of MD5: the bit 1, zeros up to 56 modulo 64 bytes, the bit length on 64 bits. -/
def md5Pad (msg : Bytes) : Bytes :=
  let l := msg.length
  msg ++ [0x80] ++ List.replicate ((119 - l % 64) % 64) 0 ++ leBytes 8 ((8 * l) % 2 ^ 64)

/-- The compression function over `n` successive blocks. -/
def md5Blocks : Nat → Md5State → Bytes → Md5State
  | 0, st, _ => st
  | n + 1, st, bs => md5Blocks n (md5Block st (bs.take 64)) (bs.drop 64)

/-- The final chaining value of MD5 on a message. -/
def md5Final (msg : Bytes) : Md5State :=
  md5Blocks ((md5Pad msg).length / 64) md5Init (md5Pad msg)

/-- The sixteen digest bytes of a chaining value. -/
def md5Digest (st : Md5State) : Bytes :=
  leBytes 4 st.a ++ leBytes 4 st.b ++ leBytes 4 st.c ++ leBytes 4 st.d

/-- The function `md5.Sum` of `crypto/md5`: the sixteen bytes of the MD5 digest. -/
def md5.Sum (data : Bytes) : Bytes := md5Digest (md5Final data)

/-- The function `hex.EncodeToString`: two lowercase hexadecimal digits for each byte. -/
def hex.EncodeToString (bs : Bytes) : String :=
  String.mk (bs.flatMap fun b => [hexDigit (b / 16), hexDigit (b % 16)])

/-- How a call of `PortForwardHash` ends: it returns the digest, or `log.Fatal` ends the
process with the serialization error. -/
inductive HashOutcome
  | digest (hex : String)
  | fatal (err : GoError)
deriving DecidableEq, Repr

section Fingerprint

variable {A Q : Type}

/-- Lines 155 to 160 of `PortForwardHash`, on what `json.Marshal` returned: `log.Fatal` ends
the process when it returned an error, otherwise the bytes are digested with `md5.Sum` and
the digest is rendered with `hex.EncodeToString`. -/
def digestOrFatal : Except GoError Bytes → HashOutcome
  | .error err => .fatal err
  | .ok data => .digest (hex.EncodeToString (md5.Sum data))

/-- The method `(*WorkspaceItemServer).PortForwardHash`: the hexadecimal MD5 digest of the
serialized Port-Forward field, or the end of the process in `log.Fatal` when the serialization
returns an error. -/
def WorkspaceItemServer.PortForwardHash (s : WorkspaceItemServer A Q) : HashOutcome :=
  digestOrFatal (json.Marshal (reflectPortForward s.K8SPortForward))

end Fingerprint

/-! ## Collaborators used in scenarios -/

/-- Modelled from the spec: the method `K8SPortForward.Model`, whose body is outside
`workspace.server.go`.  The Port-Forward decoder "extracts tunnel target, local/remote port
bindings, and the `Enabled` flag" with the field accessor, from the keys `enabled`, `target`,
`local_port` and `remote_port`. -/
def K8SPortForward.Model (k : K8SPortForward) (m : Obj) : Outcome K8SPortForward :=
  match (setBool m "enabled" (fun k v => { k with Enabled := v }) k)
      |>.andThen (setString m "target" (fun k v => { k with Target := goString v }))
      |>.andThen (setInt64 m "local_port" (fun k v => { k with LocalPort := v }))
      |>.andThen (setInt64 m "remote_port" (fun k v => { k with RemotePort := v })) with
  | .ok k => .returned k none
  | .error o => o

/-- Collaborators for payloads without `auth` and `request`: the Port-Forward decoder modelled
from the spec, and authentication and saved-query entities without fields. -/
def scenarioCollaborators : Collaborators Unit Unit where
  k8sModel := K8SPortForward.Model
  authZero := ()
  authModel := fun a _ => .returned a none
  queryZero := ()
  queryModel := fun q _ => .returned q none

/-- Collaborators whose Port-Forward and Authentication decoders reject every mapping with
the error `e`, leaving their receiver as it was. -/
def rejectingCollaborators (e : GoError) : Collaborators Unit Unit where
  k8sModel := fun k _ => .returned k (some e)
  authZero := ()
  authModel := fun a _ => .returned a (some e)
  queryZero := ()
  queryModel := fun q _ => .returned q none

/-- The payload of the first scenario: `id` 5, `title` Prod, `addr` localhost:50051 and an
empty `k8s` mapping. -/
def scenarioProd : Obj :=
  [("id", .num 5), ("title", .str "Prod"), ("addr", .str "localhost:50051"), ("k8s", .obj [])]

/-- The payload of the second scenario: a `k8s` mapping with the given `enabled` flag, target
pod/x, local port 8080 and remote port 80. -/
def scenarioTunnel (enabled : Bool) : Obj :=
  [("k8s", .obj [("enabled", .bool enabled), ("target", .str "pod/x"), ("local_port", .num 8080),
    ("remote_port", .num 80)])]

/-! ## Well-typed payloads -/

/-- The type a decoder asserts for the value of a key. -/
inductive Kind
  | float64
  | string
  | bool
  | strings
  | map
deriving DecidableEq, Repr

/-- Whether a value is a string. -/
def Value.isStr : Value → Bool
  | .str _ => true
  | _ => false

/-- Whether a value passes the assertions made for a key of the given kind; for a list of
strings, the list and each of its elements. -/
def Kind.accepts : Kind → Value → Bool
  | .float64, .num _ => true
  | .string, .str _ => true
  | .bool, .bool _ => true
  | .strings, .list xs => xs.all Value.isStr
  | .map, .obj _ => true
  | _, _ => false

/-- The scalar and list keys read by `WorkspaceItemServer.Model`, in source order. -/
def fieldKeys : List (String × Kind) :=
  [("addr", .string), ("use_reflection", .bool), ("proto_files", .strings),
   ("import_path", .strings), ("no_tls", .bool), ("insecure", .bool),
   ("root_certificate", .string), ("client_certificate", .string), ("client_key", .string)]

/-- The keys read by `WorkspaceItemServer.Model`. -/
def profileKeys : List (String × Kind) := fieldKeys ++ [("k8s", .map), ("auth", .map)]

/-- The keys read by `ServerRequest.Model` itself. -/
def identityKeys : List (String × Kind) :=
  [("id", .float64), ("folder_id", .float64), ("title", .string)]

/-- The keys read by `ServerRequest.Model`, directly or through the embedded profile. -/
def requestKeys : List (String × Kind) := identityKeys ++ profileKeys

/-- The key is absent, nil, or holds a value of the kind asserted for it. -/
def hasKind (m : Obj) (kk : String × Kind) : Bool :=
  match present m kk.1 with
  | none => true
  | some v => kk.2.accepts v

/-- Every listed key of the payload is absent, nil, or of the asserted kind. -/
def wellTyped (keys : List (String × Kind)) (m : Obj) : Bool := keys.all (hasKind m)

/-- The key holds a non-nil value that fails the assertions made for it. -/
def mistyped (m : Obj) (kk : String × Kind) : Bool := !hasKind m kk

/-- No listed key is present with a non-nil value. -/
def noneOf (keys : List (String × Kind)) (m : Obj) : Bool :=
  keys.all fun kk => (present m kk.1).isNone

/-- A property holds of the receiver's state wherever a step leaves it. -/
def Step.All {σ : Type} (P : σ → Prop) : Step σ → Prop
  | .ok s => P s
  | .error o => P o.state

/-- The string a well-typed payload gives a field: the value under `k`, or `old` when the key
is absent or nil. -/
def strAt (m : Obj) (k : String) (old : String) : String :=
  match present m k with
  | some (.str x) => x
  | _ => old

/-- The flag a well-typed payload gives a field. -/
def boolAt (m : Obj) (k : String) (old : Bool) : Bool :=
  match present m k with
  | some (.bool x) => x
  | _ => old

/-- The integer a well-typed payload gives a field: the converted number under `k`. -/
def int64At (m : Obj) (k : String) (old : Int) : Int :=
  match present m k with
  | some (.num x) => int64 x
  | _ => old

/-- The strings among the elements of a list. -/
def stringsOf : List Value → List String
  | [] => []
  | .str x :: xs => x :: stringsOf xs
  | _ :: xs => stringsOf xs

/-- The list of strings a well-typed payload gives a field. -/
def stringsAt (m : Obj) (k : String) (old : List String) : List String :=
  match present m k with
  | some (.list xs) => stringsOf xs
  | _ => old

/-- The nested mapping handed to a sub-entity decoder: the value under `k` when it is a
non-empty mapping. -/
def subInput (m : Obj) (k : String) : Option Obj :=
  match present m k with
  | some (.obj n) => if 0 < n.length then some n else none
  | _ => none

/-- The profile that lines 104-130 of `WorkspaceItemServer.Model` leave on a well-typed
payload: each scalar or list field holds the value under its key, or what it held before when
the key is absent or nil. -/
def decodedFields {A Q : Type} (server : Obj) (s : WorkspaceItemServer A Q) :
    WorkspaceItemServer A Q :=
  { s with
    Addr := strAt server "addr" s.Addr
    UseReflection := boolAt server "use_reflection" s.UseReflection
    ProtoFiles := stringsAt server "proto_files" s.ProtoFiles
    ImportPath := stringsAt server "import_path" s.ImportPath
    NoTLS := boolAt server "no_tls" s.NoTLS
    Insecure := boolAt server "insecure" s.Insecure
    RootCertificate := strAt server "root_certificate" s.RootCertificate
    ClientCertificate := strAt server "client_certificate" s.ClientCertificate
    ClientKey := strAt server "client_key" s.ClientKey }

/-- The request that lines 59-69 of `ServerRequest.Model` leave on a well-typed payload: the
identity fields hold the value under their key, or what they held before, and the embedded
profile is the zero value. -/
def decodedIdentity {A Q : Type} (req : Obj) (r : ServerRequest A Q) : ServerRequest A Q :=
  { toWorkspaceItemServer := {}
    ID := int64At req "id" r.ID
    FolderID := int64At req "folder_id" r.FolderID
    Title := strAt req "title" r.Title }

/-- A step ended the call in the panic of a failed type assertion. -/
def Step.Panics {σ : Type} (x : Step σ) : Prop :=
  ∃ s a b, x = .error (.panicked s (.typeAssertion a b))

/-- A step went on, or ended the call in the panic of a failed type assertion. -/
def Step.OkOrPanics {σ : Type} (x : Step σ) : Prop :=
  (∃ s, x = .ok s) ∨ x.Panics

/-- A call ended in the panic of a failed type assertion. -/
def Outcome.TypePanic {σ : Type} (o : Outcome σ) : Prop :=
  ∃ s a b, o = .panicked s (.typeAssertion a b)

/-- Two Port-Forward fields are field-wise equal: both absent, or both present with the same
`Enabled`, `Target`, `LocalPort` and `RemotePort`. -/
def SamePortForward : Option K8SPortForward → Option K8SPortForward → Prop
  | none, none => True
  | some a, some b =>
    a.Enabled = b.Enabled ∧ a.Target = b.Target ∧ a.LocalPort = b.LocalPort ∧
      a.RemotePort = b.RemotePort
  | _, _ => False

/-- A payload with every kind of key: identity, strings, flags, lists and a non-empty `k8s`
mapping. -/
def scenarioFull : Obj :=
  [("id", .num 7), ("folder_id", .num 2), ("title", .str "Staging"),
   ("addr", .str "10.0.0.1:443"), ("use_reflection", .bool true),
   ("proto_files", .list [.str "a.proto", .str "b.proto"]), ("import_path", .list [.str "/p"]),
   ("no_tls", .bool true), ("insecure", .bool true), ("root_certificate", .str "root.pem"),
   ("client_certificate", .str "client.pem"), ("client_key", .str "client.key"),
   ("k8s", .obj [("enabled", .bool true), ("target", .str "pod/x")])]

/-- The tunnel of the second scenario: target pod/x, local port 8080, remote port 80, with
the given `Enabled` flag. -/
def tunnelEntity (enabled : Bool) : K8SPortForward :=
  { Enabled := enabled, Target := goString "pod/x", LocalPort := 8080, RemotePort := 80 }

/-- The fingerprint of a profile whose Port-Forward field is `p`. -/
def fingerprint (p : Option K8SPortForward) : HashOutcome :=
  ({ K8SPortForward := p } : WorkspaceItemServer Unit Unit).PortForwardHash

/-- The entity `b` is the entity `a` with exactly one field changed. -/
def SingleFieldMutation (a b : K8SPortForward) : Prop :=
  (a.Enabled ≠ b.Enabled ∧ a.Target = b.Target ∧ a.LocalPort = b.LocalPort ∧
    a.RemotePort = b.RemotePort) ∨
  (a.Enabled = b.Enabled ∧ a.Target ≠ b.Target ∧ a.LocalPort = b.LocalPort ∧
    a.RemotePort = b.RemotePort) ∨
  (a.Enabled = b.Enabled ∧ a.Target = b.Target ∧ a.LocalPort ≠ b.LocalPort ∧
    a.RemotePort = b.RemotePort) ∨
  (a.Enabled = b.Enabled ∧ a.Target = b.Target ∧ a.LocalPort = b.LocalPort ∧
    a.RemotePort ≠ b.RemotePort)

/-- The four words of a chaining value are 32-bit words. -/
def Md5State.Bounded (st : Md5State) : Prop :=
  st.a < 2 ^ 32 ∧ st.b < 2 ^ 32 ∧ st.c < 2 ^ 32 ∧ st.d < 2 ^ 32

/-- The target of a Port-Forward sub-entity is valid UTF-8: the bytes of a text. -/
def K8SPortForward.ValidTarget (k : K8SPortForward) : Prop :=
  ∃ cs : List Char, k.Target = utf8Encode cs

/-- A request whose embedded profile holds an address and an enabled tunnel from an earlier
decode. -/
def staleRequest : ServerRequest Unit Unit :=
  { ID := 3, Title := "Old", Addr := "old:1", Auth := some (),
    K8SPortForward := some (tunnelEntity true) }

/-- The keys read by `ServerUpdateRequest.Model`. -/
def updateKeys : List (String × Kind) :=
  [("id", .float64), ("service", .string), ("method", .string), ("request", .map)]

/-- Collaborators whose Saved-Query decoder fails with the error `e` on every mapping. -/
def failingQueryCollaborators (e : GoError) : Collaborators Unit Unit where
  k8sModel := K8SPortForward.Model
  authZero := ()
  authModel := fun a _ => .returned a none
  queryZero := ()
  queryModel := fun q _ => .returned q (some e)

/-- An update payload: identifier, service, method and a saved query. -/
def scenarioUpdate : Obj :=
  [("id", .num 9), ("service", .str "pkg.Greeter"), ("method", .str "SayHello"),
   ("request", .obj [("name", .str "x")])]

/-- The payload `p` with the key `k` mapped to nil. -/
def withNull (p : Obj) (k : String) : Obj := (k, .null) :: p

/-- The payload `p` with the key `k` removed. -/
def without (p : Obj) (k : String) : Obj := p.filter fun kv => !(kv.1 == k)

/-- Collaborators whose Port-Forward decoder rejects every mapping with the error `e` and
whose Authentication decoder accepts every mapping. -/
def k8sRejectingCollaborators (e : GoError) : Collaborators Unit Unit where
  k8sModel := fun k _ => .returned k (some e)
  authZero := ()
  authModel := fun a _ => .returned a none
  queryZero := ()
  queryModel := fun q _ => .returned q none

/-- A payload with a non-empty `k8s` mapping and a non-empty `auth` mapping. -/
def scenarioBoth : Obj :=
  [("addr", .str "a:1"), ("k8s", .obj [("target", .str "pod/x")]),
   ("auth", .obj [("type", .str "basic")])]

/-- A profile with every field set, as an earlier decode may have left it. -/
def staleProfile : WorkspaceItemServer Unit Unit :=
  { Addr := "old:1", UseReflection := true, ProtoFiles := ["old.proto"], ImportPath := ["/old"],
    NoTLS := true, Insecure := true, RootCertificate := "r.pem", ClientCertificate := "c.pem",
    ClientKey := "c.key", Request := [("svc", [("m", some ())])], Auth := some (),
    K8SPortForward := some (tunnelEntity true) }

/-- The type named in the first assertion made on the value of a key of the given kind. -/
def Kind.asserted : Kind → DynType
  | .float64 => .float64
  | .string => .string
  | .bool => .bool
  | .strings => .slice
  | .map => .map

/-- The first element of a list that is not a string. -/
def firstNonString : List Value → Option Value
  | [] => none
  | .str _ :: xs => firstNonString xs
  | v :: _ => some v

/-- The run-time error raised on a value that fails the assertions made for a key of the
given kind, `none` for a value that passes them.  The error names the dynamic type of the
value and the asserted type; for a list of strings whose value is a list, it is the error of
the assertion `p.(string)` on the first element that is not a string. -/
def assertionPanic (kind : Kind) (v : Value) : Option PanicValue :=
  match kind, v with
  | .strings, .list xs => (firstNonString xs).map fun x => .typeAssertion x.dynType .string
  | kind, v => if kind.accepts v then none else some (.typeAssertion v.dynType kind.asserted)

/-- The profile after the statements of the first `n` scalar and list keys, in source order,
on a payload well typed at these keys: their fields hold the value under their key, or what
they held before when the key is absent or nil; every other field is as it was. -/
def fieldsWritten {A Q : Type} (n : Nat) (server : Obj) (s : WorkspaceItemServer A Q) :
    WorkspaceItemServer A Q :=
  { s with
    Addr := if 0 < n then strAt server "addr" s.Addr else s.Addr
    UseReflection := if 1 < n then boolAt server "use_reflection" s.UseReflection
      else s.UseReflection
    ProtoFiles := if 2 < n then stringsAt server "proto_files" s.ProtoFiles else s.ProtoFiles
    ImportPath := if 3 < n then stringsAt server "import_path" s.ImportPath else s.ImportPath
    NoTLS := if 4 < n then boolAt server "no_tls" s.NoTLS else s.NoTLS
    Insecure := if 5 < n then boolAt server "insecure" s.Insecure else s.Insecure
    RootCertificate := if 6 < n then strAt server "root_certificate" s.RootCertificate
      else s.RootCertificate
    ClientCertificate := if 7 < n then strAt server "client_certificate" s.ClientCertificate
      else s.ClientCertificate
    ClientKey := if 8 < n then strAt server "client_key" s.ClientKey else s.ClientKey }

/-- The request after the statements of the first `n` identity keys, in source order, on a
payload well typed at these keys; the embedded profile is as it was. -/
def identityWritten {A Q : Type} (n : Nat) (req : Obj) (r : ServerRequest A Q) :
    ServerRequest A Q :=
  { r with
    ID := if 0 < n then int64At req "id" r.ID else r.ID
    FolderID := if 1 < n then int64At req "folder_id" r.FolderID else r.FolderID
    Title := if 2 < n then strAt req "title" r.Title else r.Title }

/-! ## Lemmas on the field accessor -/

section AccessorLemmas

variable {σ : Type}

theorem andThen_all {P : σ → Prop} {x : Step σ} {f : σ → Step σ}
    (hx : x.All P) (hf : ∀ s, P s → (f s).All P) : (x.andThen f).All P := by
  cases x with
  | ok s => exact hf s hx
  | error o => exact hx

theorem setInt64_all {P : σ → Prop} (m : Obj) (k : String) {set : σ → Int → σ} {s : σ}
    (hset : ∀ s v, P s → P (set s v)) (hs : P s) : (setInt64 m k set s).All P := by
  unfold setInt64
  cases present m k with
  | none => exact hs
  | some v => cases v <;> simp [assertFloat64, Step.All, Outcome.state, hs, hset]

theorem setString_all {P : σ → Prop} (m : Obj) (k : String) {set : σ → String → σ} {s : σ}
    (hset : ∀ s v, P s → P (set s v)) (hs : P s) : (setString m k set s).All P := by
  unfold setString
  cases present m k with
  | none => exact hs
  | some v => cases v <;> simp [assertString, Step.All, Outcome.state, hs, hset]

theorem setBool_all {P : σ → Prop} (m : Obj) (k : String) {set : σ → Bool → σ} {s : σ}
    (hset : ∀ s v, P s → P (set s v)) (hs : P s) : (setBool m k set s).All P := by
  unfold setBool
  cases present m k with
  | none => exact hs
  | some v => cases v <;> simp [assertBool, Step.All, Outcome.state, hs, hset]

theorem setStrings_all {P : σ → Prop} (m : Obj) (k : String) {set : σ → List String → σ} {s : σ}
    (hset : ∀ s v, P s → P (set s v)) (hs : P s) : (setStrings m k set s).All P := by
  unfold setStrings
  cases present m k with
  | none => exact hs
  | some v =>
    cases v <;> simp only [assertSlice, Step.All, Outcome.state, hs]
    rename_i xs
    cases structs.Map assertString xs <;> simp [hs, hset]

theorem present_of_lookup_none {m : Obj} {k : String} (h : m.lookup k = none) :
    present m k = none := by
  simp [present, h]

theorem setInt64_absent {m : Obj} {k : String} (set : σ → Int → σ) (s : σ)
    (h : present m k = none) : setInt64 m k set s = .ok s := by
  simp [setInt64, h]

theorem setString_absent {m : Obj} {k : String} (set : σ → String → σ) (s : σ)
    (h : present m k = none) : setString m k set s = .ok s := by
  simp [setString, h]

theorem setBool_absent {m : Obj} {k : String} (set : σ → Bool → σ) (s : σ)
    (h : present m k = none) : setBool m k set s = .ok s := by
  simp [setBool, h]

theorem setStrings_absent {m : Obj} {k : String} (set : σ → List String → σ) (s : σ)
    (h : present m k = none) : setStrings m k set s = .ok s := by
  simp [setStrings, h]

end AccessorLemmas

/-! ## Lemmas on well-typed payloads -/

section WellTypedLemmas

variable {σ : Type}

theorem structsMap_assertString {xs : List Value} (h : xs.all Value.isStr = true) :
    structs.Map assertString xs = .ok (stringsOf xs) := by
  induction xs with
  | nil => rfl
  | cons x xs ih =>
    simp only [List.all_cons, Bool.and_eq_true] at h
    cases x <;> simp_all [structs.Map, assertString, stringsOf, Value.isStr]

theorem stringsOf_map_str (ss : List String) : stringsOf (ss.map Value.str) = ss := by
  induction ss with
  | nil => rfl
  | cons x xs ih => simp [stringsOf, ih]

theorem setInt64_wellTyped {m : Obj} {k : String} (set : σ → Int → σ) (get : σ → Int)
    (s : σ) (hget : ∀ s, set s (get s) = s) (h : hasKind m (k, .float64) = true) :
    setInt64 m k set s = .ok (set s (int64At m k (get s))) := by
  unfold setInt64 int64At
  unfold hasKind at h
  cases hp : present m k with
  | none => simp [hget]
  | some v => rw [hp] at h; cases v <;> simp_all [Kind.accepts, assertFloat64]

theorem setString_wellTyped {m : Obj} {k : String} (set : σ → String → σ) (get : σ → String)
    (s : σ) (hget : ∀ s, set s (get s) = s) (h : hasKind m (k, .string) = true) :
    setString m k set s = .ok (set s (strAt m k (get s))) := by
  unfold setString strAt
  unfold hasKind at h
  cases hp : present m k with
  | none => simp [hget]
  | some v => rw [hp] at h; cases v <;> simp_all [Kind.accepts, assertString]

theorem setBool_wellTyped {m : Obj} {k : String} (set : σ → Bool → σ) (get : σ → Bool)
    (s : σ) (hget : ∀ s, set s (get s) = s) (h : hasKind m (k, .bool) = true) :
    setBool m k set s = .ok (set s (boolAt m k (get s))) := by
  unfold setBool boolAt
  unfold hasKind at h
  cases hp : present m k with
  | none => simp [hget]
  | some v => rw [hp] at h; cases v <;> simp_all [Kind.accepts, assertBool]

theorem setStrings_wellTyped {m : Obj} {k : String} (set : σ → List String → σ)
    (get : σ → List String) (s : σ) (hget : ∀ s, set s (get s) = s)
    (h : hasKind m (k, .strings) = true) :
    setStrings m k set s = .ok (set s (stringsAt m k (get s))) := by
  unfold setStrings stringsAt
  unfold hasKind at h
  cases hp : present m k with
  | none => simp [hget]
  | some v =>
    rw [hp] at h
    cases v with
    | list xs =>
      have hx : xs.all Value.isStr = true := by simpa [Kind.accepts] using h
      simp [assertSlice, structsMap_assertString hx]
    | _ => simp [Kind.accepts] at h

end WellTypedLemmas

section DecoderLemmas

variable {A Q : Type}

/-- The profile `stepFields` leaves on a well-typed payload. -/
theorem stepFields_wellTyped {server : Obj} (s : WorkspaceItemServer A Q)
    (h : wellTyped fieldKeys server = true) :
    stepFields server s = .ok (decodedFields server s) := by
  unfold decodedFields
  simp only [wellTyped, fieldKeys, List.all_cons, List.all_nil, Bool.and_true,
    Bool.and_eq_true] at h
  obtain ⟨h1, h2, h3, h4, h5, h6, h7, h8, h9⟩ := h
  unfold stepFields
  rw [setString_wellTyped _ (fun s => s.Addr) s (fun _ => rfl) h1]
  simp only [Step.andThen]
  rw [setBool_wellTyped _ (fun s => s.UseReflection) _ (fun _ => rfl) h2]
  simp only [Step.andThen]
  rw [setStrings_wellTyped _ (fun s => s.ProtoFiles) _ (fun _ => rfl) h3]
  simp only [Step.andThen]
  rw [setStrings_wellTyped _ (fun s => s.ImportPath) _ (fun _ => rfl) h4]
  simp only [Step.andThen]
  rw [setBool_wellTyped _ (fun s => s.NoTLS) _ (fun _ => rfl) h5]
  simp only [Step.andThen]
  rw [setBool_wellTyped _ (fun s => s.Insecure) _ (fun _ => rfl) h6]
  simp only [Step.andThen]
  rw [setString_wellTyped _ (fun s => s.RootCertificate) _ (fun _ => rfl) h7]
  simp only [Step.andThen]
  rw [setString_wellTyped _ (fun s => s.ClientCertificate) _ (fun _ => rfl) h8]
  simp only [Step.andThen]
  rw [setString_wellTyped _ (fun s => s.ClientKey) _ (fun _ => rfl) h9]

theorem stepIdentity_wellTyped {req : Obj} (r : ServerRequest A Q)
    (h : wellTyped identityKeys req = true) :
    stepIdentity req r = .ok
      { r with
        ID := int64At req "id" r.ID
        FolderID := int64At req "folder_id" r.FolderID
        Title := strAt req "title" r.Title } := by
  simp only [wellTyped, identityKeys, List.all_cons, List.all_nil, Bool.and_true,
    Bool.and_eq_true] at h
  obtain ⟨h1, h2, h3⟩ := h
  unfold stepIdentity
  rw [setInt64_wellTyped _ (fun r => r.ID) r (fun _ => rfl) h1]
  simp only [Step.andThen]
  rw [setInt64_wellTyped _ (fun r => r.FolderID) _ (fun _ => rfl) h2]
  simp only [Step.andThen]
  rw [setString_wellTyped _ (fun r => r.Title) _ (fun _ => rfl) h3]

/-- A property of the profile that only looks at the request map and the two sub-entities
holds wherever `stepFields` leaves the profile. -/
theorem stepFields_all {P : WorkspaceItemServer A Q → Prop} (server : Obj)
    {s : WorkspaceItemServer A Q}
    (hP : ∀ s t : WorkspaceItemServer A Q, s.Request = t.Request → s.Auth = t.Auth →
      s.K8SPortForward = t.K8SPortForward → P s → P t)
    (hs : P s) : (stepFields server s).All P := by
  unfold stepFields
  refine andThen_all (andThen_all (andThen_all (andThen_all (andThen_all (andThen_all
    (andThen_all (andThen_all ?_ ?_) ?_) ?_) ?_) ?_) ?_) ?_) ?_
  · exact setString_all _ _ (fun u _ h => hP u _ rfl rfl rfl h) hs
  · exact fun s hs => setBool_all _ _ (fun u _ h => hP u _ rfl rfl rfl h) hs
  · exact fun s hs => setStrings_all _ _ (fun u _ h => hP u _ rfl rfl rfl h) hs
  · exact fun s hs => setStrings_all _ _ (fun u _ h => hP u _ rfl rfl rfl h) hs
  · exact fun s hs => setBool_all _ _ (fun u _ h => hP u _ rfl rfl rfl h) hs
  · exact fun s hs => setBool_all _ _ (fun u _ h => hP u _ rfl rfl rfl h) hs
  · exact fun s hs => setString_all _ _ (fun u _ h => hP u _ rfl rfl rfl h) hs
  · exact fun s hs => setString_all _ _ (fun u _ h => hP u _ rfl rfl rfl h) hs
  · exact fun s hs => setString_all _ _ (fun u _ h => hP u _ rfl rfl rfl h) hs

theorem stepK8S_empty (c : Collaborators A Q) {server : Obj} (s : WorkspaceItemServer A Q)
    (h : present server "k8s" = some (.obj [])) : stepK8S c server s = .ok s := by
  simp [stepK8S, h, assertMap]

theorem stepK8S_absent (c : Collaborators A Q) {server : Obj} (s : WorkspaceItemServer A Q)
    (h : present server "k8s" = none) : stepK8S c server s = .ok s := by
  simp [stepK8S, h]

theorem stepAuth_absent (c : Collaborators A Q) {server : Obj} (s : WorkspaceItemServer A Q)
    (h : present server "auth" = none) : stepAuth c server s = .ok s := by
  simp [stepAuth, h]

theorem stepAuth_all {P : WorkspaceItemServer A Q → Prop} (c : Collaborators A Q)
    (server : Obj) {s : WorkspaceItemServer A Q}
    (hset : ∀ s v, P s → P { s with Auth := v }) (hs : P s) :
    (stepAuth c server s).All P := by
  unfold stepAuth
  cases present server "auth" with
  | none => exact hs
  | some v =>
    cases v with
    | obj m =>
      simp only [assertMap]
      by_cases hlen : 0 < m.length
      · simp only [hlen, if_true]
        cases c.authModel c.authZero m with
        | returned a err => cases err <;> exact hset _ _ hs
        | panicked a p => exact hset _ _ hs
      · simp only [hlen, if_false]
        exact hs
    | _ => exact hs

theorem stepK8S_wellTyped (c : Collaborators A Q) {server : Obj} (s : WorkspaceItemServer A Q)
    (h : hasKind server ("k8s", .map) = true) :
    stepK8S c server s =
      match subInput server "k8s" with
      | none => .ok s
      | some m =>
        match c.k8sModel {} m with
        | .returned k none => .ok { s with K8SPortForward := some k }
        | .returned k (some err) =>
          .error (.returned { s with K8SPortForward := some k } (some err))
        | .panicked k p => .error (.panicked { s with K8SPortForward := some k } p) := by
  unfold stepK8S subInput
  unfold hasKind at h
  cases hp : present server "k8s" with
  | none => rfl
  | some v =>
    rw [hp] at h
    cases v with
    | obj m => by_cases hm : 0 < m.length <;> simp [assertMap, hm]
    | _ => simp [Kind.accepts] at h

theorem stepAuth_wellTyped (c : Collaborators A Q) {server : Obj} (s : WorkspaceItemServer A Q)
    (h : hasKind server ("auth", .map) = true) :
    stepAuth c server s =
      match subInput server "auth" with
      | none => .ok s
      | some m =>
        match c.authModel c.authZero m with
        | .returned a none => .ok { s with Auth := some a }
        | .returned a (some err) => .error (.returned { s with Auth := some a } (some err))
        | .panicked a p => .error (.panicked { s with Auth := some a } p) := by
  unfold stepAuth subInput
  unfold hasKind at h
  cases hp : present server "auth" with
  | none => rfl
  | some v =>
    rw [hp] at h
    cases v with
    | obj m => by_cases hm : 0 < m.length <;> simp [assertMap, hm]
    | _ => simp [Kind.accepts] at h

theorem Model_state_all (P : WorkspaceItemServer A Q → Prop) (c : Collaborators A Q)
    (s : WorkspaceItemServer A Q) (server : Obj)
    (h : (((stepFields server s).andThen (stepK8S c server)).andThen
      (stepAuth c server)).All P) :
    P (WorkspaceItemServer.Model c s (some server)).state := by
  simp only [WorkspaceItemServer.Model]
  revert h
  generalize ((stepFields server s).andThen (stepK8S c server)).andThen (stepAuth c server) = x
  intro h
  cases x <;> exact h

/-- An empty `k8s` mapping leaves the Port-Forward field of the receiver as it was. -/
theorem Model_k8s_empty (c : Collaborators A Q) (s : WorkspaceItemServer A Q) {server : Obj}
    (hk : present server "k8s" = some (.obj [])) :
    (WorkspaceItemServer.Model c s (some server)).state.K8SPortForward = s.K8SPortForward := by
  refine Model_state_all (fun t => t.K8SPortForward = s.K8SPortForward) c s server ?_
  refine andThen_all (andThen_all ?_ ?_) ?_
  · exact stepFields_all server (fun _ _ _ _ hk h => hk.symm.trans h) rfl
  · intro t ht
    rw [stepK8S_empty c t hk]
    exact ht
  · intro t ht
    exact stepAuth_all c server (fun _ _ h => h) ht

end DecoderLemmas

/-! ## Lemmas on type-assertion panics -/

section PanicLemmas

variable {σ : Type}

theorem andThen_panics_left {x : Step σ} (f : σ → Step σ) (hx : x.Panics) :
    (x.andThen f).Panics := by
  obtain ⟨s, a, b, rfl⟩ := hx
  exact ⟨s, a, b, rfl⟩

theorem andThen_panics_right {x : Step σ} {f : σ → Step σ} (hx : x.OkOrPanics)
    (hf : ∀ s, (f s).Panics) : (x.andThen f).Panics := by
  rcases hx with ⟨s, rfl⟩ | hx
  · exact hf s
  · exact andThen_panics_left f hx

theorem andThen_okOrPanics {x : Step σ} {f : σ → Step σ} (hx : x.OkOrPanics)
    (hf : ∀ s, (f s).OkOrPanics) : (x.andThen f).OkOrPanics := by
  rcases hx with ⟨s, rfl⟩ | hx
  · exact hf s
  · exact Or.inr (andThen_panics_left f hx)

theorem setInt64_okOrPanics (m : Obj) (k : String) (set : σ → Int → σ) (s : σ) :
    (setInt64 m k set s).OkOrPanics := by
  unfold setInt64
  cases present m k with
  | none => exact Or.inl ⟨_, rfl⟩
  | some v => cases v <;> simp [assertFloat64, Step.OkOrPanics, Step.Panics]

theorem setString_okOrPanics (m : Obj) (k : String) (set : σ → String → σ) (s : σ) :
    (setString m k set s).OkOrPanics := by
  unfold setString
  cases present m k with
  | none => exact Or.inl ⟨_, rfl⟩
  | some v => cases v <;> simp [assertString, Step.OkOrPanics, Step.Panics]

theorem setBool_okOrPanics (m : Obj) (k : String) (set : σ → Bool → σ) (s : σ) :
    (setBool m k set s).OkOrPanics := by
  unfold setBool
  cases present m k with
  | none => exact Or.inl ⟨_, rfl⟩
  | some v => cases v <;> simp [assertBool, Step.OkOrPanics, Step.Panics]

theorem structsMap_assertString_cases (xs : List Value) :
    (xs.all Value.isStr = true ∧ structs.Map assertString xs = .ok (stringsOf xs)) ∨
    (xs.all Value.isStr = false ∧ ∃ a, structs.Map assertString xs = .error (.typeAssertion a .string)) := by
  induction xs with
  | nil => exact Or.inl ⟨rfl, rfl⟩
  | cons x xs ih =>
    cases x with
    | str v =>
      rcases ih with ⟨h1, h2⟩ | ⟨h1, a, h2⟩
      · exact Or.inl ⟨by simp [Value.isStr, h1], by simp [structs.Map, assertString, h2, stringsOf]⟩
      · exact Or.inr ⟨by simp [Value.isStr, h1], a, by simp [structs.Map, assertString, h2]⟩
    | _ => exact Or.inr ⟨by simp [Value.isStr], _, rfl⟩

theorem setStrings_okOrPanics (m : Obj) (k : String) (set : σ → List String → σ) (s : σ) :
    (setStrings m k set s).OkOrPanics := by
  unfold setStrings
  cases present m k with
  | none => exact Or.inl ⟨_, rfl⟩
  | some v =>
    cases v with
    | list xs =>
      rcases structsMap_assertString_cases xs with ⟨_, h2⟩ | ⟨_, a, h2⟩
      · simp [assertSlice, h2, Step.OkOrPanics]
      · simp [assertSlice, h2, Step.OkOrPanics, Step.Panics]
    | _ => simp [assertSlice, Step.OkOrPanics, Step.Panics]

theorem setInt64_panics {m : Obj} {k : String} (set : σ → Int → σ) (s : σ)
    (h : mistyped m (k, .float64) = true) : (setInt64 m k set s).Panics := by
  unfold setInt64
  simp only [mistyped, hasKind, Bool.not_eq_true'] at h
  cases hp : present m k with
  | none => simp [hp] at h
  | some v => rw [hp] at h; cases v <;> simp_all [Kind.accepts, assertFloat64, Step.Panics]

theorem setString_panics {m : Obj} {k : String} (set : σ → String → σ) (s : σ)
    (h : mistyped m (k, .string) = true) : (setString m k set s).Panics := by
  unfold setString
  simp only [mistyped, hasKind, Bool.not_eq_true'] at h
  cases hp : present m k with
  | none => simp [hp] at h
  | some v => rw [hp] at h; cases v <;> simp_all [Kind.accepts, assertString, Step.Panics]

theorem setBool_panics {m : Obj} {k : String} (set : σ → Bool → σ) (s : σ)
    (h : mistyped m (k, .bool) = true) : (setBool m k set s).Panics := by
  unfold setBool
  simp only [mistyped, hasKind, Bool.not_eq_true'] at h
  cases hp : present m k with
  | none => simp [hp] at h
  | some v => rw [hp] at h; cases v <;> simp_all [Kind.accepts, assertBool, Step.Panics]

theorem setStrings_panics {m : Obj} {k : String} (set : σ → List String → σ) (s : σ)
    (h : mistyped m (k, .strings) = true) : (setStrings m k set s).Panics := by
  unfold setStrings
  simp only [mistyped, hasKind, Bool.not_eq_true'] at h
  cases hp : present m k with
  | none => simp [hp] at h
  | some v =>
    rw [hp] at h
    cases v with
    | list xs =>
      rcases structsMap_assertString_cases xs with ⟨h1, _⟩ | ⟨_, a, h2⟩
      · simp [Kind.accepts, h1] at h
      · simp [assertSlice, h2, Step.Panics]
    | _ => simp [assertSlice, Step.Panics]

theorem andThen_ok {x : Step σ} {f : σ → Step σ} {s' : σ} (h : x.andThen f = .ok s') :
    ∃ s, x = .ok s ∧ f s = .ok s' := by
  cases x with
  | ok s => exact ⟨s, rfl, h⟩
  | error o => cases h

theorem setInt64_ok_hasKind {m : Obj} {k : String} {set : σ → Int → σ} {s s' : σ}
    (h : setInt64 m k set s = .ok s') : hasKind m (k, .float64) = true := by
  unfold setInt64 at h
  unfold hasKind
  cases hp : present m k with
  | none => rfl
  | some v => rw [hp] at h; cases v <;> simp_all [Kind.accepts, assertFloat64]

theorem setString_ok_hasKind {m : Obj} {k : String} {set : σ → String → σ} {s s' : σ}
    (h : setString m k set s = .ok s') : hasKind m (k, .string) = true := by
  unfold setString at h
  unfold hasKind
  cases hp : present m k with
  | none => rfl
  | some v => rw [hp] at h; cases v <;> simp_all [Kind.accepts, assertString]

theorem setBool_ok_hasKind {m : Obj} {k : String} {set : σ → Bool → σ} {s s' : σ}
    (h : setBool m k set s = .ok s') : hasKind m (k, .bool) = true := by
  unfold setBool at h
  unfold hasKind
  cases hp : present m k with
  | none => rfl
  | some v => rw [hp] at h; cases v <;> simp_all [Kind.accepts, assertBool]

theorem setStrings_ok_hasKind {m : Obj} {k : String} {set : σ → List String → σ} {s s' : σ}
    (h : setStrings m k set s = .ok s') : hasKind m (k, .strings) = true := by
  unfold setStrings at h
  unfold hasKind
  cases hp : present m k with
  | none => rfl
  | some v =>
    rw [hp] at h
    cases v with
    | list xs =>
      rcases structsMap_assertString_cases xs with ⟨h1, _⟩ | ⟨_, a, h2⟩
      · simpa [Kind.accepts] using h1
      · simp [assertSlice, h2] at h
    | _ => simp [assertSlice] at h

end PanicLemmas

/-! ## The null payload -/

section Claims

variable {A Q : Type}

/-- C1: for each of the three decoders and every state of the receiver, the nil payload makes
the call return the error "no data" and leaves every field of the receiver as it was. -/
theorem nil_payload_no_data (c : Collaborators A Q) (r : ServerRequest A Q)
    (s : WorkspaceItemServer A Q) (u : ServerUpdateRequest Q) :
    ServerRequest.Model c r none = .returned r (some (errors.New "no data")) ∧
    WorkspaceItemServer.Model c s none = .returned s (some (errors.New "no data")) ∧
    ServerUpdateRequest.Model c u none = .returned u (some (errors.New "no data")) ∧
    (errors.New "no data").text = "no data" :=
  ⟨rfl, rfl, rfl, rfl⟩

/-! ## The empty `k8s` mapping -/

theorem stepIdentity_okOrPanics (req : Obj) (r : ServerRequest A Q) :
    (stepIdentity req r).OkOrPanics := by
  unfold stepIdentity
  exact andThen_okOrPanics (andThen_okOrPanics (setInt64_okOrPanics _ _ _ _)
    (fun _ => setInt64_okOrPanics _ _ _ _)) (fun _ => setString_okOrPanics _ _ _ _)

/-- When `ServerRequest.Model` returns, the embedded profile is what
`WorkspaceItemServer.Model` made of the zero profile. -/
theorem ServerRequest_returned {c : Collaborators A Q} {r r' : ServerRequest A Q} {req : Obj}
    {err : Option GoError} (h : ServerRequest.Model c r (some req) = .returned r' err) :
    ∃ r₁, stepIdentity req r = .ok r₁ ∧
      WorkspaceItemServer.Model c {} (some req) = .returned r'.toWorkspaceItemServer err ∧
      r' = { r₁ with toWorkspaceItemServer := r'.toWorkspaceItemServer } := by
  simp only [ServerRequest.Model] at h
  rcases stepIdentity_okOrPanics req r with ⟨r₁, h₁⟩ | ⟨t, a, b, h₁⟩
  · rw [h₁] at h
    refine ⟨r₁, h₁, ?_⟩
    cases hm : WorkspaceItemServer.Model c ({} : WorkspaceItemServer A Q) (some req) with
    | returned t e =>
      rw [hm] at h
      simp only [Outcome.returned.injEq] at h
      obtain ⟨h2, h3⟩ := h
      subst h2 h3
      exact ⟨rfl, rfl⟩
    | panicked t p => rw [hm] at h; simp at h
  · rw [h₁] at h
    simp at h

/-- C2: when `k8s` maps to an empty mapping and decoding returns, the resulting profile has no
Port-Forward sub-entity and `IsK8SEnabled` is false: through `ServerRequest.Model` for every
receiver, and through `WorkspaceItemServer.Model` for every receiver whose Port-Forward field
is absent when the call starts. -/
theorem empty_k8s_no_port_forward (c : Collaborators A Q) (r r' : ServerRequest A Q)
    (s s' : WorkspaceItemServer A Q) (req : Obj) (err err' : Option GoError)
    (hk : req.lookup "k8s" = some (.obj [])) :
    (ServerRequest.Model c r (some req) = .returned r' err →
      r'.K8SPortForward = none ∧ r'.IsK8SEnabled = false) ∧
    (s.K8SPortForward = none → WorkspaceItemServer.Model c s (some req) = .returned s' err' →
      s'.K8SPortForward = none ∧ s'.IsK8SEnabled = false) := by
  have hp : present req "k8s" = some (.obj []) := by simp [present, hk]
  have key : ∀ (t t' : WorkspaceItemServer A Q) (e : Option GoError),
      t.K8SPortForward = none → WorkspaceItemServer.Model c t (some req) = .returned t' e →
      t'.K8SPortForward = none ∧ t'.IsK8SEnabled = false := by
    intro t t' e ht hm
    have h := Model_k8s_empty c t hp
    rw [hm, ht] at h
    simp only [Outcome.state] at h
    exact ⟨h, by simp [WorkspaceItemServer.IsK8SEnabled, h]⟩
  refine ⟨?_, key s s' err'⟩
  intro h
  obtain ⟨r₁, -, h₂, -⟩ := ServerRequest_returned h
  exact key {} r'.toWorkspaceItemServer err rfl h₂

/-- The first scenario: the payload with `id` 5, `title` Prod, `addr` localhost:50051 and an
empty `k8s` mapping decodes through `ServerRequest.Model` to ID 5, Title Prod, Addr
localhost:50051, Port-Forward absent and `IsK8SEnabled` false. -/
theorem empty_k8s_no_port_forward_witness :
    scenarioProd.lookup "k8s" = some (.obj []) ∧
    ServerRequest.Model scenarioCollaborators {} (some scenarioProd) =
      .returned { ID := 5, Title := "Prod", Addr := "localhost:50051" } none ∧
    (({ ID := 5, Title := "Prod", Addr := "localhost:50051" } :
        ServerRequest Unit Unit).K8SPortForward = none ∧
      ({ ID := 5, Title := "Prod", Addr := "localhost:50051" } :
        ServerRequest Unit Unit).IsK8SEnabled = false) :=
  ⟨rfl, by decide,
    (empty_k8s_no_port_forward scenarioCollaborators {}
      { ID := 5, Title := "Prod", Addr := "localhost:50051" } {} {} scenarioProd none none
      rfl).1 (by decide)⟩

/-! ## Payloads without the optional keys -/

theorem wellTyped_profileKeys {server : Obj} (h : wellTyped profileKeys server = true) :
    wellTyped fieldKeys server = true ∧ hasKind server ("k8s", .map) = true ∧
      hasKind server ("auth", .map) = true := by
  simp only [wellTyped, profileKeys, List.all_append, Bool.and_eq_true, List.all_cons,
    List.all_nil, Bool.and_true] at h
  exact ⟨by simpa [wellTyped] using h.1, h.2.1, h.2.2⟩

theorem wellTyped_requestKeys {req : Obj} (h : wellTyped requestKeys req = true) :
    wellTyped identityKeys req = true ∧ wellTyped profileKeys req = true := by
  simpa [wellTyped, requestKeys, List.all_append] using h

/-- On a well-typed payload, `WorkspaceItemServer.Model` is the two sub-entity steps run on
the decoded fields. -/
theorem Model_wellTyped (c : Collaborators A Q) (s : WorkspaceItemServer A Q) {server : Obj}
    (h : wellTyped fieldKeys server = true) :
    WorkspaceItemServer.Model c s (some server) =
      match (stepK8S c server (decodedFields server s)).andThen (stepAuth c server) with
      | .ok s => .returned s none
      | .error o => o := by
  simp only [WorkspaceItemServer.Model, stepFields_wellTyped s h, Step.andThen]

/-- On a well-typed payload whose sub-entity decoders succeed, `WorkspaceItemServer.Model`
returns no error, with the decoded fields and the decoded sub-entities. -/
theorem Model_success (c : Collaborators A Q) (s : WorkspaceItemServer A Q) {server : Obj}
    (hwt : wellTyped profileKeys server = true)
    (hk8s : ∀ m, subInput server "k8s" = some m → ∃ k, c.k8sModel {} m = .returned k none)
    (hauth : ∀ m, subInput server "auth" = some m →
      ∃ a, c.authModel c.authZero m = .returned a none) :
    ∃ k a, WorkspaceItemServer.Model c s (some server) =
      .returned { decodedFields server s with K8SPortForward := k, Auth := a } none := by
  obtain ⟨hf, hk, ha⟩ := wellTyped_profileKeys hwt
  rw [Model_wellTyped c s hf, stepK8S_wellTyped c _ hk]
  cases hki : subInput server "k8s" with
  | none =>
    simp only [Step.andThen]
    rw [stepAuth_wellTyped c _ ha]
    cases hai : subInput server "auth" with
    | none => exact ⟨s.K8SPortForward, s.Auth, rfl⟩
    | some n =>
      obtain ⟨a, hn⟩ := hauth n hai
      simp only [hn]
      exact ⟨s.K8SPortForward, some a, rfl⟩
  | some m =>
    obtain ⟨k, hm⟩ := hk8s m hki
    simp only [hm, Step.andThen]
    rw [stepAuth_wellTyped c _ ha]
    cases hai : subInput server "auth" with
    | none => exact ⟨some k, s.Auth, rfl⟩
    | some n =>
      obtain ⟨a, hn⟩ := hauth n hai
      simp only [hn]
      exact ⟨some k, some a, rfl⟩

/-- On a well-typed payload whose sub-entity decoders succeed, `ServerRequest.Model` returns
no error, with the decoded identity fields, the fields decoded into a zero profile, and the
decoded sub-entities. -/
theorem ServerRequest_success (c : Collaborators A Q) (r : ServerRequest A Q) {req : Obj}
    (hwt : wellTyped requestKeys req = true)
    (hk8s : ∀ m, subInput req "k8s" = some m → ∃ k, c.k8sModel {} m = .returned k none)
    (hauth : ∀ m, subInput req "auth" = some m →
      ∃ a, c.authModel c.authZero m = .returned a none) :
    ∃ k a, ServerRequest.Model c r (some req) =
      .returned
        { decodedIdentity req r with
          toWorkspaceItemServer :=
            { decodedFields req ({} : WorkspaceItemServer A Q) with
              K8SPortForward := k, Auth := a } }
        none := by
  obtain ⟨hi, hp⟩ := wellTyped_requestKeys hwt
  obtain ⟨k, a, hm⟩ := Model_success c ({} : WorkspaceItemServer A Q) hp hk8s hauth
  refine ⟨k, a, ?_⟩
  simp only [ServerRequest.Model, stepIdentity_wellTyped r hi, hm]
  rfl

theorem noneOf_requestKeys {req : Obj} (h : noneOf requestKeys req = true) :
    ∀ kk ∈ requestKeys, present req kk.1 = none := by
  intro kk hkk
  have := List.all_eq_true.mp h kk hkk
  simpa using this

theorem wellTyped_of_noneOf {req : Obj} (h : noneOf requestKeys req = true) :
    wellTyped requestKeys req = true := by
  apply List.all_eq_true.mpr
  intro kk hkk
  simp [hasKind, noneOf_requestKeys h kk hkk]

theorem subInput_of_present_none {m : Obj} {k : String} (h : present m k = none) :
    subInput m k = none := by
  simp [subInput, h]

/-- C3: for every non-nil payload in which none of the optional keys holds a value,
`ServerRequest.Model` and `WorkspaceItemServer.Model` on a zero-valued receiver return no error
and leave every field at its zero value (ID and FolderID 0, Title and the string fields empty,
the flags false, the lists empty), with Authentication and Port-Forward absent; on any
receiver `ServerRequest.Model` returns no error and leaves the embedded profile all-zero. -/
theorem omitted_keys_give_zero_values (c : Collaborators A Q) (r : ServerRequest A Q)
    (req : Obj) (h : noneOf requestKeys req = true) :
    ServerRequest.Model c {} (some req) =
      .returned
        { ID := 0, FolderID := 0, Title := "", Addr := "", UseReflection := false,
          ProtoFiles := [], ImportPath := [], NoTLS := false, Insecure := false,
          RootCertificate := "", ClientCertificate := "", ClientKey := "", Request := [],
          Auth := none, K8SPortForward := none } none ∧
    WorkspaceItemServer.Model c {} (some req) =
      .returned
        { Addr := "", UseReflection := false, ProtoFiles := [], ImportPath := [],
          NoTLS := false, Insecure := false, RootCertificate := "", ClientCertificate := "",
          ClientKey := "", Request := [], Auth := none, K8SPortForward := none } none ∧
    ServerRequest.Model c r (some req) =
      .returned
        { ID := r.ID, FolderID := r.FolderID, Title := r.Title, Addr := "",
          UseReflection := false, ProtoFiles := [], ImportPath := [], NoTLS := false,
          Insecure := false, RootCertificate := "", ClientCertificate := "", ClientKey := "",
          Request := [], Auth := none, K8SPortForward := none } none := by
  have hp := noneOf_requestKeys h
  have hwt := wellTyped_of_noneOf h
  have hid : present req "id" = none := hp ("id", .float64) (by decide)
  have hfo : present req "folder_id" = none := hp ("folder_id", .float64) (by decide)
  have hti : present req "title" = none := hp ("title", .string) (by decide)
  have h1 : present req "addr" = none := hp ("addr", .string) (by decide)
  have h2 : present req "use_reflection" = none := hp ("use_reflection", .bool) (by decide)
  have h3 : present req "proto_files" = none := hp ("proto_files", .strings) (by decide)
  have h4 : present req "import_path" = none := hp ("import_path", .strings) (by decide)
  have h5 : present req "no_tls" = none := hp ("no_tls", .bool) (by decide)
  have h6 : present req "insecure" = none := hp ("insecure", .bool) (by decide)
  have h7 : present req "root_certificate" = none := hp ("root_certificate", .string) (by decide)
  have h8 : present req "client_certificate" = none :=
    hp ("client_certificate", .string) (by decide)
  have h9 : present req "client_key" = none := hp ("client_key", .string) (by decide)
  have hk : present req "k8s" = none := hp ("k8s", .map) (by decide)
  have ha : present req "auth" = none := hp ("auth", .map) (by decide)
  have hfields : ∀ t : WorkspaceItemServer A Q, decodedFields req t = t := by
    intro t
    simp [decodedFields, strAt, boolAt, stringsAt, h1, h2, h3, h4, h5, h6, h7, h8, h9]
  have hprofile : ∀ t : WorkspaceItemServer A Q,
      WorkspaceItemServer.Model c t (some req) = .returned t none := by
    intro t
    rw [Model_wellTyped c t (wellTyped_profileKeys (wellTyped_requestKeys hwt).2).1, hfields,
      stepK8S_absent c t hk]
    simp only [Step.andThen, stepAuth_absent c t ha]
  have hrequest : ∀ t : ServerRequest A Q, ServerRequest.Model c t (some req) =
      .returned { t with toWorkspaceItemServer := {} } none := by
    intro t
    simp only [ServerRequest.Model, stepIdentity_wellTyped t (wellTyped_requestKeys hwt).1,
      hprofile]
    simp [int64At, strAt, hid, hfo, hti]
  exact ⟨hrequest {}, hprofile {}, hrequest r⟩

/-- The empty mapping decodes to the zero values. -/
theorem omitted_keys_give_zero_values_witness :
    noneOf requestKeys [] = true ∧
    ServerRequest.Model scenarioCollaborators {} (some []) = .returned {} none ∧
    WorkspaceItemServer.Model scenarioCollaborators {} (some []) = .returned {} none :=
  ⟨by decide, (omitted_keys_give_zero_values scenarioCollaborators {} [] (by decide)).1,
    (omitted_keys_give_zero_values scenarioCollaborators {} [] (by decide)).2.1⟩

/-! ## Present keys are copied -/

/-- C4: for every non-nil payload whose keys hold values of the asserted types and whose
sub-entity decoders succeed, `ServerRequest.Model` returns no error and each present non-nil
key is copied into its field: `id` and `folder_id` (converted to integers), `title`, `addr`,
`root_certificate`, `client_certificate`, `client_key`, the flags `use_reflection`, `no_tls`,
`insecure`, and the lists `proto_files` and `import_path` as the same sequence of strings. -/
theorem present_keys_copied (c : Collaborators A Q) (r : ServerRequest A Q) (req : Obj)
    (hwt : wellTyped requestKeys req = true)
    (hk8s : ∀ m, subInput req "k8s" = some m → ∃ k, c.k8sModel {} m = .returned k none)
    (hauth : ∀ m, subInput req "auth" = some m →
      ∃ a, c.authModel c.authZero m = .returned a none) :
    ∃ r', ServerRequest.Model c r (some req) = .returned r' none ∧
      (∀ x, present req "id" = some (.num x) → r'.ID = int64 x) ∧
      (∀ x, present req "folder_id" = some (.num x) → r'.FolderID = int64 x) ∧
      (∀ x, present req "title" = some (.str x) → r'.Title = x) ∧
      (∀ x, present req "addr" = some (.str x) → r'.Addr = x) ∧
      (∀ x, present req "root_certificate" = some (.str x) → r'.RootCertificate = x) ∧
      (∀ x, present req "client_certificate" = some (.str x) → r'.ClientCertificate = x) ∧
      (∀ x, present req "client_key" = some (.str x) → r'.ClientKey = x) ∧
      (∀ b, present req "use_reflection" = some (.bool b) → r'.UseReflection = b) ∧
      (∀ b, present req "no_tls" = some (.bool b) → r'.NoTLS = b) ∧
      (∀ b, present req "insecure" = some (.bool b) → r'.Insecure = b) ∧
      (∀ ss, present req "proto_files" = some (.list (ss.map Value.str)) →
        r'.ProtoFiles = ss) ∧
      (∀ ss, present req "import_path" = some (.list (ss.map Value.str)) →
        r'.ImportPath = ss) := by
  obtain ⟨k, a, hm⟩ := ServerRequest_success c r hwt hk8s hauth
  refine ⟨_, hm, ?_, ?_, ?_, ?_, ?_, ?_, ?_, ?_, ?_, ?_, ?_, ?_⟩ <;> intro x hx <;>
    simp [decodedIdentity, decodedFields, int64At, strAt, boolAt, stringsAt, hx,
      stringsOf_map_str]

/-- A payload with every kind of key is copied field by field. -/
theorem present_keys_copied_witness :
    wellTyped requestKeys scenarioFull = true ∧
    ServerRequest.Model scenarioCollaborators {} (some scenarioFull) =
      .returned
        { ID := 7, FolderID := 2, Title := "Staging", Addr := "10.0.0.1:443",
          UseReflection := true, ProtoFiles := ["a.proto", "b.proto"], ImportPath := ["/p"],
          NoTLS := true, Insecure := true, RootCertificate := "root.pem",
          ClientCertificate := "client.pem", ClientKey := "client.key",
          K8SPortForward := some { Enabled := true, Target := goString "pod/x" } } none ∧
    ∃ r', ServerRequest.Model scenarioCollaborators {} (some scenarioFull) = .returned r' none ∧
      (∀ ss, present scenarioFull "proto_files" = some (.list (ss.map Value.str)) →
        r'.ProtoFiles = ss) := by
  refine ⟨by decide, by decide, ?_⟩
  obtain ⟨r', h, -, -, -, -, -, -, -, -, -, -, hp, -⟩ :=
    present_keys_copied scenarioCollaborators {} scenarioFull (by decide)
      (fun m h => by
        have hm : some ([("enabled", .bool true), ("target", .str "pod/x")] : Obj) = some m := h
        cases hm
        exact ⟨_, rfl⟩)
      (fun m h => by
        have hm : (none : Option Obj) = some m := h
        cases hm)
  exact ⟨r', h, hp⟩

/-! ## The capability query -/

/-- C5: for every profile, `IsK8SEnabled` is true if and only if the Port-Forward sub-entity
is present and its `Enabled` flag is true.  The method is a function of the profile alone: its
body assigns nothing, so the profile after the call is the profile before it. -/
theorem isK8SEnabled_iff (s : WorkspaceItemServer A Q) :
    s.IsK8SEnabled = true ↔ ∃ k, s.K8SPortForward = some k ∧ k.Enabled = true := by
  unfold WorkspaceItemServer.IsK8SEnabled
  cases s.K8SPortForward with
  | none => simp
  | some k => simp

/-! ## Fingerprint determinism -/

theorem samePortForward_eq {p q : Option K8SPortForward} (h : SamePortForward p q) : p = q := by
  cases p with
  | none => cases q with
    | none => rfl
    | some b => exact h.elim
  | some a => cases q with
    | none => exact h.elim
    | some b =>
      obtain ⟨h1, h2, h3, h4⟩ := h
      cases a
      cases b
      simp_all

/-- C6: two profiles whose Port-Forward sub-entities are field-wise equal (both absent, or both
present with the same field values, `Enabled` included) have the same `PortForwardHash`,
whatever their other fields are. -/
theorem portForwardHash_deterministic (s₁ s₂ : WorkspaceItemServer A Q)
    (h : SamePortForward s₁.K8SPortForward s₂.K8SPortForward) :
    s₁.PortForwardHash = s₂.PortForwardHash := by
  unfold WorkspaceItemServer.PortForwardHash
  rw [samePortForward_eq h]

/-- Two profiles with different addresses, flags and authentication and the same tunnel have
the same fingerprint. -/
theorem portForwardHash_deterministic_witness :
    ({ Addr := "a:1", NoTLS := true, Auth := some (),
       K8SPortForward := some (tunnelEntity true) } :
      WorkspaceItemServer Unit Unit).PortForwardHash =
    ({ Addr := "b:2", ProtoFiles := ["x.proto"],
       K8SPortForward := some (tunnelEntity true) } :
      WorkspaceItemServer Unit Unit).PortForwardHash :=
  portForwardHash_deterministic _ _ ⟨rfl, rfl, rfl, rfl⟩

/-! ## Values of the wrong type -/

theorem stepFields_okOrPanics (server : Obj) (s : WorkspaceItemServer A Q) :
    (stepFields server s).OkOrPanics := by
  unfold stepFields
  repeat' first
    | apply andThen_okOrPanics
    | intro _
    | exact setString_okOrPanics _ _ _ _
    | exact setBool_okOrPanics _ _ _ _
    | exact setStrings_okOrPanics _ _ _ _

theorem stepFields_ok_wellTyped {server : Obj} {s s' : WorkspaceItemServer A Q}
    (h : stepFields server s = .ok s') : wellTyped fieldKeys server = true := by
  unfold stepFields at h
  obtain ⟨s₈, h, h₉⟩ := andThen_ok h
  obtain ⟨s₇, h, h₈⟩ := andThen_ok h
  obtain ⟨s₆, h, h₇⟩ := andThen_ok h
  obtain ⟨s₅, h, h₆⟩ := andThen_ok h
  obtain ⟨s₄, h, h₅⟩ := andThen_ok h
  obtain ⟨s₃, h, h₄⟩ := andThen_ok h
  obtain ⟨s₂, h, h₃⟩ := andThen_ok h
  obtain ⟨s₁, h₁, h₂⟩ := andThen_ok h
  simp only [wellTyped, fieldKeys, List.all_cons, List.all_nil, Bool.and_true,
    Bool.and_eq_true]
  exact ⟨setString_ok_hasKind h₁, setBool_ok_hasKind h₂, setStrings_ok_hasKind h₃,
    setStrings_ok_hasKind h₄, setBool_ok_hasKind h₅, setBool_ok_hasKind h₆,
    setString_ok_hasKind h₇, setString_ok_hasKind h₈, setString_ok_hasKind h₉⟩

theorem stepIdentity_ok_wellTyped {req : Obj} {r r' : ServerRequest A Q}
    (h : stepIdentity req r = .ok r') : wellTyped identityKeys req = true := by
  unfold stepIdentity at h
  obtain ⟨r₂, h, h₃⟩ := andThen_ok h
  obtain ⟨r₁, h₁, h₂⟩ := andThen_ok h
  simp only [wellTyped, identityKeys, List.all_cons, List.all_nil, Bool.and_true,
    Bool.and_eq_true]
  exact ⟨setInt64_ok_hasKind h₁, setInt64_ok_hasKind h₂, setString_ok_hasKind h₃⟩

theorem not_wellTyped_of_mistyped {keys : List (String × Kind)} {m : Obj}
    (h : ∃ kk ∈ keys, mistyped m kk = true) : ¬ wellTyped keys m = true := by
  obtain ⟨kk, hkk, hm⟩ := h
  intro hwt
  have := List.all_eq_true.mp hwt kk hkk
  simp [mistyped, this] at hm

theorem stepFields_panics {server : Obj} (s : WorkspaceItemServer A Q)
    (h : ∃ kk ∈ fieldKeys, mistyped server kk = true) : (stepFields server s).Panics := by
  rcases stepFields_okOrPanics server s with ⟨t, ht⟩ | hp
  · exact absurd (stepFields_ok_wellTyped ht) (not_wellTyped_of_mistyped h)
  · exact hp

theorem stepIdentity_panics {req : Obj} (r : ServerRequest A Q)
    (h : ∃ kk ∈ identityKeys, mistyped req kk = true) : (stepIdentity req r).Panics := by
  rcases stepIdentity_okOrPanics req r with ⟨t, ht⟩ | hp
  · exact absurd (stepIdentity_ok_wellTyped ht) (not_wellTyped_of_mistyped h)
  · exact hp

theorem stepK8S_panics (c : Collaborators A Q) {server : Obj} (s : WorkspaceItemServer A Q)
    (h : mistyped server ("k8s", .map) = true) : (stepK8S c server s).Panics := by
  unfold stepK8S
  simp only [mistyped, hasKind, Bool.not_eq_true'] at h
  cases hp : present server "k8s" with
  | none => simp [hp] at h
  | some v => rw [hp] at h; cases v <;> simp_all [Kind.accepts, assertMap, Step.Panics]

theorem stepAuth_panics (c : Collaborators A Q) {server : Obj} (s : WorkspaceItemServer A Q)
    (h : mistyped server ("auth", .map) = true) : (stepAuth c server s).Panics := by
  unfold stepAuth
  simp only [mistyped, hasKind, Bool.not_eq_true'] at h
  cases hp : present server "auth" with
  | none => simp [hp] at h
  | some v => rw [hp] at h; cases v <;> simp_all [Kind.accepts, assertMap, Step.Panics]

/-- The Port-Forward step goes on or panics in a type assertion when the Port-Forward decoder,
if invoked, returns no error. -/
theorem stepK8S_okOrPanics (c : Collaborators A Q) {server : Obj} (s : WorkspaceItemServer A Q)
    (hk8s : ∀ m, subInput server "k8s" = some m → ∃ k, c.k8sModel {} m = .returned k none) :
    (stepK8S c server s).OkOrPanics := by
  by_cases hm : mistyped server ("k8s", .map) = true
  · exact Or.inr (stepK8S_panics c s hm)
  · have hk : hasKind server ("k8s", .map) = true := by simpa [mistyped] using hm
    rw [stepK8S_wellTyped c s hk]
    cases hi : subInput server "k8s" with
    | none => exact Or.inl ⟨_, rfl⟩
    | some m =>
      obtain ⟨k, hkm⟩ := hk8s m hi
      simp only [hkm]
      exact Or.inl ⟨_, rfl⟩

theorem Model_typePanic (c : Collaborators A Q) (s : WorkspaceItemServer A Q) (server : Obj)
    (h : (((stepFields server s).andThen (stepK8S c server)).andThen
      (stepAuth c server)).Panics) :
    (WorkspaceItemServer.Model c s (some server)).TypePanic := by
  obtain ⟨t, a, b, hx⟩ := h
  simp only [WorkspaceItemServer.Model, hx]
  exact ⟨t, a, b, rfl⟩

theorem ServerRequest_typePanic (c : Collaborators A Q) (r : ServerRequest A Q) (req : Obj)
    (h : (stepIdentity req r).Panics ∨
      (WorkspaceItemServer.Model c ({} : WorkspaceItemServer A Q) (some req)).TypePanic) :
    (ServerRequest.Model c r (some req)).TypePanic := by
  simp only [ServerRequest.Model]
  rcases stepIdentity_okOrPanics req r with ⟨r₁, h₁⟩ | ⟨t, a, b, h₁⟩
  · rw [h₁]
    rcases h with ⟨t, a, b, h₂⟩ | ⟨t, a, b, h₂⟩
    · rw [h₁] at h₂
      cases h₂
    · simp only [h₂]
      exact ⟨_, a, b, rfl⟩
  · rw [h₁]
    exact ⟨t, a, b, rfl⟩

/-- The assertions on the elements of a list stop at the first element that is not a
string, with the error of the assertion on it. -/
theorem structsMap_firstNonString {xs : List Value} {x : Value}
    (h : firstNonString xs = some x) :
    structs.Map assertString xs = .error (.typeAssertion x.dynType .string) := by
  induction xs with
  | nil => simp [firstNonString] at h
  | cons y ys ih =>
    cases y with
    | str t => simp only [firstNonString] at h; simp [structs.Map, assertString, ih h]
    | null => simp only [firstNonString, Option.some.injEq] at h; subst h; rfl
    | bool b => simp only [firstNonString, Option.some.injEq] at h; subst h; rfl
    | num q => simp only [firstNonString, Option.some.injEq] at h; subst h; rfl
    | list l => simp only [firstNonString, Option.some.injEq] at h; subst h; rfl
    | obj o => simp only [firstNonString, Option.some.injEq] at h; subst h; rfl

/-- A value passes the assertions of a kind exactly when they raise no error. -/
theorem assertionPanic_eq_none (kind : Kind) (v : Value) :
    assertionPanic kind v = none ↔ kind.accepts v = true := by
  have hl : ∀ xs : List Value, firstNonString xs = none ↔ xs.all Value.isStr = true := by
    intro xs
    induction xs with
    | nil => simp [firstNonString]
    | cons y ys ih => cases y <;> simp [firstNonString, Value.isStr, ih]
  cases kind <;> cases v <;> simp [assertionPanic, Kind.accepts, hl]

theorem setInt64_mistyped {σ : Type} {m : Obj} {k : String} {v : Value} {p : PanicValue}
    (set : σ → Int → σ) (s : σ) (hv : present m k = some v)
    (hp : assertionPanic .float64 v = some p) :
    setInt64 m k set s = .error (.panicked s p) := by
  unfold setInt64
  rw [hv]
  cases v <;> simp [assertionPanic, Kind.accepts, Kind.asserted] at hp <;>
    simp [assertFloat64, hp]

theorem setString_mistyped {σ : Type} {m : Obj} {k : String} {v : Value} {p : PanicValue}
    (set : σ → String → σ) (s : σ) (hv : present m k = some v)
    (hp : assertionPanic .string v = some p) :
    setString m k set s = .error (.panicked s p) := by
  unfold setString
  rw [hv]
  cases v <;> simp [assertionPanic, Kind.accepts, Kind.asserted] at hp <;>
    simp [assertString, hp]

theorem setBool_mistyped {σ : Type} {m : Obj} {k : String} {v : Value} {p : PanicValue}
    (set : σ → Bool → σ) (s : σ) (hv : present m k = some v)
    (hp : assertionPanic .bool v = some p) :
    setBool m k set s = .error (.panicked s p) := by
  unfold setBool
  rw [hv]
  cases v <;> simp [assertionPanic, Kind.accepts, Kind.asserted] at hp <;>
    simp [assertBool, hp]

theorem setStrings_mistyped {σ : Type} {m : Obj} {k : String} {v : Value} {p : PanicValue}
    (set : σ → List String → σ) (s : σ) (hv : present m k = some v)
    (hp : assertionPanic .strings v = some p) :
    setStrings m k set s = .error (.panicked s p) := by
  unfold setStrings
  rw [hv]
  cases v with
  | list xs =>
    simp only [assertionPanic, Option.map_eq_some'] at hp
    obtain ⟨x, hx, rfl⟩ := hp
    simp [assertSlice, structsMap_firstNonString hx]
  | null => simp [assertionPanic, Kind.accepts, Kind.asserted] at hp; simp [assertSlice, hp]
  | bool b => simp [assertionPanic, Kind.accepts, Kind.asserted] at hp; simp [assertSlice, hp]
  | num q => simp [assertionPanic, Kind.accepts, Kind.asserted] at hp; simp [assertSlice, hp]
  | str t => simp [assertionPanic, Kind.accepts, Kind.asserted] at hp; simp [assertSlice, hp]
  | obj o => simp [assertionPanic, Kind.accepts, Kind.asserted] at hp; simp [assertSlice, hp]

/-- The scalar and list statements stop at the first key whose value fails its assertion: the
fields of the keys before it are written, the others are not. -/
theorem stepFields_mistyped (s : WorkspaceItemServer A Q) {req : Obj} {n : Nat}
    {kk : String × Kind} {v : Value} {p : PanicValue} (hk : fieldKeys.get? n = some kk)
    (hw : ∀ kk' ∈ fieldKeys.take n, hasKind req kk' = true) (hv : present req kk.1 = some v)
    (hp : assertionPanic kk.2 v = some p) :
    stepFields req s = .error (.panicked (fieldsWritten n req s) p) := by
  have hn : n < 9 := (List.get?_eq_some.mp hk).1
  interval_cases n
  · simp only [fieldKeys, List.get?_cons_succ, List.get?_cons_zero, Option.some.injEq] at hk
    subst hk
    unfold stepFields
    rw [setString_mistyped _ _ hv hp]
    rfl
  · simp only [fieldKeys, List.get?_cons_succ, List.get?_cons_zero, Option.some.injEq] at hk
    subst hk
    unfold stepFields
    rw [setString_wellTyped _ (fun s => s.Addr) s (fun _ => rfl)
      (hw ("addr", .string) (by decide))]
    simp only [Step.andThen]
    rw [setBool_mistyped _ _ hv hp]
    rfl
  · simp only [fieldKeys, List.get?_cons_succ, List.get?_cons_zero, Option.some.injEq] at hk
    subst hk
    unfold stepFields
    rw [setString_wellTyped _ (fun s => s.Addr) s (fun _ => rfl)
      (hw ("addr", .string) (by decide))]
    simp only [Step.andThen]
    rw [setBool_wellTyped _ (fun s => s.UseReflection) _ (fun _ => rfl)
      (hw ("use_reflection", .bool) (by decide))]
    simp only [Step.andThen]
    rw [setStrings_mistyped _ _ hv hp]
    rfl
  · simp only [fieldKeys, List.get?_cons_succ, List.get?_cons_zero, Option.some.injEq] at hk
    subst hk
    unfold stepFields
    rw [setString_wellTyped _ (fun s => s.Addr) s (fun _ => rfl)
      (hw ("addr", .string) (by decide))]
    simp only [Step.andThen]
    rw [setBool_wellTyped _ (fun s => s.UseReflection) _ (fun _ => rfl)
      (hw ("use_reflection", .bool) (by decide))]
    simp only [Step.andThen]
    rw [setStrings_wellTyped _ (fun s => s.ProtoFiles) _ (fun _ => rfl)
      (hw ("proto_files", .strings) (by decide))]
    simp only [Step.andThen]
    rw [setStrings_mistyped _ _ hv hp]
    rfl
  · simp only [fieldKeys, List.get?_cons_succ, List.get?_cons_zero, Option.some.injEq] at hk
    subst hk
    unfold stepFields
    rw [setString_wellTyped _ (fun s => s.Addr) s (fun _ => rfl)
      (hw ("addr", .string) (by decide))]
    simp only [Step.andThen]
    rw [setBool_wellTyped _ (fun s => s.UseReflection) _ (fun _ => rfl)
      (hw ("use_reflection", .bool) (by decide))]
    simp only [Step.andThen]
    rw [setStrings_wellTyped _ (fun s => s.ProtoFiles) _ (fun _ => rfl)
      (hw ("proto_files", .strings) (by decide))]
    simp only [Step.andThen]
    rw [setStrings_wellTyped _ (fun s => s.ImportPath) _ (fun _ => rfl)
      (hw ("import_path", .strings) (by decide))]
    simp only [Step.andThen]
    rw [setBool_mistyped _ _ hv hp]
    rfl
  · simp only [fieldKeys, List.get?_cons_succ, List.get?_cons_zero, Option.some.injEq] at hk
    subst hk
    unfold stepFields
    rw [setString_wellTyped _ (fun s => s.Addr) s (fun _ => rfl)
      (hw ("addr", .string) (by decide))]
    simp only [Step.andThen]
    rw [setBool_wellTyped _ (fun s => s.UseReflection) _ (fun _ => rfl)
      (hw ("use_reflection", .bool) (by decide))]
    simp only [Step.andThen]
    rw [setStrings_wellTyped _ (fun s => s.ProtoFiles) _ (fun _ => rfl)
      (hw ("proto_files", .strings) (by decide))]
    simp only [Step.andThen]
    rw [setStrings_wellTyped _ (fun s => s.ImportPath) _ (fun _ => rfl)
      (hw ("import_path", .strings) (by decide))]
    simp only [Step.andThen]
    rw [setBool_wellTyped _ (fun s => s.NoTLS) _ (fun _ => rfl)
      (hw ("no_tls", .bool) (by decide))]
    simp only [Step.andThen]
    rw [setBool_mistyped _ _ hv hp]
    rfl
  · simp only [fieldKeys, List.get?_cons_succ, List.get?_cons_zero, Option.some.injEq] at hk
    subst hk
    unfold stepFields
    rw [setString_wellTyped _ (fun s => s.Addr) s (fun _ => rfl)
      (hw ("addr", .string) (by decide))]
    simp only [Step.andThen]
    rw [setBool_wellTyped _ (fun s => s.UseReflection) _ (fun _ => rfl)
      (hw ("use_reflection", .bool) (by decide))]
    simp only [Step.andThen]
    rw [setStrings_wellTyped _ (fun s => s.ProtoFiles) _ (fun _ => rfl)
      (hw ("proto_files", .strings) (by decide))]
    simp only [Step.andThen]
    rw [setStrings_wellTyped _ (fun s => s.ImportPath) _ (fun _ => rfl)
      (hw ("import_path", .strings) (by decide))]
    simp only [Step.andThen]
    rw [setBool_wellTyped _ (fun s => s.NoTLS) _ (fun _ => rfl)
      (hw ("no_tls", .bool) (by decide))]
    simp only [Step.andThen]
    rw [setBool_wellTyped _ (fun s => s.Insecure) _ (fun _ => rfl)
      (hw ("insecure", .bool) (by decide))]
    simp only [Step.andThen]
    rw [setString_mistyped _ _ hv hp]
    rfl
  · simp only [fieldKeys, List.get?_cons_succ, List.get?_cons_zero, Option.some.injEq] at hk
    subst hk
    unfold stepFields
    rw [setString_wellTyped _ (fun s => s.Addr) s (fun _ => rfl)
      (hw ("addr", .string) (by decide))]
    simp only [Step.andThen]
    rw [setBool_wellTyped _ (fun s => s.UseReflection) _ (fun _ => rfl)
      (hw ("use_reflection", .bool) (by decide))]
    simp only [Step.andThen]
    rw [setStrings_wellTyped _ (fun s => s.ProtoFiles) _ (fun _ => rfl)
      (hw ("proto_files", .strings) (by decide))]
    simp only [Step.andThen]
    rw [setStrings_wellTyped _ (fun s => s.ImportPath) _ (fun _ => rfl)
      (hw ("import_path", .strings) (by decide))]
    simp only [Step.andThen]
    rw [setBool_wellTyped _ (fun s => s.NoTLS) _ (fun _ => rfl)
      (hw ("no_tls", .bool) (by decide))]
    simp only [Step.andThen]
    rw [setBool_wellTyped _ (fun s => s.Insecure) _ (fun _ => rfl)
      (hw ("insecure", .bool) (by decide))]
    simp only [Step.andThen]
    rw [setString_wellTyped _ (fun s => s.RootCertificate) _ (fun _ => rfl)
      (hw ("root_certificate", .string) (by decide))]
    simp only [Step.andThen]
    rw [setString_mistyped _ _ hv hp]
    rfl
  · simp only [fieldKeys, List.get?_cons_succ, List.get?_cons_zero, Option.some.injEq] at hk
    subst hk
    unfold stepFields
    rw [setString_wellTyped _ (fun s => s.Addr) s (fun _ => rfl)
      (hw ("addr", .string) (by decide))]
    simp only [Step.andThen]
    rw [setBool_wellTyped _ (fun s => s.UseReflection) _ (fun _ => rfl)
      (hw ("use_reflection", .bool) (by decide))]
    simp only [Step.andThen]
    rw [setStrings_wellTyped _ (fun s => s.ProtoFiles) _ (fun _ => rfl)
      (hw ("proto_files", .strings) (by decide))]
    simp only [Step.andThen]
    rw [setStrings_wellTyped _ (fun s => s.ImportPath) _ (fun _ => rfl)
      (hw ("import_path", .strings) (by decide))]
    simp only [Step.andThen]
    rw [setBool_wellTyped _ (fun s => s.NoTLS) _ (fun _ => rfl)
      (hw ("no_tls", .bool) (by decide))]
    simp only [Step.andThen]
    rw [setBool_wellTyped _ (fun s => s.Insecure) _ (fun _ => rfl)
      (hw ("insecure", .bool) (by decide))]
    simp only [Step.andThen]
    rw [setString_wellTyped _ (fun s => s.RootCertificate) _ (fun _ => rfl)
      (hw ("root_certificate", .string) (by decide))]
    simp only [Step.andThen]
    rw [setString_wellTyped _ (fun s => s.ClientCertificate) _ (fun _ => rfl)
      (hw ("client_certificate", .string) (by decide))]
    simp only [Step.andThen]
    rw [setString_mistyped _ _ hv hp]
    rfl

/-- The identity statements stop at the first key whose value fails its assertion. -/
theorem stepIdentity_mistyped (r : ServerRequest A Q) {req : Obj} {n : Nat}
    {kk : String × Kind} {v : Value} {p : PanicValue} (hk : identityKeys.get? n = some kk)
    (hw : ∀ kk' ∈ identityKeys.take n, hasKind req kk' = true) (hv : present req kk.1 = some v)
    (hp : assertionPanic kk.2 v = some p) :
    stepIdentity req r = .error (.panicked (identityWritten n req r) p) := by
  have hn : n < 3 := (List.get?_eq_some.mp hk).1
  interval_cases n
  · simp only [identityKeys, List.get?_cons_succ, List.get?_cons_zero, Option.some.injEq] at hk
    subst hk
    unfold stepIdentity
    rw [setInt64_mistyped _ _ hv hp]
    rfl
  · simp only [identityKeys, List.get?_cons_succ, List.get?_cons_zero, Option.some.injEq] at hk
    subst hk
    unfold stepIdentity
    rw [setInt64_wellTyped _ (fun s => s.ID) r (fun _ => rfl)
      (hw ("id", .float64) (by decide))]
    simp only [Step.andThen]
    rw [setInt64_mistyped _ _ hv hp]
    rfl
  · simp only [identityKeys, List.get?_cons_succ, List.get?_cons_zero, Option.some.injEq] at hk
    subst hk
    unfold stepIdentity
    rw [setInt64_wellTyped _ (fun s => s.ID) r (fun _ => rfl)
      (hw ("id", .float64) (by decide))]
    simp only [Step.andThen]
    rw [setInt64_wellTyped _ (fun s => s.FolderID) _ (fun _ => rfl)
      (hw ("folder_id", .float64) (by decide))]
    simp only [Step.andThen]
    rw [setString_mistyped _ _ hv hp]
    rfl

theorem wellTyped_iff {keys : List (String × Kind)} {m : Obj} :
    wellTyped keys m = true ↔ ∀ kk ∈ keys, hasKind m kk = true := by
  simp [wellTyped, List.all_eq_true]

/-- A payload that is not well typed at a list of keys has a first key of the wrong type: the
keys before it are well typed and its value raises a type-assertion error. -/
theorem exists_first_mistyped {keys : List (String × Kind)} {m : Obj}
    (h : wellTyped keys m = false) :
    ∃ n kk v a b, keys.get? n = some kk ∧ wellTyped (keys.take n) m = true ∧
      present m kk.1 = some v ∧ assertionPanic kk.2 v = some (.typeAssertion a b) := by
  induction keys with
  | nil => simp [wellTyped] at h
  | cons k ks ih =>
    cases hk : hasKind m k with
    | true =>
      have hks : wellTyped ks m = false := by
        simpa [wellTyped, hk] using h
      obtain ⟨n, kk, v, a, b, h1, h2, h3, h4⟩ := ih hks
      refine ⟨n + 1, kk, v, a, b, h1, ?_, h3, h4⟩
      simp only [wellTyped, List.take_succ_cons, List.all_cons, hk, Bool.true_and] at h2 ⊢
      exact h2
    | false =>
      unfold hasKind at hk
      cases hv : present m k.1 with
      | none => simp [hv] at hk
      | some v =>
        simp only [hv] at hk
        cases hp : assertionPanic k.2 v with
        | none => rw [(assertionPanic_eq_none k.2 v).mp hp] at hk; cases hk
        | some p =>
          have hshape : ∃ a b, p = .typeAssertion a b := by
            revert hp hk
            cases k.2 <;> cases v <;>
              simp [assertionPanic, Kind.accepts, Kind.asserted] <;>
              (intros; subst_vars; exact ⟨_, _, rfl⟩)
          obtain ⟨a, b, rfl⟩ := hshape
          exact ⟨0, k, v, a, b, rfl, rfl, hv, hp⟩

theorem stepSub_mistyped {v : Value} {p : PanicValue} (hp : assertionPanic .map v = some p) :
    assertMap v = .error p := by
  cases v <;> simp [assertionPanic, Kind.accepts, Kind.asserted] at hp <;>
    simp [assertMap, hp]

/-- C8, as the code has it: a key holding a non-nil value of the wrong type ends the call in
the panic of the failed assertion, which carries the dynamic type of the value (of the
offending element, for a list) and the asserted type, and no key; no error is returned and the
receiver keeps what was assigned before.  For the first scalar or list key of the wrong type
the profile holds the fields of the keys before it, in source order, and no other; for `k8s`
it holds every scalar and list field; for `auth`, when the `k8s` statement went through, it
holds what that statement left; for the first identity key of the wrong type the request
holds the identity fields before it and the profile it had before the call; and a panic of the
embedded profile decoder ends `ServerRequest.Model` in the same panic, with the identity
fields written and the embedded profile as that decoder left it. -/
theorem mistyped_key_panic_outcome (c : Collaborators A Q) (s : WorkspaceItemServer A Q)
    (r : ServerRequest A Q) (req : Obj) :
    (∀ kind v, kind.accepts v = false ↔
      ∃ a b, assertionPanic kind v = some (.typeAssertion a b)) ∧
    (∀ keys, wellTyped keys req = false →
      ∃ n kk v a b, keys.get? n = some kk ∧ wellTyped (keys.take n) req = true ∧
        present req kk.1 = some v ∧ assertionPanic kk.2 v = some (.typeAssertion a b)) ∧
    (∀ n kk v p, fieldKeys.get? n = some kk → wellTyped (fieldKeys.take n) req = true →
      present req kk.1 = some v → assertionPanic kk.2 v = some p →
      WorkspaceItemServer.Model c s (some req) = .panicked (fieldsWritten n req s) p) ∧
    (∀ v p, wellTyped fieldKeys req = true → present req "k8s" = some v →
      assertionPanic .map v = some p →
      WorkspaceItemServer.Model c s (some req) = .panicked (decodedFields req s) p) ∧
    (∀ t v p, wellTyped fieldKeys req = true → stepK8S c req (decodedFields req s) = .ok t →
      present req "auth" = some v → assertionPanic .map v = some p →
      WorkspaceItemServer.Model c s (some req) = .panicked t p) ∧
    (∀ n kk v p, identityKeys.get? n = some kk → wellTyped (identityKeys.take n) req = true →
      present req kk.1 = some v → assertionPanic kk.2 v = some p →
      ServerRequest.Model c r (some req) = .panicked (identityWritten n req r) p) ∧
    (∀ t p, wellTyped identityKeys req = true →
      WorkspaceItemServer.Model c {} (some req) = .panicked t p →
      ServerRequest.Model c r (some req) =
        .panicked { decodedIdentity req r with toWorkspaceItemServer := t } p) := by
  refine ⟨fun kind v => ?_, fun keys => exists_first_mistyped,
    fun n kk v p hk hw hv hp => ?_, fun v p hw hv hp => ?_,
    fun t v p hw ht hv hp => ?_, fun n kk v p hk hw hv hp => ?_, fun t p hw ht => ?_⟩
  · constructor
    · intro h
      cases hp : assertionPanic kind v with
      | none => rw [(assertionPanic_eq_none kind v).mp hp] at h; cases h
      | some p =>
        cases kind <;> cases v <;>
          simp [assertionPanic, Kind.accepts, Kind.asserted] at hp h ⊢ <;>
          first
            | exact ⟨_, _, hp.symm⟩
            | (obtain ⟨x, -, rfl⟩ := hp; exact ⟨_, _, rfl⟩)
    · rintro ⟨a, b, h⟩
      cases hacc : kind.accepts v with
      | false => rfl
      | true => rw [(assertionPanic_eq_none kind v).mpr hacc] at h; cases h
  · simp only [WorkspaceItemServer.Model,
      stepFields_mistyped s hk (wellTyped_iff.mp hw) hv hp, Step.andThen]
  · simp only [WorkspaceItemServer.Model, stepFields_wellTyped s hw, Step.andThen, stepK8S, hv,
      stepSub_mistyped hp]
  · simp only [WorkspaceItemServer.Model, stepFields_wellTyped s hw, Step.andThen, ht, stepAuth,
      hv, stepSub_mistyped hp]
  · simp only [ServerRequest.Model, stepIdentity_mistyped r hk (wellTyped_iff.mp hw) hv hp]
  · simp only [ServerRequest.Model, stepIdentity_wellTyped r hw, ht]
    rfl

/-- With `addr` well typed and `proto_files` holding a string, the call panics in the
assertion of a list on a string, and the address is written. -/
theorem mistyped_key_panic_outcome_witness :
    WorkspaceItemServer.Model scenarioCollaborators staleProfile
        (some [("addr", .str "a:1"), ("proto_files", .str "x.proto")]) =
      .panicked { staleProfile with Addr := "a:1" } (.typeAssertion .string .slice) ∧
    ServerRequest.Model scenarioCollaborators staleRequest
        (some [("id", .num 5), ("folder_id", .bool true)]) =
      .panicked { staleRequest with ID := 5 } (.typeAssertion .bool .float64) :=
  ⟨(mistyped_key_panic_outcome scenarioCollaborators staleProfile staleRequest
      [("addr", .str "a:1"), ("proto_files", .str "x.proto")]).2.2.1 2
      ("proto_files", .strings) (.str "x.proto") _ rfl (by decide) rfl rfl,
    (mistyped_key_panic_outcome scenarioCollaborators staleProfile staleRequest
      [("id", .num 5), ("folder_id", .bool true)]).2.2.2.2.2.1 1
      ("folder_id", .float64) (.bool true) _ rfl (by decide) rfl rfl⟩

/-- C8 fails as stated: with `proto_files` set to a string, with `proto_files` set to a list
holding a number, and with `id` set to a string, the call ends in a panic that names two types
and no key; it returns no error, and the fields assigned before the panic stay written. -/
theorem wrong_type_is_a_panic_not_an_error :
    WorkspaceItemServer.Model scenarioCollaborators {}
        (some [("addr", .str "a:1"), ("proto_files", .str "x.proto")]) =
      .panicked { Addr := "a:1" } (.typeAssertion .string .slice) ∧
    (WorkspaceItemServer.Model scenarioCollaborators {}
        (some [("addr", .str "a:1"), ("proto_files", .str "x.proto")])).error? = none ∧
    WorkspaceItemServer.Model scenarioCollaborators {}
        (some [("proto_files", .list [.str "x.proto", .num 1])]) =
      .panicked {} (.typeAssertion .float64 .string) ∧
    ServerRequest.Model scenarioCollaborators {} (some [("id", .str "5")]) =
      .panicked {} (.typeAssertion .string .float64) := by
  decide

/-! ## Failure of a sub-entity decoder -/

theorem subInput_some {m n : Obj} {k : String} (h : subInput m k = some n) :
    present m k = some (.obj n) ∧ 0 < n.length := by
  unfold subInput at h
  cases hp : present m k with
  | none => simp [hp] at h
  | some v =>
    rw [hp] at h
    cases v with
    | obj l =>
      by_cases hl : 0 < l.length
      · simp only [hl, if_true, Option.some.injEq] at h
        subst h
        exact ⟨rfl, hl⟩
      · simp [hl] at h
    | _ => simp at h

theorem hasKind_of_subInput {m n : Obj} {k : String} (h : subInput m k = some n) :
    hasKind m (k, .map) = true := by
  simp [hasKind, (subInput_some h).1, Kind.accepts]

/-- The outcome of `WorkspaceItemServer.Model` when the Port-Forward decoder returns an
error. -/
theorem Model_k8s_failure (c : Collaborators A Q) (s : WorkspaceItemServer A Q) {server m : Obj}
    {k : K8SPortForward} {e : GoError} (hwt : wellTyped fieldKeys server = true)
    (hi : subInput server "k8s" = some m) (hm : c.k8sModel {} m = .returned k (some e)) :
    WorkspaceItemServer.Model c s (some server) =
      .returned { decodedFields server s with K8SPortForward := some k } (some e) := by
  rw [Model_wellTyped c s hwt, stepK8S_wellTyped c _ (hasKind_of_subInput hi), hi]
  simp only [hm, Step.andThen]

/-- The outcome of `WorkspaceItemServer.Model` when the Port-Forward step goes on and the
Authentication decoder returns an error. -/
theorem Model_auth_failure (c : Collaborators A Q) (s : WorkspaceItemServer A Q)
    {s₁ : WorkspaceItemServer A Q} {server m : Obj} {a : A} {e : GoError}
    (hwt : wellTyped fieldKeys server = true)
    (hk : stepK8S c server (decodedFields server s) = .ok s₁)
    (hi : subInput server "auth" = some m)
    (hm : c.authModel c.authZero m = .returned a (some e)) :
    WorkspaceItemServer.Model c s (some server) =
      .returned { s₁ with Auth := some a } (some e) := by
  rw [Model_wellTyped c s hwt, hk]
  simp only [Step.andThen]
  rw [stepAuth_wellTyped c _ (hasKind_of_subInput hi), hi]
  simp only [hm]

/-- C9, as the code has it: when the Port-Forward or the Authentication decoder returns an
error on a payload whose scalar and list keys are well typed, `WorkspaceItemServer.Model`
returns that error at once and the receiver keeps what was written until then: the scalar and
list fields decoded from the payload, and the sub-entity whose decoder failed, present in the
state that decoder left it (after a Port-Forward failure the Authentication field is what it
was before the call).  `ServerRequest.Model` returns the same error with the identity fields
written and that profile embedded. -/
theorem sub_decoder_failure_keeps_written_fields (c : Collaborators A Q)
    (s : WorkspaceItemServer A Q) (r : ServerRequest A Q) (server : Obj)
    (hwt : wellTyped fieldKeys server = true) :
    (∀ m k e, subInput server "k8s" = some m → c.k8sModel {} m = .returned k (some e) →
      WorkspaceItemServer.Model c s (some server) =
        .returned { decodedFields server s with K8SPortForward := some k } (some e)) ∧
    (∀ s₁ m a e, stepK8S c server (decodedFields server s) = .ok s₁ →
      subInput server "auth" = some m → c.authModel c.authZero m = .returned a (some e) →
      WorkspaceItemServer.Model c s (some server) =
        .returned { s₁ with Auth := some a } (some e)) ∧
    (∀ m k e, wellTyped identityKeys server = true → subInput server "k8s" = some m →
      c.k8sModel {} m = .returned k (some e) →
      ServerRequest.Model c r (some server) =
        .returned
          { decodedIdentity server r with
            toWorkspaceItemServer :=
              { decodedFields server ({} : WorkspaceItemServer A Q) with
                K8SPortForward := some k } }
          (some e)) := by
  refine ⟨fun m k e hi hm => Model_k8s_failure c s hwt hi hm,
    fun s₁ m a e hk hi hm => Model_auth_failure c s hwt hk hi hm, ?_⟩
  intro m k e hid hi hm
  simp only [ServerRequest.Model, stepIdentity_wellTyped r hid,
    Model_k8s_failure c ({} : WorkspaceItemServer A Q) hwt hi hm]
  rfl

/-- A Port-Forward decoder that rejects its mapping leaves the address written and the
Port-Forward entity present. -/
theorem sub_decoder_failure_keeps_written_fields_witness :
    wellTyped fieldKeys [("addr", .str "a:1"), ("k8s", .obj [("target", .str "")])] = true ∧
    WorkspaceItemServer.Model (rejectingCollaborators ⟨"invalid target"⟩) {}
        (some [("addr", .str "a:1"), ("k8s", .obj [("target", .str "")])]) =
      .returned
        { decodedFields [("addr", .str "a:1"), ("k8s", .obj [("target", .str "")])]
            ({} : WorkspaceItemServer Unit Unit) with
          K8SPortForward := some {} }
        (some ⟨"invalid target"⟩) :=
  ⟨by decide,
    (sub_decoder_failure_keeps_written_fields (rejectingCollaborators ⟨"invalid target"⟩) {} {}
      [("addr", .str "a:1"), ("k8s", .obj [("target", .str "")])] (by decide)).1
      [("target", .str "")] {} ⟨"invalid target"⟩ rfl rfl⟩

/-- C9 fails as stated: with a Port-Forward decoder that rejects the mapping, the call on a
zero-valued profile returns the error and leaves the profile partly populated, the address
written and the Port-Forward entity present; through `ServerRequest.Model` the identifier is
written as well.  With an Authentication decoder that rejects the mapping, the Authentication
entity is left present. -/
theorem failed_decode_leaves_profile_populated :
    WorkspaceItemServer.Model (rejectingCollaborators ⟨"invalid target"⟩) {}
        (some [("addr", .str "a:1"), ("k8s", .obj [("target", .str "")])]) =
      .returned { Addr := "a:1", K8SPortForward := some {} } (some ⟨"invalid target"⟩) ∧
    ({ Addr := "a:1", K8SPortForward := some {} } : WorkspaceItemServer Unit Unit) ≠ {} ∧
    ServerRequest.Model (rejectingCollaborators ⟨"invalid target"⟩) {}
        (some [("id", .num 5), ("addr", .str "a:1"), ("k8s", .obj [("target", .str "")])]) =
      .returned { ID := 5, Addr := "a:1", K8SPortForward := some {} }
        (some ⟨"invalid target"⟩) ∧
    WorkspaceItemServer.Model (rejectingCollaborators ⟨"invalid scheme"⟩) {}
        (some [("addr", .str "a:1"), ("auth", .obj [("type", .str "")])]) =
      .returned { Addr := "a:1", Auth := some () } (some ⟨"invalid scheme"⟩) := by
  decide

/-! ## The error of a failed sub-entity decoder -/

/-- C10, as the code has it: when the Port-Forward decoder, or after it the Authentication
decoder, returns the error `e` on a payload whose scalar and list keys are well typed,
`WorkspaceItemServer.Model` returns `e` itself, neither wrapped nor tagged with the name of the
sub-entity. -/
theorem sub_decoder_error_returned_as_is (c : Collaborators A Q) (s : WorkspaceItemServer A Q)
    (server : Obj) (hwt : wellTyped fieldKeys server = true) :
    (∀ m k e, subInput server "k8s" = some m → c.k8sModel {} m = .returned k (some e) →
      ∃ s', WorkspaceItemServer.Model c s (some server) = .returned s' (some e)) ∧
    (∀ s₁ m a e, stepK8S c server (decodedFields server s) = .ok s₁ →
      subInput server "auth" = some m → c.authModel c.authZero m = .returned a (some e) →
      ∃ s', WorkspaceItemServer.Model c s (some server) = .returned s' (some e)) :=
  ⟨fun _ _ _ hi hm => ⟨_, Model_k8s_failure c s hwt hi hm⟩,
    fun _ _ _ _ hk hi hm => ⟨_, Model_auth_failure c s hwt hk hi hm⟩⟩

/-- An Authentication decoder that rejects its mapping with an error has that very error
returned. -/
theorem sub_decoder_error_returned_as_is_witness :
    wellTyped fieldKeys [("auth", .obj [("type", .str "")])] = true ∧
    ∃ s', WorkspaceItemServer.Model (rejectingCollaborators ⟨"invalid"⟩)
        ({} : WorkspaceItemServer Unit Unit) (some [("auth", .obj [("type", .str "")])]) =
      .returned s' (some ⟨"invalid"⟩) :=
  ⟨by decide,
    (sub_decoder_error_returned_as_is (rejectingCollaborators ⟨"invalid"⟩) {}
      [("auth", .obj [("type", .str "")])] (by decide)).2
      {} [("type", .str "")] () ⟨"invalid"⟩ rfl rfl rfl⟩

/-- C10 fails as stated: when the Port-Forward decoder and the Authentication decoder fail
with the same error, the two calls return the same error value, which is that error and names
no sub-entity. -/
theorem sub_decoder_errors_carry_no_tag :
    (WorkspaceItemServer.Model (rejectingCollaborators ⟨"invalid"⟩)
        ({} : WorkspaceItemServer Unit Unit) (some [("k8s", .obj [("x", .str "")])])).error? =
      some ⟨"invalid"⟩ ∧
    (WorkspaceItemServer.Model (rejectingCollaborators ⟨"invalid"⟩)
        ({} : WorkspaceItemServer Unit Unit) (some [("auth", .obj [("x", .str "")])])).error? =
      some ⟨"invalid"⟩ ∧
    (WorkspaceItemServer.Model (rejectingCollaborators ⟨"invalid"⟩)
        ({} : WorkspaceItemServer Unit Unit) (some [("k8s", .obj [("x", .str "")])])).error? =
    (WorkspaceItemServer.Model (rejectingCollaborators ⟨"invalid"⟩)
        ({} : WorkspaceItemServer Unit Unit) (some [("auth", .obj [("x", .str "")])])).error? := by
  decide

end Claims

/-! ## Fingerprint sensitivity -/

section Sensitivity

set_option maxRecDepth 100000

theorem char_eq_of_toNat {c d : Char} (h : c.toNat = d.toNat) : c = d := by
  rw [← Char.ofNat_toNat c, ← Char.ofNat_toNat d, h]

theorem char_toNat_lt (c : Char) : c.toNat < 0x110000 := by
  have := c.valid
  simp only [Char.toNat]
  rcases this with h | ⟨_, h⟩
  · have : c.val.toNat < 0xd800 := h
    omega
  · exact h

theorem utf8EncodeChar_prefix {c d : Char} {x y : Bytes}
    (h : utf8EncodeChar c ++ x = utf8EncodeChar d ++ y) : c = d ∧ x = y := by
  have hc := char_toNat_lt c
  have hd := char_toNat_lt d
  unfold utf8EncodeChar at h
  simp only at h
  have key : c.toNat = d.toNat ∧ x = y := by
    split_ifs at h <;> simp only [List.cons_append, List.nil_append, List.cons.injEq] at h <;>
      first
        | (exfalso; omega)
        | exact ⟨by omega, h.2⟩
        | exact ⟨by omega, h.2.2⟩
        | exact ⟨by omega, h.2.2.2⟩
        | exact ⟨by omega, h.2.2.2.2⟩
  exact ⟨char_eq_of_toNat key.1, key.2⟩

theorem utf8EncodeChar_ne_nil (c : Char) : utf8EncodeChar c ≠ [] := by
  unfold utf8EncodeChar
  simp only
  split_ifs <;> simp

theorem utf8Encode_injective {cs ds : List Char} (h : utf8Encode cs = utf8Encode ds) :
    cs = ds := by
  induction cs generalizing ds with
  | nil =>
    cases ds with
    | nil => rfl
    | cons d ds =>
      simp only [utf8Encode, List.flatMap_nil, List.flatMap_cons] at h
      exact absurd (List.append_eq_nil.mp h.symm).1 (utf8EncodeChar_ne_nil d)
  | cons c cs ih =>
    cases ds with
    | nil =>
      simp only [utf8Encode, List.flatMap_nil, List.flatMap_cons] at h
      exact absurd (List.append_eq_nil.mp h).1 (utf8EncodeChar_ne_nil c)
    | cons d ds =>
      simp only [utf8Encode, List.flatMap_cons] at h
      obtain ⟨h1, h2⟩ := utf8EncodeChar_prefix h
      rw [h1, ih h2]


theorem hexDigit_inj : ∀ a < 16, ∀ b < 16, hexDigit a = hexDigit b → a = b := by
  decide

/-- What the decoder returns is a Unicode scalar value and the length, between one
and four, of a sequence at the head of the bytes. -/
theorem decodeRune_size {bs : Bytes} {c size : Nat} (h : decodeRune bs = some (c, size)) :
    0 < size ∧ size ≤ 4 ∧ size ≤ bs.length ∧ (c < 0xd800 ∨ (0xdfff < c ∧ c < 0x110000)) := by
  rcases bs with _ | ⟨b0, _ | ⟨b1, _ | ⟨b2, _ | ⟨b3, t⟩⟩⟩⟩
  · simp [decodeRune] at h
  all_goals
    simp only [decodeRune, isContinuation, decide_eq_true_eq] at h
    split_ifs at h <;>
    simp only [Option.some.injEq, Prod.mk.injEq, reduceCtorEq] at h <;>
    (obtain ⟨rfl, rfl⟩ := h; simp only [List.length_cons, List.length_nil]; omega)

/-- One round of the loop for each byte is enough: more rounds write the same bytes. -/
theorem jsonStringBody_fuel : ∀ (f g : Nat) (bs : Bytes), bs.length ≤ f → bs.length ≤ g →
    jsonStringBody f bs = jsonStringBody g bs := by
  intro f
  induction f with
  | zero =>
    intro g bs hf _
    have : bs = [] := List.length_eq_zero.mp (by omega)
    subst this
    cases g <;> rfl
  | succ f ih =>
    intro g bs hf hg
    cases bs with
    | nil => cases g <;> rfl
    | cons b rest =>
      obtain ⟨g, rfl⟩ : ∃ g', g = g' + 1 := ⟨g - 1, by simp at hg; omega⟩
      simp only [List.length_cons] at hf hg
      simp only [jsonStringBody]
      cases hd : decodeRune (b :: rest) with
      | none => simp only; rw [ih g rest (by omega) (by omega)]
      | some cs =>
        obtain ⟨c, size⟩ := cs
        have hs := (decodeRune_size hd).1
        have hl : ((b :: rest).drop size).length ≤ rest.length := by
          simp only [List.length_drop, List.length_cons]
          omega
        simp only
        rw [ih g _ (by omega) (by omega)]

/-- The serialization of a Port-Forward entity never fails. -/
theorem jsonMarshal_portForward (p : Option K8SPortForward) :
    ∃ data, json.Marshal (reflectPortForward p) = .ok data := by
  cases p with
  | none => exact ⟨_, rfl⟩
  | some k => exact ⟨_, rfl⟩

/-- The model of `md5.Sum` and `hex.EncodeToString` on the test suite of RFC 1321: the empty
message, two one-block messages and a two-block message. -/
theorem md5_test_suite :
    hex.EncodeToString (md5.Sum []) = "d41d8cd98f00b204e9800998ecf8427e" ∧
    hex.EncodeToString (md5.Sum (utf8Encode "abc".data)) = "900150983cd24fb0d6963f7d28e17f72" ∧
    hex.EncodeToString (md5.Sum (utf8Encode "message digest".data)) =
      "f96b697d7cb7938d525a2f31aaf161d0" ∧
    hex.EncodeToString (md5.Sum (utf8Encode
      "12345678901234567890123456789012345678901234567890123456789012345678901234567890".data)) =
      "57edf4a22be3c955ac49da2e2107b67a" := by
  decide

/-- The serialization of the absent Port-Forward field is the text `null`, and its
fingerprint is the MD5 digest of that text. -/
theorem fingerprint_absent :
    json.Marshal (reflectPortForward none) = .ok [110, 117, 108, 108] ∧
    fingerprint none = .digest "37a6259cc0c1dae299a7866489dff0bd" :=
  ⟨rfl, by decide⟩

theorem leBytes_mem {n x b : Nat} (h : b ∈ leBytes n x) : b < 256 := by
  simp only [leBytes, List.mem_map] at h
  obtain ⟨j, -, rfl⟩ := h
  exact Nat.mod_lt _ (by decide)

theorem md5Sum_mem {data : Bytes} {b : Nat} (h : b ∈ md5.Sum data) : b < 256 := by
  simp only [md5.Sum, md5Digest, List.mem_append] at h
  rcases h with ((h | h) | h) | h <;> exact leBytes_mem h

theorem hexPair_injective {b c : Nat} (hb : b < 256) (hc : c < 256)
    (h1 : hexDigit (b / 16) = hexDigit (c / 16)) (h2 : hexDigit (b % 16) = hexDigit (c % 16)) :
    b = c := by
  have e1 := hexDigit_inj _ (by omega) _ (by omega) h1
  have e2 := hexDigit_inj _ (Nat.mod_lt _ (by decide)) _ (Nat.mod_lt _ (by decide)) h2
  omega

/-- The hexadecimal rendering of a byte sequence determines the sequence. -/
theorem hexEncodeToString_injective {xs ys : Bytes} (hx : ∀ b ∈ xs, b < 256)
    (hy : ∀ b ∈ ys, b < 256) (h : hex.EncodeToString xs = hex.EncodeToString ys) : xs = ys := by
  replace h : (xs.flatMap fun b => [hexDigit (b / 16), hexDigit (b % 16)]) =
      ys.flatMap fun b => [hexDigit (b / 16), hexDigit (b % 16)] := congrArg String.data h
  induction xs generalizing ys with
  | nil =>
    cases ys with
    | nil => rfl
    | cons c ys => simp at h
  | cons b xs ih =>
    cases ys with
    | nil => simp at h
    | cons c ys =>
      simp only [List.flatMap_cons, List.cons_append, List.nil_append, List.cons.injEq] at h
      obtain ⟨h1, h2, h3⟩ := h
      rw [hexPair_injective (hx b (List.mem_cons_self _ _)) (hy c (List.mem_cons_self _ _)) h1 h2,
        ih (fun b hb => hx b (List.mem_cons_of_mem _ hb))
          (fun b hb => hy b (List.mem_cons_of_mem _ hb)) h3]

/-- The fingerprints of the two tunnels of the second scenario: the MD5 digests of the JSON
texts with members `enabled`, `target`, `local_port` and `remote_port`. -/
theorem scenario_fingerprints :
    fingerprint (some (tunnelEntity true)) = .digest "60c0d5f1727e00bb156793b45e6fd94f" ∧
    fingerprint (some (tunnelEntity false)) = .digest "c6b5ffbf2a528c2784665bf35395217d" := by
  decide

theorem w32_lt (x : Nat) : w32 x < 2 ^ 32 := Nat.mod_lt _ (by decide)

theorem md5Block_bounded (st : Md5State) (chunk : Bytes) : (md5Block st chunk).Bounded :=
  ⟨w32_lt _, w32_lt _, w32_lt _, w32_lt _⟩

theorem md5Blocks_bounded (n : Nat) (st : Md5State) (bs : Bytes) (h : st.Bounded) :
    (md5Blocks n st bs).Bounded := by
  induction n generalizing st bs with
  | zero => exact h
  | succ n ih => exact ih _ _ (md5Block_bounded st _)

theorem md5Final_bounded (msg : Bytes) : (md5Final msg).Bounded :=
  md5Blocks_bounded _ _ _ ⟨by decide, by decide, by decide, by decide⟩

/-- The fingerprint is a function of the four 32-bit words of the final chaining value: it
takes at most `2 ^ 128` values. -/
theorem fingerprint_factors :
    ∃ g : Fin (2 ^ 32) × Fin (2 ^ 32) × Fin (2 ^ 32) × Fin (2 ^ 32) → HashOutcome,
      ∀ k : K8SPortForward, ∃ w, fingerprint (some k) = g w := by
  refine ⟨fun w => .digest (hex.EncodeToString
    (md5Digest ⟨w.1.val, w.2.1.val, w.2.2.1.val, w.2.2.2.val⟩)), fun k => ?_⟩
  obtain ⟨data, hd⟩ := jsonMarshal_portForward (some k)
  obtain ⟨ha, hb, hc, hd'⟩ := md5Final_bounded data
  refine ⟨(⟨_, ha⟩, ⟨_, hb⟩, ⟨_, hc⟩, ⟨_, hd'⟩), ?_⟩
  simp only [fingerprint, WorkspaceItemServer.PortForwardHash, hd, digestOrFatal]
  rfl

/-- Two fingerprints can be equal where the serializations differ: the fingerprint takes at
most `2 ^ 128` values and the entities with a valid target that differ in their target alone
are infinitely many, so two of them have the same fingerprint. -/
theorem valid_targets_collide :
    ∃ a b : K8SPortForward, a.ValidTarget ∧ b.ValidTarget ∧ SingleFieldMutation a b ∧
      fingerprint (some a) = fingerprint (some b) := by
  obtain ⟨g, hg⟩ := fingerprint_factors
  choose w hw using hg
  obtain ⟨t, t', hne, heq⟩ := Finite.exists_ne_map_eq_of_infinite
    (fun t : List Char => w { Target := utf8Encode t })
  refine ⟨{ Target := utf8Encode t }, { Target := utf8Encode t' }, ⟨t, rfl⟩, ⟨t', rfl⟩,
    Or.inr (Or.inl ⟨rfl, fun h => hne (utf8Encode_injective h), rfl, rfl⟩), ?_⟩
  rw [hw, hw]
  exact congrArg g heq

/-- The text `encoding/json` writes for an entity with the zero value in every field but the
target, the target being a byte that is not well-formed UTF-8. -/
theorem replaced_target_text :
    utf8Encode "\x7b\"enabled\":false,\"target\":\"\\ufffd\",\"local_port\":0,\"remote_port\":0\x7d".data =
      [123, 34, 101, 110, 97, 98, 108, 101, 100, 34, 58, 102, 97, 108, 115, 101, 44, 34, 116, 97,
        114, 103, 101, 116, 34, 58, 34, 92, 117, 102, 102, 102, 100, 34, 44, 34, 108, 111, 99, 97,
        108, 95, 112, 111, 114, 116, 34, 58, 48, 44, 34, 114, 101, 109, 111, 116, 101, 95, 112,
        111, 114, 116, 34, 58, 48, 125] := by
  decide

end Sensitivity

/-! ## The reset of the embedded profile -/

section Reset

variable {A Q : Type}

/-- On a payload whose identity keys are well typed, `ServerRequest.Model` is
`WorkspaceItemServer.Model` run on the zero profile, embedded after the decoded identity. -/
theorem ServerRequest_delegates (c : Collaborators A Q) (r : ServerRequest A Q) {req : Obj}
    (h : wellTyped identityKeys req = true) :
    ServerRequest.Model c r (some req) =
      match WorkspaceItemServer.Model c {} (some req) with
      | .returned s err => .returned { decodedIdentity req r with toWorkspaceItemServer := s } err
      | .panicked s p => .panicked { decodedIdentity req r with toWorkspaceItemServer := s } p := by
  simp only [ServerRequest.Model, stepIdentity_wellTyped r h]
  rfl

/-- C11, as the code has it: for every non-nil payload whose `id`, `folder_id` and `title`
are absent, nil or of the asserted type, and every prior state of the receiver,
`ServerRequest.Model` resets the embedded profile before delegating.  The call ends as
`WorkspaceItemServer.Model` ends on the zero profile with the same payload: it returns the
same error, or panics with the same value, and the receiver holds the decoded identity fields
around the profile that call left.  So the embedded profile, the returned error and the panic
are those of that call, and two receivers with the same identity fields end alike, whatever
their previous profiles held. -/
theorem profile_reset_before_delegating (c : Collaborators A Q) (r : ServerRequest A Q)
    (req : Obj) (h : wellTyped identityKeys req = true) :
    ServerRequest.Model c r (some req) =
      (WorkspaceItemServer.Model c ({} : WorkspaceItemServer A Q) (some req)).mapState
        (fun s => { decodedIdentity req r with toWorkspaceItemServer := s }) ∧
    (ServerRequest.Model c r (some req)).state.toWorkspaceItemServer =
      (WorkspaceItemServer.Model c ({} : WorkspaceItemServer A Q) (some req)).state ∧
    (ServerRequest.Model c r (some req)).error? =
      (WorkspaceItemServer.Model c ({} : WorkspaceItemServer A Q) (some req)).error? ∧
    (ServerRequest.Model c r (some req)).panic? =
      (WorkspaceItemServer.Model c ({} : WorkspaceItemServer A Q) (some req)).panic? ∧
    (∀ r₂ : ServerRequest A Q, r₂.ID = r.ID → r₂.FolderID = r.FolderID → r₂.Title = r.Title →
      ServerRequest.Model c r₂ (some req) = ServerRequest.Model c r (some req)) := by
  refine ⟨?_, ?_, ?_, ?_, ?_⟩
  · rw [ServerRequest_delegates c r h]
    cases WorkspaceItemServer.Model c ({} : WorkspaceItemServer A Q) (some req) <;> rfl
  · rw [ServerRequest_delegates c r h]
    cases WorkspaceItemServer.Model c ({} : WorkspaceItemServer A Q) (some req) <;> rfl
  · rw [ServerRequest_delegates c r h]
    cases WorkspaceItemServer.Model c ({} : WorkspaceItemServer A Q) (some req) <;> rfl
  · rw [ServerRequest_delegates c r h]
    cases WorkspaceItemServer.Model c ({} : WorkspaceItemServer A Q) (some req) <;> rfl
  · intro r₂ h1 h2 h3
    rw [ServerRequest_delegates c r h, ServerRequest_delegates c r₂ h]
    simp only [decodedIdentity, h1, h2, h3]

/-- Decoding the first scenario into a request that holds an old address, authentication and
tunnel leaves none of them; decoding a payload whose `proto_files` is a string into it ends in
the panic of the profile decoder, with the identity written and the old profile gone. -/
theorem profile_reset_before_delegating_witness :
    wellTyped identityKeys scenarioProd = true ∧
    ServerRequest.Model scenarioCollaborators staleRequest (some scenarioProd) =
      .returned { ID := 5, Title := "Prod", Addr := "localhost:50051" } none ∧
    ServerRequest.Model scenarioCollaborators staleRequest (some scenarioProd) =
      (WorkspaceItemServer.Model scenarioCollaborators {} (some scenarioProd)).mapState
        (fun s => { decodedIdentity scenarioProd staleRequest with
          toWorkspaceItemServer := s }) ∧
    ServerRequest.Model scenarioCollaborators staleRequest
        (some [("id", .num 5), ("addr", .str "a:1"), ("proto_files", .str "x.proto")]) =
      .panicked { ID := 5, Title := "Old", Addr := "a:1" } (.typeAssertion .string .slice) ∧
    WorkspaceItemServer.Model scenarioCollaborators {}
        (some [("id", .num 5), ("addr", .str "a:1"), ("proto_files", .str "x.proto")]) =
      .panicked { Addr := "a:1" } (.typeAssertion .string .slice) :=
  ⟨by decide, by decide,
    (profile_reset_before_delegating scenarioCollaborators staleRequest scenarioProd
      (by decide)).1, by decide, by decide⟩

/-- C11 fails as stated: when `id` holds a string, the call panics in the assertion of line
60, before the reset of line 69, and the receiver still holds its previous address,
authentication and tunnel, whereas `WorkspaceItemServer.Model` on the zero profile returns no
error and leaves the zero profile. -/
theorem mistyped_id_keeps_previous_profile :
    ServerRequest.Model scenarioCollaborators staleRequest (some [("id", .str "7")]) =
      .panicked staleRequest (.typeAssertion .string .float64) ∧
    WorkspaceItemServer.Model scenarioCollaborators ({} : WorkspaceItemServer Unit Unit)
        (some [("id", .str "7")]) = .returned {} none ∧
    staleRequest.toWorkspaceItemServer ≠ {} := by
  decide

end Reset

/-! ## The update request -/

section Update

variable {A Q : Type}

/-- The outcome of the saved-query step on a well-typed `request` key whose decoder does not
panic. -/
theorem stepRequest_wellTyped (c : Collaborators A Q) {req : Obj} (u : ServerUpdateRequest Q)
    (h : hasKind req ("request", .map) = true)
    (hq : ∀ m, present req "request" = some (.obj m) →
      ∃ sq e, c.queryModel c.queryZero m = .returned sq e) :
    stepRequest c req u = .ok
      { u with
        Request :=
          match present req "request" with
          | some (.obj m) => some (c.queryModel c.queryZero m).state
          | _ => u.Request } := by
  unfold stepRequest
  unfold hasKind at h
  cases hp : present req "request" with
  | none => rfl
  | some v =>
    rw [hp] at h
    cases v with
    | obj m =>
      obtain ⟨sq, e, hm⟩ := hq m hp
      simp only [assertMap, hm, Outcome.state]
    | _ => simp [Kind.accepts] at h

/-- C12: for every non-nil well-typed payload (the saved-query decoder returning on the nested
mapping), `ServerUpdateRequest.Model` returns no error, sets ID, Service and Method from
`id`, `service` and `method`, and stores the decoded Saved Query exactly when `request` is
present and non-nil, whether or not the saved-query decoder returned an error; with `request`
absent or nil the Request field is left as it was. -/
theorem update_request_decodes (c : Collaborators A Q) (u : ServerUpdateRequest Q) (req : Obj)
    (hwt : wellTyped updateKeys req = true)
    (hq : ∀ m, present req "request" = some (.obj m) →
      ∃ sq e, c.queryModel c.queryZero m = .returned sq e) :
    ∃ u', ServerUpdateRequest.Model c u (some req) = .returned u' none ∧
      u'.ID = int64At req "id" u.ID ∧
      u'.Service = strAt req "service" u.Service ∧
      u'.Method = strAt req "method" u.Method ∧
      (∀ m, present req "request" = some (.obj m) →
        u'.Request = some (c.queryModel c.queryZero m).state) ∧
      (present req "request" = none → u'.Request = u.Request) ∧
      (u.Request = none → (u'.Request.isSome = true ↔ present req "request" ≠ none)) := by
  simp only [wellTyped, updateKeys, List.all_cons, List.all_nil, Bool.and_true,
    Bool.and_eq_true] at hwt
  obtain ⟨h1, h2, h3, h4⟩ := hwt
  have key : ServerUpdateRequest.Model c u (some req) = .returned
      { ID := int64At req "id" u.ID
        Service := strAt req "service" u.Service
        Method := strAt req "method" u.Method
        Request :=
          match present req "request" with
          | some (.obj m) => some (c.queryModel c.queryZero m).state
          | _ => u.Request } none := by
    simp only [ServerUpdateRequest.Model]
    rw [setInt64_wellTyped _ (fun u => u.ID) u (fun _ => rfl) h1]
    simp only [Step.andThen]
    rw [setString_wellTyped _ (fun u => u.Service) _ (fun _ => rfl) h2]
    simp only [Step.andThen]
    rw [setString_wellTyped _ (fun u => u.Method) _ (fun _ => rfl) h3]
    simp only [Step.andThen]
    rw [stepRequest_wellTyped c _ h4 hq]
  refine ⟨_, key, ?_⟩
  · refine ⟨rfl, rfl, rfl, ?_, ?_, ?_⟩
    · intro m hm
      simp only [hm]
    · intro hn
      simp only [hn]
    · intro hu
      unfold hasKind at h4
      cases hp : present req "request" with
      | none => simp [hu]
      | some v =>
        rw [hp] at h4
        cases v with
        | obj m => simp
        | _ => simp [Kind.accepts] at h4

/-- An update payload decodes without error and with the Saved Query stored although the
saved-query decoder fails. -/
theorem update_request_decodes_witness :
    wellTyped updateKeys scenarioUpdate = true ∧
    (failingQueryCollaborators ⟨"bad query"⟩).queryModel ()
        [("name", .str "x")] = .returned () (some ⟨"bad query"⟩) ∧
    ServerUpdateRequest.Model (failingQueryCollaborators ⟨"bad query"⟩) {}
        (some scenarioUpdate) =
      .returned { ID := 9, Service := "pkg.Greeter", Method := "SayHello", Request := some () }
        none ∧
    ∃ u', ServerUpdateRequest.Model (failingQueryCollaborators ⟨"bad query"⟩) {}
        (some scenarioUpdate) = .returned u' none ∧ u'.ID = int64At scenarioUpdate "id" 0 := by
  refine ⟨by decide, rfl, by decide, ?_⟩
  obtain ⟨u', h, hid, -⟩ :=
    update_request_decodes (failingQueryCollaborators ⟨"bad query"⟩) {} scenarioUpdate
      (by decide) (fun m _ => ⟨(), some ⟨"bad query"⟩, rfl⟩)
  exact ⟨u', h, hid⟩

end Update

/-! ## Keys mapped to nil -/

section NullKeys

variable {A Q : Type}

theorem lookup_without_self (p : Obj) (k : String) : (without p k).lookup k = none := by
  induction p with
  | nil => rfl
  | cons kv p ih =>
    obtain ⟨a, b⟩ := kv
    unfold without at ih ⊢
    rw [List.filter_cons]
    by_cases h : a = k
    · simp only [h, beq_self_eq_true, Bool.not_true, Bool.false_eq_true, if_false]
      exact ih
    · have h1 : (!(a == k)) = true := by simpa using h
      have hk : (k == a) = false := by simpa using fun e => h e.symm
      simp only [h1, if_true, List.lookup_cons, hk]
      exact ih

theorem lookup_without_other (p : Obj) {k k' : String} (h : k' ≠ k) :
    (without p k).lookup k' = p.lookup k' := by
  induction p with
  | nil => rfl
  | cons kv p ih =>
    obtain ⟨a, b⟩ := kv
    unfold without at ih ⊢
    rw [List.filter_cons]
    by_cases ha : a = k
    · have hk : (k' == a) = false := by simpa [ha] using h
      simp only [ha, beq_self_eq_true, Bool.not_true, Bool.false_eq_true, if_false]
      rw [ih, List.lookup_cons, ← ha, hk]
    · have h1 : (!(a == k)) = true := by simpa using ha
      simp only [h1, if_true, List.lookup_cons]
      rw [ih]

/-- The guard of the field accessor does not tell a key mapped to nil from a removed key. -/
theorem present_withNull (p : Obj) (k k' : String) :
    present (withNull p k) k' = present (without p k) k' := by
  unfold present withNull
  by_cases h : k' = k
  · subst h
    simp [List.lookup_cons, lookup_without_self]
  · have hk : (k' == k) = false := by simpa using h
    simp [List.lookup_cons, hk, lookup_without_other p h]

theorem setInt64_congr {σ : Type} {p q : Obj} (h : present p = present q) (k : String)
    (set : σ → Int → σ) : setInt64 p k set = setInt64 q k set := by
  funext s
  simp only [setInt64, h]

theorem setString_congr {σ : Type} {p q : Obj} (h : present p = present q) (k : String)
    (set : σ → String → σ) : setString p k set = setString q k set := by
  funext s
  simp only [setString, h]

theorem setBool_congr {σ : Type} {p q : Obj} (h : present p = present q) (k : String)
    (set : σ → Bool → σ) : setBool p k set = setBool q k set := by
  funext s
  simp only [setBool, h]

theorem setStrings_congr {σ : Type} {p q : Obj} (h : present p = present q) (k : String)
    (set : σ → List String → σ) : setStrings p k set = setStrings q k set := by
  funext s
  simp only [setStrings, h]

theorem stepK8S_congr (c : Collaborators A Q) {p q : Obj} (h : present p = present q) :
    stepK8S c p = stepK8S c q := by
  funext s
  simp only [stepK8S, h]

theorem stepAuth_congr (c : Collaborators A Q) {p q : Obj} (h : present p = present q) :
    stepAuth c p = stepAuth c q := by
  funext s
  simp only [stepAuth, h]

theorem stepRequest_congr (c : Collaborators A Q) {p q : Obj} (h : present p = present q) :
    stepRequest c p = stepRequest c q := by
  funext u
  simp only [stepRequest, h]

/-- The profile decoder reads the payload through the guard of the field accessor only. -/
theorem Model_congr (c : Collaborators A Q) (s : WorkspaceItemServer A Q) {p q : Obj}
    (h : ∀ k, present p k = present q k) :
    WorkspaceItemServer.Model c s (some p) = WorkspaceItemServer.Model c s (some q) := by
  have hp : present p = present q := funext h
  simp only [WorkspaceItemServer.Model, stepFields, setString_congr hp, setBool_congr hp,
    setStrings_congr hp, stepK8S_congr c hp, stepAuth_congr c hp]

/-- The request decoder reads the payload through the guard of the field accessor only. -/
theorem ServerRequest_congr (c : Collaborators A Q) (r : ServerRequest A Q) {p q : Obj}
    (h : ∀ k, present p k = present q k) :
    ServerRequest.Model c r (some p) = ServerRequest.Model c r (some q) := by
  have hp : present p = present q := funext h
  simp only [ServerRequest.Model, stepIdentity, setInt64_congr hp, setString_congr hp,
    Model_congr c _ h]

/-- The update decoder reads the payload through the guard of the field accessor only. -/
theorem ServerUpdateRequest_congr (c : Collaborators A Q) (u : ServerUpdateRequest Q)
    {p q : Obj} (h : ∀ k, present p k = present q k) :
    ServerUpdateRequest.Model c u (some p) = ServerUpdateRequest.Model c u (some q) := by
  have hp : present p = present q := funext h
  simp only [ServerUpdateRequest.Model, setInt64_congr hp, setString_congr hp,
    stepRequest_congr c hp]

/-- C13: a key whose value is nil is treated exactly like an absent key: for every payload,
every key and every receiver, each of the three decoders ends with the same entity and the
same error or panic on the payload with the key mapped to nil as on the payload with the key
removed; and a payload that only maps a key to nil decodes without error, leaving the
receiver as a payload without keys does. -/
theorem null_key_like_absent_key (c : Collaborators A Q) (r : ServerRequest A Q)
    (s : WorkspaceItemServer A Q) (u : ServerUpdateRequest Q) (p : Obj) (k : String) :
    ServerRequest.Model c r (some (withNull p k)) =
      ServerRequest.Model c r (some (without p k)) ∧
    WorkspaceItemServer.Model c s (some (withNull p k)) =
      WorkspaceItemServer.Model c s (some (without p k)) ∧
    ServerUpdateRequest.Model c u (some (withNull p k)) =
      ServerUpdateRequest.Model c u (some (without p k)) ∧
    ServerRequest.Model c r (some (withNull [] k)) =
      .returned { r with toWorkspaceItemServer := {} } none ∧
    WorkspaceItemServer.Model c s (some (withNull [] k)) = .returned s none ∧
    ServerUpdateRequest.Model c u (some (withNull [] k)) = .returned u none := by
  refine ⟨ServerRequest_congr c r (present_withNull p k), Model_congr c s (present_withNull p k),
    ServerUpdateRequest_congr c u (present_withNull p k), ?_, ?_, ?_⟩
  · rw [ServerRequest_congr c r (present_withNull [] k)]
    rfl
  · rw [Model_congr c s (present_withNull [] k)]
    rfl
  · rw [ServerUpdateRequest_congr c u (present_withNull [] k)]
    rfl

end NullKeys

/-! ## Truncation of numeric identifiers -/

section Truncation

variable {A Q : Type}

theorem tdiv_num_den (x : ℚ) : Int.tdiv x.num x.den = if 0 ≤ x then ⌊x⌋ else ⌈x⌉ := by
  split_ifs with h
  · rw [Rat.floor_def, Int.tdiv_eq_ediv (Rat.num_nonneg.mpr h) (Int.natCast_nonneg _)]
  · have hx : 0 ≤ -x := by linarith [not_le.mp h]
    have hc : ⌈x⌉ = -⌊-x⌋ := by rw [Int.floor_neg, neg_neg]
    have hn : 0 ≤ (-x).num := Rat.num_nonneg.mpr hx
    rw [hc, Rat.floor_def, ← Int.tdiv_eq_ediv hn (Int.natCast_nonneg _), Rat.neg_num,
      Rat.neg_den, Int.neg_tdiv, neg_neg]

/-- Within the 64-bit range the conversion is the floor of a non-negative number and the
ceiling of a negative one. -/
theorem int64_eq (x : ℚ) (hlo : -2 ^ 63 ≤ x) (hhi : x < 2 ^ 63) :
    int64 x = if 0 ≤ x then ⌊x⌋ else ⌈x⌉ := by
  have ht := tdiv_num_den x
  unfold int64
  simp only
  rw [ht]
  split_ifs with h0 hr hr
  · rfl
  · exfalso
    apply hr
    have h1 : (0 : ℤ) ≤ ⌊x⌋ := Int.floor_nonneg.mpr h0
    have h2 : ⌊x⌋ < 2 ^ 63 := by
      have : ((⌊x⌋ : ℤ) : ℚ) < ((2 ^ 63 : ℤ) : ℚ) := by
        push_cast
        exact lt_of_le_of_lt (Int.floor_le x) hhi
      exact_mod_cast this
    exact ⟨by omega, h2⟩
  · rfl
  · exfalso
    apply hr
    have hx : x < 0 := not_le.mp h0
    have h1 : ⌈x⌉ ≤ 0 := Int.ceil_le.mpr (by exact_mod_cast hx.le)
    have h2 : -2 ^ 63 ≤ ⌈x⌉ := by
      have : ((-2 ^ 63 : ℤ) : ℚ) ≤ ((⌈x⌉ : ℤ) : ℚ) := by
        push_cast
        exact le_trans hlo (Int.le_ceil x)
      exact_mod_cast this
    exact ⟨h2, by omega⟩

theorem int64_truncates (x : ℚ) (hlo : -2 ^ 63 ≤ x) (hhi : x < 2 ^ 63) :
    |((int64 x : ℤ) : ℚ)| ≤ |x| ∧ |x| < |((int64 x : ℤ) : ℚ)| + 1 ∧
    (0 ≤ x → 0 ≤ int64 x) ∧ (x ≤ 0 → int64 x ≤ 0) ∧
    ∀ m : ℤ, |(m : ℚ)| ≤ |x| → |x| < |(m : ℚ)| + 1 → (0 ≤ x → 0 ≤ m) → (x ≤ 0 → m ≤ 0) →
      m = int64 x := by
  rw [int64_eq x hlo hhi]
  by_cases h0 : 0 ≤ x
  · simp only [h0, if_true]
    have hf0 : (0 : ℤ) ≤ ⌊x⌋ := Int.floor_nonneg.mpr h0
    have hfq : (0 : ℚ) ≤ ((⌊x⌋ : ℤ) : ℚ) := by exact_mod_cast hf0
    have hle := Int.floor_le x
    have hlt := Int.lt_floor_add_one x
    rw [abs_of_nonneg hfq, abs_of_nonneg h0]
    refine ⟨hle, hlt, fun _ => hf0, fun hx => ?_, ?_⟩
    · have : x = 0 := le_antisymm hx h0
      subst this
      simp
    · intro m hm1 hm2 hm3 _
      have hm0 : (0 : ℤ) ≤ m := hm3 trivial
      have hmq : (0 : ℚ) ≤ (m : ℚ) := by exact_mod_cast hm0
      rw [abs_of_nonneg hmq] at hm1 hm2
      have h1 : m ≤ ⌊x⌋ := Int.le_floor.mpr hm1
      have h2 : ⌊x⌋ < m + 1 := by
        have : ((⌊x⌋ : ℤ) : ℚ) < ((m + 1 : ℤ) : ℚ) := by
          push_cast
          exact lt_of_le_of_lt hle hm2
        exact_mod_cast this
      omega
  · simp only [h0, if_false]
    have hx : x < 0 := not_le.mp h0
    have hc0 : ⌈x⌉ ≤ 0 := Int.ceil_le.mpr (by exact_mod_cast hx.le)
    have hcq : ((⌈x⌉ : ℤ) : ℚ) ≤ 0 := by exact_mod_cast hc0
    have hle := Int.le_ceil x
    have hlt := Int.ceil_lt_add_one x
    rw [abs_of_nonpos hcq, abs_of_neg hx]
    refine ⟨by linarith, by linarith, fun h => h.elim, fun _ => hc0, ?_⟩
    intro m hm1 hm2 _ hm4
    have hm0 : m ≤ 0 := hm4 hx.le
    have hmq : (m : ℚ) ≤ 0 := by exact_mod_cast hm0
    rw [abs_of_nonpos hmq] at hm1 hm2
    have h1 : ⌈x⌉ ≤ m := Int.ceil_le.mpr (by linarith)
    have h2 : m < ⌈x⌉ + 1 := by
      have : ((m : ℤ) : ℚ) < ((⌈x⌉ + 1 : ℤ) : ℚ) := by
        push_cast
        linarith
      exact_mod_cast this
    omega

theorem setInt64_num {σ : Type} {m : Obj} {k : String} {x : ℚ} (set : σ → Int → σ) (s : σ)
    (h : present m k = some (.num x)) : setInt64 m k set s = .ok (set s (int64 x)) := by
  simp [setInt64, h, assertFloat64]

theorem stepRequest_all {P : ServerUpdateRequest Q → Prop} (c : Collaborators A Q) (req : Obj)
    {u : ServerUpdateRequest Q} (hset : ∀ u v, P u → P { u with Request := v }) (hu : P u) :
    (stepRequest c req u).All P := by
  unfold stepRequest
  cases present req "request" with
  | none => exact hu
  | some v =>
    cases v with
    | obj m =>
      simp only [assertMap]
      cases c.queryModel c.queryZero m with
      | returned sq e => exact hset _ _ hu
      | panicked sq p => exact hu
    | _ => exact hu

/-- A property of the identity fields that holds wherever the identity step leaves the
request holds when `ServerRequest.Model` ends. -/
theorem ServerRequest_state_all (P : ServerRequest A Q → Prop) (c : Collaborators A Q)
    (r : ServerRequest A Q) (req : Obj)
    (hP : ∀ (t : ServerRequest A Q) (s : WorkspaceItemServer A Q),
      P t → P { t with toWorkspaceItemServer := s })
    (h : (stepIdentity req r).All P) : P (ServerRequest.Model c r (some req)).state := by
  simp only [ServerRequest.Model]
  revert h
  generalize stepIdentity req r = x
  intro h
  cases x with
  | error o => exact h
  | ok t =>
    cases WorkspaceItemServer.Model c ({} : WorkspaceItemServer A Q) (some req) with
    | returned s e => exact hP t s h
    | panicked s p => exact hP t s h

theorem ServerUpdateRequest_state_all (P : ServerUpdateRequest Q → Prop)
    (c : Collaborators A Q) (u : ServerUpdateRequest Q) (req : Obj)
    (h : ((((setInt64 req "id" (fun r v => { r with ID := v }) u).andThen
      (setString req "service" (fun r v => { r with Service := v }))).andThen
      (setString req "method" (fun r v => { r with Method := v }))).andThen
      (stepRequest c req)).All P) :
    P (ServerUpdateRequest.Model c u (some req)).state := by
  simp only [ServerUpdateRequest.Model]
  revert h
  generalize (((setInt64 req "id" (fun r v => { r with ID := v }) u).andThen
      (setString req "service" (fun r v => { r with Service := v }))).andThen
      (setString req "method" (fun r v => { r with Method := v }))).andThen
      (stepRequest c req) = x
  intro h
  cases x <;> exact h

/-- C14: when `id` (or `folder_id`) holds a number `x` within the 64-bit signed range, the
decoded ID (FolderID) is `x` truncated toward zero, the unique integer `n` with
`|n| ≤ |x| < |n| + 1` and the sign of `x`, in `ServerRequest.Model` and in
`ServerUpdateRequest.Model`, however the call ends afterwards (for `folder_id`, provided the
assertion on `id` before it does not panic). -/
theorem identifier_truncated_toward_zero (c : Collaborators A Q) (r : ServerRequest A Q)
    (u : ServerUpdateRequest Q) (req : Obj) (x : ℚ) (hlo : -2 ^ 63 ≤ x) (hhi : x < 2 ^ 63) :
    (|((int64 x : ℤ) : ℚ)| ≤ |x| ∧ |x| < |((int64 x : ℤ) : ℚ)| + 1 ∧
      (0 ≤ x → 0 ≤ int64 x) ∧ (x ≤ 0 → int64 x ≤ 0) ∧
      ∀ m : ℤ, |(m : ℚ)| ≤ |x| → |x| < |(m : ℚ)| + 1 → (0 ≤ x → 0 ≤ m) → (x ≤ 0 → m ≤ 0) →
        m = int64 x) ∧
    (present req "id" = some (.num x) →
      (ServerRequest.Model c r (some req)).state.ID = int64 x ∧
      (ServerUpdateRequest.Model c u (some req)).state.ID = int64 x) ∧
    (present req "folder_id" = some (.num x) → hasKind req ("id", .float64) = true →
      (ServerRequest.Model c r (some req)).state.FolderID = int64 x) := by
  refine ⟨int64_truncates x hlo hhi, fun hid => ⟨?_, ?_⟩, fun hfo hid => ?_⟩
  · refine ServerRequest_state_all (fun t => t.ID = int64 x) c r req (fun _ _ h => h) ?_
    unfold stepIdentity
    rw [setInt64_num _ r hid]
    exact andThen_all (andThen_all (P := fun t : ServerRequest A Q => t.ID = int64 x) rfl
      (fun t ht => setInt64_all _ _ (fun _ _ h => h) ht))
      (fun t ht => setString_all _ _ (fun _ _ h => h) ht)
  · refine ServerUpdateRequest_state_all (fun t => t.ID = int64 x) c u req ?_
    rw [setInt64_num _ u hid]
    exact andThen_all (andThen_all (andThen_all
      (P := fun t : ServerUpdateRequest Q => t.ID = int64 x) rfl
      (fun t ht => setString_all _ _ (fun _ _ h => h) ht))
      (fun t ht => setString_all _ _ (fun _ _ h => h) ht))
      (fun t ht => stepRequest_all c req (fun _ _ h => h) ht)
  · refine ServerRequest_state_all (fun t => t.FolderID = int64 x) c r req (fun _ _ h => h) ?_
    unfold stepIdentity
    rw [setInt64_wellTyped _ (fun r => r.ID) r (fun _ => rfl) hid]
    simp only [Step.andThen]
    rw [setInt64_num _ _ hfo]
    exact setString_all _ _ (fun _ _ h => h) rfl

theorem int64_examples : int64 (59 / 10) = 5 ∧ int64 (-59 / 10) = -5 := by
  constructor
  · rw [int64_eq _ (by norm_num) (by norm_num), if_pos (by norm_num), Int.floor_eq_iff]
    norm_num
  · rw [int64_eq _ (by norm_num) (by norm_num), if_neg (by norm_num), Int.ceil_eq_iff]
    norm_num

/-- The numbers 5.9 and -5.9 under `id` give the identifiers 5 and -5. -/
theorem identifier_truncated_toward_zero_witness :
    (ServerRequest.Model scenarioCollaborators {} (some [("id", .num (59 / 10))])).state.ID = 5 ∧
    (ServerUpdateRequest.Model scenarioCollaborators {}
      (some [("id", .num (-59 / 10))])).state.ID = -5 ∧
    (ServerRequest.Model scenarioCollaborators {}
      (some [("folder_id", .num (-59 / 10))])).state.FolderID = -5 := by
  refine ⟨?_, ?_, ?_⟩
  · rw [((identifier_truncated_toward_zero scenarioCollaborators {} {}
      [("id", .num (59 / 10))] (59 / 10) (by norm_num) (by norm_num)).2.1 rfl).1]
    exact int64_examples.1
  · rw [((identifier_truncated_toward_zero scenarioCollaborators {} {}
      [("id", .num (-59 / 10))] (-59 / 10) (by norm_num) (by norm_num)).2.1 rfl).2]
    exact int64_examples.2
  · rw [(identifier_truncated_toward_zero scenarioCollaborators {} {}
      [("folder_id", .num (-59 / 10))] (-59 / 10) (by norm_num) (by norm_num)).2.2 rfl rfl]
    exact int64_examples.2

end Truncation

/-! ## The shape of the fingerprint -/

section Digest

set_option maxRecDepth 100000

variable {A Q : Type}

theorem hexDigit_mem (n : Nat) : hexDigit n ∈ "0123456789abcdef".data := by
  by_cases h : n < 16
  · revert n
    decide
  · have hd : hexDigit n = '0' := List.getD_eq_default _ _ (by simpa using h)
    rw [hd]
    decide

theorem leBytes_length (n x : Nat) : (leBytes n x).length = n := by
  simp [leBytes]

theorem md5Sum_length (data : Bytes) : (md5.Sum data).length = 16 := by
  simp [md5.Sum, md5Digest, leBytes_length]

theorem hexEncodeToString_length (bs : Bytes) :
    (hex.EncodeToString bs).length = 2 * bs.length := by
  show (bs.flatMap fun b => [hexDigit (b / 16), hexDigit (b % 16)]).length = 2 * bs.length
  induction bs with
  | nil => rfl
  | cons b bs ih =>
    simp only [List.flatMap_cons, List.length_append, List.length_cons, List.length_nil, ih]
    omega

theorem hexEncodeToString_mem {bs : Bytes} {ch : Char}
    (h : ch ∈ (hex.EncodeToString bs).data) : ch ∈ "0123456789abcdef".data := by
  have h' : ch ∈ bs.flatMap fun b => [hexDigit (b / 16), hexDigit (b % 16)] := h
  simp only [List.mem_flatMap, List.mem_cons, List.mem_singleton, List.not_mem_nil,
    or_false] at h'
  obtain ⟨b, -, rfl | rfl⟩ := h' <;> exact hexDigit_mem _

/-- The serialization succeeds and the fingerprint is the hexadecimal rendering of the MD5
digest of the serialized bytes. -/
theorem portForwardHash_digest (s : WorkspaceItemServer A Q) :
    ∃ data, json.Marshal (reflectPortForward s.K8SPortForward) = .ok data ∧
      (md5.Sum data).length = 16 ∧
      s.PortForwardHash = .digest (hex.EncodeToString (md5.Sum data)) ∧
      (hex.EncodeToString (md5.Sum data)).length = 32 ∧
      ∀ ch ∈ (hex.EncodeToString (md5.Sum data)).data, ch ∈ "0123456789abcdef".data := by
  obtain ⟨data, hd⟩ := jsonMarshal_portForward s.K8SPortForward
  refine ⟨data, hd, md5Sum_length data, ?_, ?_, fun ch h => hexEncodeToString_mem h⟩
  · simp only [WorkspaceItemServer.PortForwardHash, hd, digestOrFatal]
  · rw [hexEncodeToString_length, md5Sum_length]

/-- The JSON text of the enabled tunnel of the second scenario. -/
theorem tunnel_text :
    json.Marshal (reflectPortForward (some (tunnelEntity true))) = .ok (utf8Encode
      "\x7b\"enabled\":true,\"target\":\"pod/x\",\"local_port\":8080,\"remote_port\":80\x7d".data) :=
  rfl

/-- C15: for every profile, `PortForwardHash` returns a string of exactly 32 characters, each
a lowercase hexadecimal digit: the rendering by `hex.EncodeToString` of the 16 bytes that
`md5.Sum` gives for the bytes `json.Marshal` writes for the Port-Forward field.  Whatever bytes
`json.Marshal` returns, lines 155 to 160 return such a string for them, and they end in
`log.Fatal` only on an error.  The three functions are the ones of the Go library: the digests
of the test suite of RFC 1321 come out, the enabled tunnel of the second scenario is written as
its JSON text, and its fingerprint and that of the absent sub-entity are the MD5 digests of
their texts. -/
theorem portForwardHash_is_hex_digest (s : WorkspaceItemServer A Q) :
    (∃ h data, s.PortForwardHash = .digest h ∧ h.length = 32 ∧
      (∀ ch ∈ h.data, ch ∈ "0123456789abcdef".data) ∧
      json.Marshal (reflectPortForward s.K8SPortForward) = .ok data ∧
      (md5.Sum data).length = 16 ∧ (∀ b ∈ md5.Sum data, b < 256) ∧
      h = hex.EncodeToString (md5.Sum data)) ∧
    (∀ data, ∃ h, digestOrFatal (.ok data) = .digest h ∧ h.length = 32 ∧
      (∀ ch ∈ h.data, ch ∈ "0123456789abcdef".data) ∧ h = hex.EncodeToString (md5.Sum data)) ∧
    (∀ r err, digestOrFatal r = .fatal err ↔ r = .error err) ∧
    hex.EncodeToString (md5.Sum []) = "d41d8cd98f00b204e9800998ecf8427e" ∧
    hex.EncodeToString (md5.Sum (utf8Encode "abc".data)) = "900150983cd24fb0d6963f7d28e17f72" ∧
    hex.EncodeToString (md5.Sum (utf8Encode "message digest".data)) =
      "f96b697d7cb7938d525a2f31aaf161d0" ∧
    hex.EncodeToString (md5.Sum (utf8Encode
      "12345678901234567890123456789012345678901234567890123456789012345678901234567890".data)) =
      "57edf4a22be3c955ac49da2e2107b67a" ∧
    utf8Encode "null".data = [110, 117, 108, 108] ∧
    json.Marshal (reflectPortForward none) = .ok (utf8Encode "null".data) ∧
    json.Marshal (reflectPortForward (some (tunnelEntity true))) = .ok (utf8Encode
      "\x7b\"enabled\":true,\"target\":\"pod/x\",\"local_port\":8080,\"remote_port\":80\x7d".data) ∧
    fingerprint none = .digest "37a6259cc0c1dae299a7866489dff0bd" ∧
    fingerprint (some (tunnelEntity true)) = .digest "60c0d5f1727e00bb156793b45e6fd94f" := by
  obtain ⟨data, hd, h16, hh, hl, hc⟩ := portForwardHash_digest s
  refine ⟨⟨_, data, hh, hl, hc, hd, h16, fun b hb => md5Sum_mem hb, rfl⟩,
    fun x => ⟨_, rfl, by rw [hexEncodeToString_length, md5Sum_length],
      fun ch h => hexEncodeToString_mem h, rfl⟩, fun r err => ?_, ?_⟩
  · cases r <;> simp [digestOrFatal]
  exact ⟨md5_test_suite.1,
    md5_test_suite.2.1, md5_test_suite.2.2.1, md5_test_suite.2.2.2, rfl, rfl, tunnel_text,
    fingerprint_absent.2, scenario_fingerprints.1⟩

/-- A struct with a member that JSON has no form for makes `json.Marshal` return an error, and
lines 155 to 160 then end the process in `log.Fatal`. -/
theorem unsupported_member_is_fatal :
    json.Marshal (.struct [("enabled", .bool true), ("done", .unsupported "chan bool")]) =
      .error (errors.New "json: unsupported type: chan bool") ∧
    digestOrFatal
        (json.Marshal (.struct [("enabled", .bool true), ("done", .unsupported "chan bool")])) =
      .fatal (errors.New "json: unsupported type: chan bool") :=
  ⟨rfl, rfl⟩

/-- The fingerprint of the sub-entity with the zero value in every field. -/
theorem fingerprint_zero :
    json.Marshal (reflectPortForward (some {})) = .ok (utf8Encode
      "\x7b\"enabled\":false,\"target\":\"\",\"local_port\":0,\"remote_port\":0\x7d".data) ∧
    fingerprint (some {}) = .digest "749f817818e31588afba3d11d66981ee" :=
  ⟨rfl, by decide⟩

/-- C18: `PortForwardHash` is total.  For every profile the serialization of the Port-Forward
field succeeds, each of its members being a boolean, a string or an integer (a member that
JSON has no form for would make it fail and the call end in `log.Fatal`); the call does not
end in `log.Fatal` and returns the rendering of the whole MD5 digest of the serialized bytes:
two profiles with the same fingerprint have serializations with the same 16-byte digest.  For
a profile whose Port-Forward sub-entity is absent the serialized bytes are the text `null`
and the fingerprint is the MD5 digest of that text, which is not the fingerprint of the
sub-entity with the zero value in every field. -/
theorem portForwardHash_total (s t : WorkspaceItemServer A Q) :
    (∃ data, json.Marshal (reflectPortForward s.K8SPortForward) = .ok data ∧
      s.PortForwardHash = .digest (hex.EncodeToString (md5.Sum data)) ∧
      (hex.EncodeToString (md5.Sum data)).length = 32) ∧
    (∀ err, s.PortForwardHash ≠ .fatal err) ∧
    (∀ x y, json.Marshal (reflectPortForward s.K8SPortForward) = .ok x →
      json.Marshal (reflectPortForward t.K8SPortForward) = .ok y →
      s.PortForwardHash = t.PortForwardHash → md5.Sum x = md5.Sum y) ∧
    (s.K8SPortForward = none →
      json.Marshal (reflectPortForward s.K8SPortForward) = .ok [110, 117, 108, 108] ∧
      s.PortForwardHash = .digest "37a6259cc0c1dae299a7866489dff0bd") ∧
    (s.K8SPortForward = some {} →
      s.PortForwardHash = .digest "749f817818e31588afba3d11d66981ee") ∧
    digestOrFatal
        (json.Marshal (.struct [("enabled", .bool true), ("done", .unsupported "chan bool")])) =
      .fatal (errors.New "json: unsupported type: chan bool") := by
  obtain ⟨data, hd, -, hh, hl, -⟩ := portForwardHash_digest s
  refine ⟨⟨data, hd, hh, hl⟩, fun err he => ?_, fun x y hx hy he => ?_, fun hn => ?_,
    fun hz => ?_, unsupported_member_is_fatal.2⟩
  · rw [hh] at he
    cases he
  · simp only [WorkspaceItemServer.PortForwardHash, hx, hy, digestOrFatal,
      HashOutcome.digest.injEq] at he
    exact hexEncodeToString_injective (fun b hb => md5Sum_mem hb) (fun b hb => md5Sum_mem hb) he
  · refine ⟨by rw [hn]; rfl, ?_⟩
    unfold WorkspaceItemServer.PortForwardHash
    rw [hn]
    exact fingerprint_absent.2
  · unfold WorkspaceItemServer.PortForwardHash
    rw [hz]
    exact fingerprint_zero.2

end Digest

/-! ## Presence of the sub-entities -/

section SubEntities

variable {A Q : Type}

theorem subInput_eq_some {m n : Obj} {k : String} (hp : present m k = some (.obj n))
    (hn : 0 < n.length) : subInput m k = some n := by
  simp [subInput, hp, hn]

/-- What the Port-Forward step did when it went on. -/
theorem stepK8S_ok (c : Collaborators A Q) {server : Obj} {s s' : WorkspaceItemServer A Q}
    (h : stepK8S c server s = .ok s') :
    (subInput server "k8s" = none ∧ s' = s) ∨
    (∃ m k, subInput server "k8s" = some m ∧ c.k8sModel {} m = .returned k none ∧
      s' = { s with K8SPortForward := some k }) := by
  by_cases hm : mistyped server ("k8s", .map) = true
  · obtain ⟨t, a, b, hp⟩ := stepK8S_panics c s hm
    rw [hp] at h
    cases h
  · have hk : hasKind server ("k8s", .map) = true := by simpa [mistyped] using hm
    rw [stepK8S_wellTyped c s hk] at h
    cases hi : subInput server "k8s" with
    | none =>
      simp only [hi] at h
      exact Or.inl ⟨rfl, (Except.ok.inj h).symm⟩
    | some m =>
      simp only [hi] at h
      cases hr : c.k8sModel {} m with
      | returned k e =>
        cases e with
        | none =>
          simp only [hr] at h
          exact Or.inr ⟨m, k, rfl, hr, (Except.ok.inj h).symm⟩
        | some e => simp only [hr] at h; cases h
      | panicked k p => simp only [hr] at h; cases h

/-- What the Authentication step did when it went on. -/
theorem stepAuth_ok (c : Collaborators A Q) {server : Obj} {s s' : WorkspaceItemServer A Q}
    (h : stepAuth c server s = .ok s') :
    (subInput server "auth" = none ∧ s' = s) ∨
    (∃ m a, subInput server "auth" = some m ∧ c.authModel c.authZero m = .returned a none ∧
      s' = { s with Auth := some a }) := by
  by_cases hm : mistyped server ("auth", .map) = true
  · obtain ⟨t, a, b, hp⟩ := stepAuth_panics c s hm
    rw [hp] at h
    cases h
  · have hk : hasKind server ("auth", .map) = true := by simpa [mistyped] using hm
    rw [stepAuth_wellTyped c s hk] at h
    cases hi : subInput server "auth" with
    | none =>
      simp only [hi] at h
      exact Or.inl ⟨rfl, (Except.ok.inj h).symm⟩
    | some m =>
      simp only [hi] at h
      cases hr : c.authModel c.authZero m with
      | returned a e =>
        cases e with
        | none =>
          simp only [hr] at h
          exact Or.inr ⟨m, a, rfl, hr, (Except.ok.inj h).symm⟩
        | some e => simp only [hr] at h; cases h
      | panicked a p => simp only [hr] at h; cases h

/-- A sub-entity step that ends the call does so with an error or a panic. -/
theorem stepK8S_error (c : Collaborators A Q) {server : Obj} {s t : WorkspaceItemServer A Q}
    (h : stepK8S c server s = .error (.returned t none)) : False := by
  unfold stepK8S at h
  cases hp : present server "k8s" with
  | none => rw [hp] at h; cases h
  | some v =>
    rw [hp] at h
    cases v with
    | obj m =>
      simp only [assertMap] at h
      split_ifs at h
      · cases hr : c.k8sModel {} m with
        | returned k e => rw [hr] at h; cases e <;> cases h
        | panicked k p => rw [hr] at h; cases h
    | _ => cases h

theorem stepAuth_error (c : Collaborators A Q) {server : Obj} {s t : WorkspaceItemServer A Q}
    (h : stepAuth c server s = .error (.returned t none)) : False := by
  unfold stepAuth at h
  cases hp : present server "auth" with
  | none => rw [hp] at h; cases h
  | some v =>
    rw [hp] at h
    cases v with
    | obj m =>
      simp only [assertMap] at h
      split_ifs at h
      · cases hr : c.authModel c.authZero m with
        | returned a e => rw [hr] at h; cases e <;> cases h
        | panicked a p => rw [hr] at h; cases h
    | _ => cases h

/-- When `WorkspaceItemServer.Model` returns no error, each of its three parts went on. -/
theorem Model_returned_none {c : Collaborators A Q} {s t : WorkspaceItemServer A Q}
    {server : Obj} (h : WorkspaceItemServer.Model c s (some server) = .returned t none) :
    ∃ s₁ s₂, stepFields server s = .ok s₁ ∧ stepK8S c server s₁ = .ok s₂ ∧
      stepAuth c server s₂ = .ok t := by
  simp only [WorkspaceItemServer.Model] at h
  rcases stepFields_okOrPanics server s with ⟨s₁, h₁⟩ | ⟨u, a, b, h₁⟩
  · rw [h₁] at h
    simp only [Step.andThen] at h
    cases h₂ : stepK8S c server s₁ with
    | error o =>
      rw [h₂] at h
      simp only at h
      subst h
      exact (stepK8S_error c h₂).elim
    | ok s₂ =>
      rw [h₂] at h
      simp only at h
      cases h₃ : stepAuth c server s₂ with
      | error o =>
        rw [h₃] at h
        simp only at h
        subst h
        exact (stepAuth_error c h₃).elim
      | ok u =>
        rw [h₃] at h
        simp only [Outcome.returned.injEq, and_true] at h
        subst h
        exact ⟨s₁, s₂, h₁, h₂, h₃⟩
  · rw [h₁] at h
    simp [Step.andThen] at h

/-- What a successful `ServerRequest.Model` did about the two sub-entities. -/
theorem ServerRequest_sub_entities {c : Collaborators A Q} {r r' : ServerRequest A Q}
    {req : Obj} (h : ServerRequest.Model c r (some req) = .returned r' none) :
    ((subInput req "k8s" = none ∧ r'.K8SPortForward = none) ∨
      (∃ m k, subInput req "k8s" = some m ∧ c.k8sModel {} m = .returned k none ∧
        r'.K8SPortForward = some k)) ∧
    ((subInput req "auth" = none ∧ r'.Auth = none) ∨
      (∃ m a, subInput req "auth" = some m ∧ c.authModel c.authZero m = .returned a none ∧
        r'.Auth = some a)) := by
  obtain ⟨r₁, -, hm, -⟩ := ServerRequest_returned h
  obtain ⟨s₁, s₂, h₁, h₂, h₃⟩ := Model_returned_none hm
  have hs₁ : s₁.K8SPortForward = none ∧ s₁.Auth = none := by
    have := stepFields_all (P := fun t : WorkspaceItemServer A Q =>
      t.K8SPortForward = none ∧ t.Auth = none) req (s := {})
      (fun _ _ _ ha hk hp => ⟨hk ▸ hp.1, ha ▸ hp.2⟩) ⟨rfl, rfl⟩
    rw [h₁] at this
    exact this
  rcases stepK8S_ok c h₂ with ⟨hk, rfl⟩ | ⟨m, k, hk, hkm, rfl⟩ <;>
    rcases stepAuth_ok c h₃ with ⟨ha, he⟩ | ⟨n, a, ha, han, he⟩ <;>
    rw [he] <;> simp only [hs₁.1, hs₁.2]
  · exact ⟨Or.inl ⟨hk, trivial⟩, Or.inl ⟨ha, trivial⟩⟩
  · exact ⟨Or.inl ⟨hk, trivial⟩, Or.inr ⟨n, a, ha, han, rfl⟩⟩
  · exact ⟨Or.inr ⟨m, k, hk, hkm, rfl⟩, Or.inl ⟨ha, trivial⟩⟩
  · exact ⟨Or.inr ⟨m, k, hk, hkm, rfl⟩, Or.inr ⟨n, a, ha, han, rfl⟩⟩

/-- C16: when `ServerRequest.Model` decodes a payload successfully, the Port-Forward
sub-entity is present if and only if `k8s` holds a non-empty mapping, the Authentication
sub-entity is present if and only if `auth` holds a non-empty mapping, each present sub-entity
is what its decoder made of a fresh entity and the nested mapping, and `IsK8SEnabled` is true
exactly when the Port-Forward decoder produced an entity with `Enabled` true. -/
theorem sub_entities_present_iff (c : Collaborators A Q) (r r' : ServerRequest A Q) (req : Obj)
    (h : ServerRequest.Model c r (some req) = .returned r' none) :
    (r'.K8SPortForward.isSome = true ↔
      ∃ m, present req "k8s" = some (.obj m) ∧ 0 < m.length) ∧
    (∀ m, present req "k8s" = some (.obj m) → 0 < m.length →
      ∃ k, c.k8sModel {} m = .returned k none ∧ r'.K8SPortForward = some k) ∧
    (r'.Auth.isSome = true ↔ ∃ m, present req "auth" = some (.obj m) ∧ 0 < m.length) ∧
    (∀ m, present req "auth" = some (.obj m) → 0 < m.length →
      ∃ a, c.authModel c.authZero m = .returned a none ∧ r'.Auth = some a) ∧
    (r'.IsK8SEnabled = true ↔
      ∃ m k, present req "k8s" = some (.obj m) ∧ 0 < m.length ∧
        c.k8sModel {} m = .returned k none ∧ k.Enabled = true) := by
  obtain ⟨hK, hA⟩ := ServerRequest_sub_entities h
  refine ⟨?_, ?_, ?_, ?_, ?_⟩
  · rcases hK with ⟨hn, hr⟩ | ⟨m, k, hs, -, hr⟩
    · rw [hr]
      refine ⟨fun hf => by simp at hf, fun ⟨m, hp, hl⟩ => ?_⟩
      rw [subInput_eq_some hp hl] at hn
      cases hn
    · rw [hr]
      exact ⟨fun _ => ⟨m, subInput_some hs⟩, fun _ => rfl⟩
  · intro m hp hl
    have hs := subInput_eq_some hp hl
    rcases hK with ⟨hn, -⟩ | ⟨m', k, hs', hk, hr⟩
    · rw [hs] at hn
      cases hn
    · rw [hs] at hs'
      cases hs'
      exact ⟨k, hk, hr⟩
  · rcases hA with ⟨hn, hr⟩ | ⟨m, a, hs, -, hr⟩
    · rw [hr]
      refine ⟨fun hf => by simp at hf, fun ⟨m, hp, hl⟩ => ?_⟩
      rw [subInput_eq_some hp hl] at hn
      cases hn
    · rw [hr]
      exact ⟨fun _ => ⟨m, subInput_some hs⟩, fun _ => rfl⟩
  · intro m hp hl
    have hs := subInput_eq_some hp hl
    rcases hA with ⟨hn, -⟩ | ⟨m', a, hs', ha, hr⟩
    · rw [hs] at hn
      cases hn
    · rw [hs] at hs'
      cases hs'
      exact ⟨a, ha, hr⟩
  · unfold WorkspaceItemServer.IsK8SEnabled
    rcases hK with ⟨hn, hr⟩ | ⟨m, k, hs, hk, hr⟩
    · rw [hr]
      refine ⟨fun hf => by simp at hf, fun ⟨m, k, hp, hl, _, _⟩ => ?_⟩
      rw [subInput_eq_some hp hl] at hn
      cases hn
    · rw [hr]
      refine ⟨(fun he => ⟨m, k, (subInput_some hs).1, (subInput_some hs).2, hk, he⟩), ?_⟩
      rintro ⟨m', k', hp, hl, hk', he⟩
      have hs' := subInput_eq_some hp hl
      rw [hs] at hs'
      cases hs'
      rw [hk] at hk'
      cases hk'
      exact he

/-- The second scenario: the payload with an enabled tunnel decodes with the Port-Forward
sub-entity present, `Enabled` true and `IsK8SEnabled` true, and no Authentication. -/
theorem sub_entities_present_iff_witness :
    ServerRequest.Model scenarioCollaborators {} (some (scenarioTunnel true)) =
      .returned { K8SPortForward := some (tunnelEntity true) } none ∧
    (tunnelEntity true).Enabled = true ∧
    ({ K8SPortForward := some (tunnelEntity true) } : ServerRequest Unit Unit).IsK8SEnabled =
      true ∧
    (({ K8SPortForward := some (tunnelEntity true) } : ServerRequest Unit Unit).Auth.isSome =
        true ↔
      ∃ m, present (scenarioTunnel true) "auth" = some (.obj m) ∧ 0 < m.length) :=
  ⟨by decide, rfl, by decide,
    (sub_entities_present_iff scenarioCollaborators {}
      { K8SPortForward := some (tunnelEntity true) } (scenarioTunnel true) (by decide)).2.2.1⟩

end SubEntities

/-! ## Which errors are returned -/

section Errors

variable {A Q : Type}

/-- The outcome of `WorkspaceItemServer.Model` on a well-typed payload, by what the two
sub-entity decoders do. -/
theorem Model_wellTyped_cases (c : Collaborators A Q) (s : WorkspaceItemServer A Q)
    {server : Obj} (hwt : wellTyped profileKeys server = true) :
    WorkspaceItemServer.Model c s (some server) =
      match
        (match subInput server "k8s" with
          | none => (.ok (decodedFields server s) : Step (WorkspaceItemServer A Q))
          | some m =>
            match c.k8sModel {} m with
            | .returned k none => .ok { decodedFields server s with K8SPortForward := some k }
            | .returned k (some err) =>
              .error (.returned { decodedFields server s with K8SPortForward := some k }
                (some err))
            | .panicked k p =>
              .error (.panicked { decodedFields server s with K8SPortForward := some k } p))
      with
      | .error o => o
      | .ok t =>
        match subInput server "auth" with
        | none => .returned t none
        | some n =>
          match c.authModel c.authZero n with
          | .returned a err => .returned { t with Auth := some a } err
          | .panicked a p => .panicked { t with Auth := some a } p := by
  obtain ⟨hf, hk, ha⟩ := wellTyped_profileKeys hwt
  rw [Model_wellTyped c s hf, stepK8S_wellTyped c _ hk]
  cases subInput server "k8s" with
  | none =>
    simp only [Step.andThen]
    rw [stepAuth_wellTyped c _ ha]
    cases subInput server "auth" with
    | none => rfl
    | some n =>
      simp only
      cases c.authModel c.authZero n with
      | returned a err => cases err <;> rfl
      | panicked a p => rfl
  | some m =>
    simp only
    cases c.k8sModel {} m with
    | returned k err =>
      cases err with
      | none =>
        simp only [Step.andThen]
        rw [stepAuth_wellTyped c _ ha]
        cases subInput server "auth" with
        | none => rfl
        | some n =>
          simp only
          cases c.authModel c.authZero n with
          | returned a err => cases err <;> rfl
          | panicked a p => rfl
      | some e => rfl
    | panicked k p => rfl

/-- C17: for every well-typed payload, `WorkspaceItemServer.Model` returns the error `e` if
and only if the Port-Forward decoder, invoked on a non-empty `k8s` mapping, returns `e`, or
the Port-Forward step goes on (not invoked, or returning no error) and the Authentication
decoder, invoked on a non-empty `auth` mapping, returns `e`; on the nil payload it returns the
error "no data".  When the Port-Forward decoder returns an error the Authentication decoder
is not invoked: the outcome is the same whatever the Authentication decoder is. -/
theorem error_iff_sub_decoder_error (c : Collaborators A Q) (s : WorkspaceItemServer A Q)
    (server : Obj) (e : GoError) (hwt : wellTyped profileKeys server = true) :
    ((∃ s', WorkspaceItemServer.Model c s (some server) = .returned s' (some e)) ↔
      (∃ m k, subInput server "k8s" = some m ∧ c.k8sModel {} m = .returned k (some e)) ∨
      ((subInput server "k8s" = none ∨
          ∃ m k, subInput server "k8s" = some m ∧ c.k8sModel {} m = .returned k none) ∧
        ∃ n a, subInput server "auth" = some n ∧
          c.authModel c.authZero n = .returned a (some e))) ∧
    WorkspaceItemServer.Model c s none = .returned s (some (errors.New "no data")) ∧
    (∀ c' : Collaborators A Q, c'.k8sModel = c.k8sModel →
      (∃ m k, subInput server "k8s" = some m ∧ c.k8sModel {} m = .returned k (some e)) →
      WorkspaceItemServer.Model c' s (some server) =
        WorkspaceItemServer.Model c s (some server)) := by
  refine ⟨?_, rfl, ?_⟩
  · rw [Model_wellTyped_cases c s hwt]
    cases hk : subInput server "k8s" with
    | none =>
      cases ha : subInput server "auth" with
      | none => simp
      | some n =>
        cases han : c.authModel c.authZero n with
        | returned a err => simp [han]
        | panicked a p => simp [han]
    | some m =>
      cases hkm : c.k8sModel {} m with
      | returned k err =>
        cases err with
        | none =>
          cases ha : subInput server "auth" with
          | none => simp [hkm]
          | some n =>
            cases han : c.authModel c.authZero n with
            | returned a err => simp [hkm, han]
            | panicked a p => simp [hkm, han]
        | some e' => simp [hkm]
      | panicked k p => simp [hkm]
  · rintro c' hc' ⟨m, k, hm, hkm⟩
    rw [Model_wellTyped_cases c s hwt, Model_wellTyped_cases c' s hwt, hm]
    simp only [hc', hkm]

/-- A payload with both sub-entities and a Port-Forward decoder that rejects its mapping:
the error of the Port-Forward decoder is returned and the Authentication field stays absent. -/
theorem error_iff_sub_decoder_error_witness :
    wellTyped profileKeys scenarioBoth = true ∧
    WorkspaceItemServer.Model (k8sRejectingCollaborators ⟨"bad tunnel"⟩) {}
        (some scenarioBoth) =
      .returned { Addr := "a:1", K8SPortForward := some {} } (some ⟨"bad tunnel"⟩) ∧
    (∃ s', WorkspaceItemServer.Model (k8sRejectingCollaborators ⟨"bad tunnel"⟩)
        ({} : WorkspaceItemServer Unit Unit) (some scenarioBoth) =
      .returned s' (some ⟨"bad tunnel"⟩)) :=
  ⟨by decide, by decide,
    ((error_iff_sub_decoder_error (k8sRejectingCollaborators ⟨"bad tunnel"⟩) {} scenarioBoth
      ⟨"bad tunnel"⟩ (by decide)).1).2 (Or.inl ⟨[("target", .str "pod/x")], {}, rfl, rfl⟩)⟩

end Errors

/-! ## Decoding twice -/

section Idempotence

variable {A Q : Type}

theorem int64At_idem (m : Obj) (k : String) (old : Int) :
    int64At m k (int64At m k old) = int64At m k old := by
  unfold int64At
  cases present m k with
  | none => rfl
  | some v => cases v <;> rfl

theorem strAt_idem (m : Obj) (k : String) (old : String) :
    strAt m k (strAt m k old) = strAt m k old := by
  unfold strAt
  cases present m k with
  | none => rfl
  | some v => cases v <;> rfl

theorem decodedIdentity_idem (req : Obj) (r : ServerRequest A Q)
    (s : WorkspaceItemServer A Q) :
    decodedIdentity req { decodedIdentity req r with toWorkspaceItemServer := s } =
      decodedIdentity req r := by
  simp only [decodedIdentity, int64At_idem, strAt_idem]

/-- C19: `ServerRequest.Model` is idempotent per payload: for every non-nil payload whose
identity keys are well typed and every initial state of the receiver, a second call with the
same payload, on the receiver as the first call left it, ends as the first call did: the same
state of the receiver and the same returned error (or the same panic of the profile
decoder). -/
theorem model_twice_same_as_once (c : Collaborators A Q) (r : ServerRequest A Q) (req : Obj)
    (hwt : wellTyped identityKeys req = true) :
    ServerRequest.Model c (ServerRequest.Model c r (some req)).state (some req) =
      ServerRequest.Model c r (some req) := by
  rw [ServerRequest_delegates c _ hwt, ServerRequest_delegates c r hwt]
  cases WorkspaceItemServer.Model c ({} : WorkspaceItemServer A Q) (some req) with
  | returned s err => simp only [Outcome.state, decodedIdentity_idem]
  | panicked s p => simp only [Outcome.state, decodedIdentity_idem]

/-- Decoding the first scenario twice into a request that held an older profile gives what
decoding it once gives. -/
theorem model_twice_same_as_once_witness :
    wellTyped identityKeys scenarioProd = true ∧
    ServerRequest.Model scenarioCollaborators staleRequest (some scenarioProd) =
      .returned { ID := 5, Title := "Prod", Addr := "localhost:50051" } none ∧
    ServerRequest.Model scenarioCollaborators
        (ServerRequest.Model scenarioCollaborators staleRequest (some scenarioProd)).state
        (some scenarioProd) =
      ServerRequest.Model scenarioCollaborators staleRequest (some scenarioProd) :=
  ⟨by decide, by decide,
    model_twice_same_as_once scenarioCollaborators staleRequest scenarioProd (by decide)⟩

end Idempotence

/-! ## Fields whose key is absent -/

section Frame

variable {A Q : Type}

theorem stepK8S_all {P : WorkspaceItemServer A Q → Prop} (c : Collaborators A Q)
    (server : Obj) {s : WorkspaceItemServer A Q}
    (hset : ∀ s v, P s → P { s with K8SPortForward := v }) (hs : P s) :
    (stepK8S c server s).All P := by
  unfold stepK8S
  cases present server "k8s" with
  | none => exact hs
  | some v =>
    cases v with
    | obj m =>
      simp only [assertMap]
      by_cases hlen : 0 < m.length
      · simp only [hlen, if_true]
        cases c.k8sModel {} m with
        | returned k err => cases err <;> exact hset _ _ hs
        | panicked k p => exact hset _ _ hs
      · simp only [hlen, if_false]
        exact hs
    | _ => exact hs

/-- On a payload whose scalar and list keys are well typed, a property that holds of the
decoded fields and that the sub-entity assignments preserve holds when the call ends. -/
theorem Model_wellTyped_state_all (P : WorkspaceItemServer A Q → Prop) (c : Collaborators A Q)
    (s : WorkspaceItemServer A Q) {server : Obj} (hwt : wellTyped fieldKeys server = true)
    (hK : ∀ t v, P t → P { t with K8SPortForward := v })
    (hA : ∀ t v, P t → P { t with Auth := v })
    (h0 : P (decodedFields server s)) :
    P (WorkspaceItemServer.Model c s (some server)).state := by
  refine Model_state_all P c s server ?_
  rw [stepFields_wellTyped s hwt]
  exact andThen_all (stepK8S_all c server hK h0) (fun t ht => stepAuth_all c server hA ht)

theorem strAt_absent {m : Obj} {k : String} (old : String) (h : present m k = none) :
    strAt m k old = old := by
  simp [strAt, h]

theorem boolAt_absent {m : Obj} {k : String} (old : Bool) (h : present m k = none) :
    boolAt m k old = old := by
  simp [boolAt, h]

theorem stringsAt_absent {m : Obj} {k : String} (old : List String)
    (h : present m k = none) : stringsAt m k old = old := by
  simp [stringsAt, h]

/-- On a payload whose scalar and list keys are well typed, a component of the profile that
the sub-entity assignments do not touch is, when the call ends, what the decoded fields
hold. -/
theorem Model_wellTyped_component {α : Type} (f : WorkspaceItemServer A Q → α)
    (c : Collaborators A Q) (s : WorkspaceItemServer A Q) {server : Obj}
    (hwt : wellTyped fieldKeys server = true)
    (hK : ∀ t v, f { t with K8SPortForward := v } = f t)
    (hA : ∀ t v, f { t with Auth := v } = f t) :
    f (WorkspaceItemServer.Model c s (some server)).state = f (decodedFields server s) :=
  Model_wellTyped_state_all (fun t => f t = f (decodedFields server s)) c s hwt
    (fun t v h => (hK t v).trans h) (fun t v h => (hA t v).trans h) rfl

/-- C20: `WorkspaceItemServer.Model` writes only the fields whose key is present and non-nil:
for every receiver and every non-nil payload whose scalar and list keys are well typed, each
field whose key is absent or nil holds, when the call ends, the value the receiver had before
the call, and the Request mapping is what it was; likewise `ServerRequest.Model` keeps the
previous ID, FolderID and Title when their keys are absent or nil. -/
theorem absent_keys_keep_fields (c : Collaborators A Q) (s : WorkspaceItemServer A Q)
    (r : ServerRequest A Q) (req : Obj) (hwt : wellTyped fieldKeys req = true) :
    (present req "addr" = none →
      (WorkspaceItemServer.Model c s (some req)).state.Addr = s.Addr) ∧
    (present req "use_reflection" = none →
      (WorkspaceItemServer.Model c s (some req)).state.UseReflection = s.UseReflection) ∧
    (present req "proto_files" = none →
      (WorkspaceItemServer.Model c s (some req)).state.ProtoFiles = s.ProtoFiles) ∧
    (present req "import_path" = none →
      (WorkspaceItemServer.Model c s (some req)).state.ImportPath = s.ImportPath) ∧
    (present req "no_tls" = none →
      (WorkspaceItemServer.Model c s (some req)).state.NoTLS = s.NoTLS) ∧
    (present req "insecure" = none →
      (WorkspaceItemServer.Model c s (some req)).state.Insecure = s.Insecure) ∧
    (present req "root_certificate" = none →
      (WorkspaceItemServer.Model c s (some req)).state.RootCertificate = s.RootCertificate) ∧
    (present req "client_certificate" = none →
      (WorkspaceItemServer.Model c s (some req)).state.ClientCertificate =
        s.ClientCertificate) ∧
    (present req "client_key" = none →
      (WorkspaceItemServer.Model c s (some req)).state.ClientKey = s.ClientKey) ∧
    (present req "k8s" = none →
      (WorkspaceItemServer.Model c s (some req)).state.K8SPortForward = s.K8SPortForward) ∧
    (present req "auth" = none →
      (WorkspaceItemServer.Model c s (some req)).state.Auth = s.Auth) ∧
    (WorkspaceItemServer.Model c s (some req)).state.Request = s.Request ∧
    (present req "id" = none → (ServerRequest.Model c r (some req)).state.ID = r.ID) ∧
    (present req "folder_id" = none →
      (ServerRequest.Model c r (some req)).state.FolderID = r.FolderID) ∧
    (present req "title" = none →
      (ServerRequest.Model c r (some req)).state.Title = r.Title) := by
  refine ⟨?_, ?_, ?_, ?_, ?_, ?_, ?_, ?_, ?_, ?_, ?_, ?_, ?_, ?_, ?_⟩
  · intro h
    rw [Model_wellTyped_component (fun t => t.Addr) c s hwt (fun _ _ => rfl) (fun _ _ => rfl)]
    exact strAt_absent _ h
  · intro h
    rw [Model_wellTyped_component (fun t => t.UseReflection) c s hwt (fun _ _ => rfl)
      (fun _ _ => rfl)]
    exact boolAt_absent _ h
  · intro h
    rw [Model_wellTyped_component (fun t => t.ProtoFiles) c s hwt (fun _ _ => rfl)
      (fun _ _ => rfl)]
    exact stringsAt_absent _ h
  · intro h
    rw [Model_wellTyped_component (fun t => t.ImportPath) c s hwt (fun _ _ => rfl)
      (fun _ _ => rfl)]
    exact stringsAt_absent _ h
  · intro h
    rw [Model_wellTyped_component (fun t => t.NoTLS) c s hwt (fun _ _ => rfl) (fun _ _ => rfl)]
    exact boolAt_absent _ h
  · intro h
    rw [Model_wellTyped_component (fun t => t.Insecure) c s hwt (fun _ _ => rfl)
      (fun _ _ => rfl)]
    exact boolAt_absent _ h
  · intro h
    rw [Model_wellTyped_component (fun t => t.RootCertificate) c s hwt (fun _ _ => rfl)
      (fun _ _ => rfl)]
    exact strAt_absent _ h
  · intro h
    rw [Model_wellTyped_component (fun t => t.ClientCertificate) c s hwt (fun _ _ => rfl)
      (fun _ _ => rfl)]
    exact strAt_absent _ h
  · intro h
    rw [Model_wellTyped_component (fun t => t.ClientKey) c s hwt (fun _ _ => rfl)
      (fun _ _ => rfl)]
    exact strAt_absent _ h
  · intro h
    refine Model_state_all (fun t => t.K8SPortForward = s.K8SPortForward) c s req ?_
    refine andThen_all (andThen_all ?_ ?_) (fun t ht => stepAuth_all c req (fun _ _ e => e) ht)
    · exact stepFields_all req (fun _ _ _ _ hk e => hk.symm.trans e) rfl
    · intro t ht
      rw [stepK8S_absent c t h]
      exact ht
  · intro h
    refine Model_state_all (fun t => t.Auth = s.Auth) c s req ?_
    refine andThen_all (andThen_all ?_ (fun t ht => stepK8S_all c req (fun _ _ e => e) ht)) ?_
    · exact stepFields_all req (fun _ _ _ ha _ e => ha.symm.trans e) rfl
    · intro t ht
      rw [stepAuth_absent c t h]
      exact ht
  · refine Model_state_all (fun t => t.Request = s.Request) c s req ?_
    refine andThen_all (andThen_all ?_ (fun t ht => stepK8S_all c req (fun _ _ e => e) ht))
      (fun t ht => stepAuth_all c req (fun _ _ e => e) ht)
    exact stepFields_all req (fun _ _ hr _ _ e => hr.symm.trans e) rfl
  · intro h
    refine ServerRequest_state_all (fun t => t.ID = r.ID) c r req (fun _ _ e => e) ?_
    unfold stepIdentity
    rw [setInt64_absent _ r h]
    exact andThen_all (andThen_all (P := fun t : ServerRequest A Q => t.ID = r.ID) rfl
      (fun t ht => setInt64_all _ _ (fun _ _ e => e) ht))
      (fun t ht => setString_all _ _ (fun _ _ e => e) ht)
  · intro h
    refine ServerRequest_state_all (fun t => t.FolderID = r.FolderID) c r req
      (fun _ _ e => e) ?_
    unfold stepIdentity
    refine andThen_all (andThen_all (setInt64_all _ _ (fun _ _ e => e) rfl) ?_)
      (fun t ht => setString_all _ _ (fun _ _ e => e) ht)
    intro t ht
    rw [setInt64_absent _ t h]
    exact ht
  · intro h
    refine ServerRequest_state_all (fun t => t.Title = r.Title) c r req (fun _ _ e => e) ?_
    unfold stepIdentity
    refine andThen_all (andThen_all (setInt64_all _ _ (fun _ _ e => e) rfl)
      (fun t ht => setInt64_all _ _ (fun _ _ e => e) ht)) ?_
    intro t ht
    rw [setString_absent _ t h]
    exact ht

/-- A payload with only `addr`, decoded into a profile that has every field set, changes the
address and nothing else, whatever its `request` key holds. -/
theorem absent_keys_keep_fields_witness :
    wellTyped fieldKeys [("addr", .str "new:2"), ("request", .str "x")] = true ∧
    WorkspaceItemServer.Model scenarioCollaborators staleProfile
        (some [("addr", .str "new:2"), ("request", .str "x")]) =
      .returned { staleProfile with Addr := "new:2" } none ∧
    (WorkspaceItemServer.Model scenarioCollaborators staleProfile
      (some [("addr", .str "new:2"), ("request", .str "x")])).state.Request =
        staleProfile.Request ∧
    (WorkspaceItemServer.Model scenarioCollaborators staleProfile
      (some [("addr", .str "new:2"), ("request", .str "x")])).state.K8SPortForward =
        staleProfile.K8SPortForward :=
  ⟨by decide, by decide,
    (absent_keys_keep_fields scenarioCollaborators staleProfile {}
      [("addr", .str "new:2"), ("request", .str "x")] (by decide)).2.2.2.2.2.2.2.2.2.2.2.1,
    (absent_keys_keep_fields scenarioCollaborators staleProfile {}
      [("addr", .str "new:2"), ("request", .str "x")] (by decide)).2.2.2.2.2.2.2.2.2.1 rfl⟩

end Frame

end Warthog
